import Mathlib

/-!
# Block session component, block root and partition proxy

Shallow embedding of

* `repos/os/include/block/component.h`
  (`Block::Policy`, `Block::Session_component`, `Block::Root`) and
* `repos/os/src/server/part_blk/proxy.h` (`Block::Proxy`).

Conventions of the embedding:

* `sector_t` and `size_t` are 64-bit unsigned integers.  They are embedded as
  `Nat`; an addition or subtraction of the source that can leave the range
  `[0, 2^64)` is written with `add64` / `sub64`.  A subtraction of the source
  that is guarded by a preceding comparison is written with the truncated
  subtraction of `Nat`, which agrees with the machine subtraction there.
* C++ exceptions are values: a function that can throw returns `Except`.
* The driver backend and the packet-stream sink are external.  What the
  session component does to them is recorded in a trace of `Event`s that is
  part of the session state; what the backend answers to a dispatch
  (accepted, `Request_congestion`, `Io_error`) is read from a script.
* Argument strings and XML policy nodes are embedded after parsing, as
  records of optional values (`none` is an absent argument / attribute).
-/

namespace Block

/-! ## Machine integers -/

/-- Modulus of the unsigned 64-bit types `sector_t` and `size_t`. -/
def SECTOR_MOD : Nat := 2 ^ 64

/-- Unsigned 64-bit addition. -/
def add64 (a b : Nat) : Nat := (a + b) % SECTOR_MOD

/-- Unsigned 64-bit subtraction. -/
def sub64 (a b : Nat) : Nat := (a % SECTOR_MOD + SECTOR_MOD - b % SECTOR_MOD) % SECTOR_MOD

/-! ## Errors -/

/-- Exceptions thrown by the root components. -/
inductive Root_error where
  | Unavailable
  | Quota_exceeded
  deriving DecidableEq, Repr

/-! ## Session arguments and policies -/

/-- Parsed client argument string (`Arg_string::find_arg`), `none` for an
argument that is not present. -/
structure Session_args where
  ram_quota   : Option Nat  := none
  tx_buf_size : Option Nat  := none
  offset      : Option Nat  := none
  span        : Option Nat  := none
  readable    : Option Bool := none
  writeable   : Option Bool := none
  label       : String      := ""
  deriving DecidableEq, Repr

/-- Parsed `<policy>` node that matched the session label
(`Genode::Session_policy`), `none` for an attribute that is not present. -/
structure Session_policy where
  partition : Option Int  := none
  readable  : Option Bool := none
  writeable : Option Bool := none
  deriving DecidableEq, Repr

/-- Convenience struct for session policy (`struct Block::Policy`).  The
defaults are those of the default constructor `Policy()`. -/
structure Policy where
  offset    : Nat  := 0
  span      : Nat  := 0
  readable  : Bool := true
  writeable : Bool := true
  deriving DecidableEq, Repr

/-- Constructor `Policy(Session_policy const &policy, char const *args)`. -/
def Policy.of_policy (policy : Session_policy) (args : Session_args) : Policy :=
  { offset    := args.offset.getD 0
    span      := args.span.getD 0
    readable  := if policy.readable.getD true then args.readable.getD true else false
    writeable := if policy.writeable.getD true then args.writeable.getD true else false }

/-- Constructor `Policy(char const *args)`. -/
def Policy.of_args (args : Session_args) : Policy :=
  { offset    := args.offset.getD 0
    span      := args.span.getD 0
    readable  := args.readable.getD true
    writeable := args.writeable.getD true }

/-! ## Packets, driver and trace -/

/-- Operation code of a packet descriptor. -/
inductive Opcode where
  | READ
  | WRITE
  | END
  deriving DecidableEq, Repr

/-- Block packet descriptor (`Block::Packet_descriptor`). -/
structure Packet_descriptor where
  operation    : Opcode
  block_number : Nat
  block_count  : Nat
  offset       : Nat
  size         : Nat
  succeeded    : Bool
  deriving DecidableEq, Repr

/-- The constant part of the driver backend seen by a session. -/
structure Driver where
  block_count : Nat
  dma_enabled : Bool
  deriving DecidableEq, Repr

/-- Answer of the backend to one dispatch call. -/
inductive Outcome where
  | accepted
  | Request_congestion
  | Io_error
  deriving DecidableEq, Repr

/-- One call of `read`, `write`, `read_dma` or `write_dma` on the driver:
`write = false` is a read, `dma = true` is the `_dma` variant. -/
structure Backend_call where
  write  : Bool
  dma    : Bool
  start  : Nat
  count  : Nat
  packet : Packet_descriptor
  deriving DecidableEq, Repr

/-- What a session does to its surroundings. -/
inductive Event where
  | backend (c : Backend_call)
  | ack (p : Packet_descriptor)
  | dequeue (p : Packet_descriptor)
  deriving DecidableEq, Repr

/-- The backend calls of a trace, in order. -/
def backend_calls : List Event → List Backend_call
  | [] => []
  | Event.backend c :: es => c :: backend_calls es
  | _ :: es => backend_calls es

/-- The acknowledged packets of a trace, in order. -/
def acks : List Event → List Packet_descriptor
  | [] => []
  | Event.ack p :: es => p :: acks es
  | _ :: es => acks es

/-! ## Session component -/

/-- Modulus of `unsigned`, the type of `_p_in_fly`. -/
def UNSIGNED_MOD : Nat := 2 ^ 32

/-- Decrement of an `unsigned` (`x--`): zero wraps around to `2^32 - 1`. -/
def dec32 (x : Nat) : Nat := if x = 0 then UNSIGNED_MOD - 1 else x - 1

/-- Modelled from the spec: the packet-stream sink `tx_sink()` of the session
(`os/packet_stream.h` is not part of the sources at hand).  It is the
session's end of "a fixed-capacity, bidirectional shared-memory ring pair
(submit queue, acknowledgment queue)" with "equal capacity on both sides":
the client appends requests to the submit queue and takes acknowledgements
from the acknowledgement queue. -/
structure Packet_stream_sink where
  capacity     : Nat := 0
  submit_queue : List Packet_descriptor := []
  ack_queue    : List Packet_descriptor := []
  deriving DecidableEq, Repr

/-- Modelled from the spec: `packet_avail()`, the submit queue is not
empty. -/
def Packet_stream_sink.packet_avail (k : Packet_stream_sink) : Bool :=
  !k.submit_queue.isEmpty

/-- Modelled from the spec: `ack_slots_free()`, the number of free slots of
the acknowledgement queue. -/
def Packet_stream_sink.ack_slots_free (k : Packet_stream_sink) : Nat :=
  k.capacity - k.ack_queue.length

/-- Modelled from the spec: `ready_to_ack()`, the acknowledgement queue has a
free slot. -/
def Packet_stream_sink.ready_to_ack (k : Packet_stream_sink) : Bool :=
  decide (0 < k.ack_slots_free)

/-- Modelled from the spec: `acknowledge_packet(packet)` puts the packet into
the acknowledgement queue.  (On a full queue the original waits for the
client; here the packet is queued all the same and no slot is free until the
client has taken enough acknowledgements.) -/
def Packet_stream_sink.acknowledge_packet (k : Packet_stream_sink)
    (packet : Packet_descriptor) : Packet_stream_sink :=
  { k with ack_queue := k.ack_queue ++ [packet] }

/-- State of a `Block::Session_component`. -/
structure Session_component where
  _label          : String
  driver          : Driver
  _req_queue_full : Bool
  _ack_queue_full : Bool
  _p_to_handle    : Packet_descriptor
  _p_in_fly       : Nat
  _offset         : Nat
  _span           : Nat
  _readable       : Bool
  _writeable      : Bool
  /-- answers of the backend to the dispatch calls still to come; once the
  script is used up every call is accepted -/
  outcomes        : List Outcome := []
  /-- backend calls and acknowledgements issued so far -/
  trace           : List Event := []
  /-- the packet-stream sink `tx_sink()` -/
  tx_sink         : Packet_stream_sink := {}
  deriving DecidableEq, Repr

/-- Accessor `writeable()`. -/
def Session_component.writeable (s : Session_component) : Bool := s._writeable

/-- Accessor `offset()`. -/
def Session_component.offset (s : Session_component) : Nat := s._offset

/-- Accessor `span()`. -/
def Session_component.span (s : Session_component) : Nat := s._span

/-- Acknowledge a packet already handled (`_ack_packet`). -/
def Session_component._ack_packet (s : Session_component) (packet : Packet_descriptor) :
    Session_component :=
  { s with
    tx_sink   := s.tx_sink.acknowledge_packet packet
    trace     := s.trace ++ [Event.ack packet]
    _p_in_fly := dec32 s._p_in_fly }

/-- Range check packet request (`_range_check`):
`p.block_number() + p.block_count() - 1 < _driver.block_count()`
in unsigned 64-bit arithmetic. -/
def Session_component._range_check (s : Session_component) (p : Packet_descriptor) : Bool :=
  decide (sub64 (add64 p.block_number p.block_count) 1 < s.driver.block_count)

/-- One call of the driver from within the `try` block of `_handle_packet`:
the call is recorded, the next answer of the backend is taken from the
script, and the two `catch` clauses are applied to it. -/
def Session_component.dispatch (s : Session_component) (c : Backend_call) : Session_component :=
  let s1 := { s with trace := s.trace ++ [Event.backend c], outcomes := s.outcomes.tail }
  match s.outcomes.head? with
  | some Outcome.Request_congestion => { s1 with _req_queue_full := true }
  | some Outcome.Io_error           => s1._ack_packet s1._p_to_handle
  | _                               => s1

/-- Handle a single request (`_handle_packet`). -/
def Session_component._handle_packet (s : Session_component) (packet : Packet_descriptor) :
    Session_component :=
  let s1 := { s with _p_to_handle := { packet with succeeded := false } }
  /- ignore invalid packets -/
  if packet.size = 0 ∨ s1._range_check s1._p_to_handle = false then
    s1._ack_packet s1._p_to_handle
  else
    /- enforce session constraints -/
    let block_number := min (add64 packet.block_number s1._offset) s1._span
    let block_count  := min packet.block_count (s1._span - block_number)
    match s1._p_to_handle.operation with
    | Opcode.READ =>
      if s1._readable = false then s1
      else s1.dispatch
        { write := false, dma := s1.driver.dma_enabled, start := block_number,
          count := block_count, packet := s1._p_to_handle }
    | Opcode.WRITE =>
      if s1._writeable = false then s1
      else s1.dispatch
        { write := true, dma := s1.driver.dma_enabled, start := block_number,
          count := block_count, packet := s1._p_to_handle }
    | Opcode.END =>
      /- throw Driver::Io_error(), caught below -/
      s1._ack_packet s1._p_to_handle

/-- The session takes the packet `packet` at the head of the submit queue out
of the queue (`tx_sink()->get_packet()`); `rest` is what stays in the
queue. -/
def Session_component.get_packet (s : Session_component)
    (packet : Packet_descriptor) (rest : List Packet_descriptor) : Session_component :=
  { s with
    tx_sink := { s.tx_sink with submit_queue := rest }
    trace   := s.trace ++ [Event.dequeue packet] }

/-- The increment expression of the `for` loop of `_packet_avail`:
`_ack_queue_full = (++_p_in_fly >= tx_sink()->ack_slots_free())`. -/
def Session_component.increment (s : Session_component) : Session_component :=
  { s with
    _p_in_fly       := (s._p_in_fly + 1) % UNSIGNED_MOD
    _ack_queue_full :=
      decide ((s._p_in_fly + 1) % UNSIGNED_MOD ≥ s.tx_sink.ack_slots_free) }

/-- One iteration of the `for` loop of `_packet_avail`, entered with the
packet `packet` at the head of the submit queue and `rest` behind it: the
packet is taken out of the queue and handled, then the increment expression
is evaluated. -/
def Session_component._packet_avail_step (s : Session_component)
    (packet : Packet_descriptor) (rest : List Packet_descriptor) : Session_component :=
  ((s.get_packet packet rest)._handle_packet packet).increment

/-- The `for` loop of `_packet_avail` after its initialisation expression;
`queue` is the content of the submit queue of `s`.  The loop goes on as long
as neither `_req_queue_full` nor `_ack_queue_full` is set and a packet is
available. -/
def Session_component._packet_avail_loop :
    List Packet_descriptor → Session_component → Session_component
  | [], s => s
  | packet :: rest, s =>
    if s._req_queue_full = false ∧ s._ack_queue_full = false then
      Session_component._packet_avail_loop rest (s._packet_avail_step packet rest)
    else s

/-- Triggered when a packet was placed into the empty submit queue
(`_packet_avail`). -/
def Session_component._packet_avail (s : Session_component) : Session_component :=
  Session_component._packet_avail_loop s.tx_sink.submit_queue
    { s with _ack_queue_full := decide (s._p_in_fly ≥ s.tx_sink.ack_slots_free) }

/-- Triggered when an ack got removed from the full ack queue
(`_ready_to_ack`). -/
def Session_component._ready_to_ack (s : Session_component) : Session_component :=
  s._packet_avail

/-- Acknowledges a packet processed by the driver to the client
(`ack_packet`). -/
def Session_component.ack_packet (s : Session_component) (packet : Packet_descriptor)
    (success : Bool) : Session_component :=
  let s1 := s._ack_packet { packet with succeeded := success }
  if s1._req_queue_full = false ∧ s1._ack_queue_full = false then s1
  else
    /- when the driver's request queue was full, handle last unprocessed
       packet taken out of submit queue -/
    let s2 :=
      if s1._req_queue_full = true then
        ({ s1 with _req_queue_full := false } : Session_component)._handle_packet
          s1._p_to_handle
      else s1
    /- resume packet processing -/
    s2._packet_avail

/-- A packet that `_handle_packet` hands to the backend: it has a non-zero
size, passes the range check, and is a READ on a readable or a WRITE on a
writeable session. -/
def Session_component.dispatchable (s : Session_component) (p : Packet_descriptor) : Prop :=
  p.size ≠ 0 ∧ s._range_check p = true ∧
  ((p.operation = Opcode.READ ∧ s._readable = true) ∨
   (p.operation = Opcode.WRITE ∧ s._writeable = true))

/-- The backend call `_handle_packet` makes for a dispatchable packet. -/
def Session_component.call_of (s : Session_component) (p : Packet_descriptor) : Backend_call :=
  { write  := decide (p.operation = Opcode.WRITE)
    dma    := s.driver.dma_enabled
    start  := min (add64 p.block_number s._offset) s._span
    count  := min p.block_count (s._span - min (add64 p.block_number s._offset) s._span)
    packet := { p with succeeded := false } }

/-- The session as constructed, connected to a packet stream of the given
capacity with empty queues and to a backend that gives the answers
`outcomes` to the calls to come. -/
def Session_component.start (s : Session_component) (capacity : Nat)
    (outcomes : List Outcome) : Session_component :=
  { s with outcomes := outcomes, tx_sink := { capacity := capacity } }

/-- What happens to a session: the three entry points of the session
component, and the two things the client does to the packet stream. -/
inductive Invocation where
  /-- signal handler `_packet_avail` -/
  | packet_avail
  /-- signal handler `_ready_to_ack` -/
  | ready_to_ack
  /-- completion of a request by the backend: `ack_packet(packet, success)` -/
  | ack_packet (packet : Packet_descriptor) (success : Bool)
  /-- the client puts a packet into the submit queue (if there is room) -/
  | submit (packet : Packet_descriptor)
  /-- the client takes the oldest acknowledgement out of the
  acknowledgement queue -/
  | release
  deriving DecidableEq, Repr

/-- Effect of one invocation on the session. -/
def Session_component.invoke (s : Session_component) : Invocation → Session_component
  | Invocation.packet_avail => s._packet_avail
  | Invocation.ready_to_ack => s._ready_to_ack
  | Invocation.ack_packet packet success => s.ack_packet packet success
  | Invocation.submit packet =>
    if s.tx_sink.submit_queue.length < s.tx_sink.capacity then
      { s with tx_sink :=
          { s.tx_sink with submit_queue := s.tx_sink.submit_queue ++ [packet] } }
    else s
  | Invocation.release =>
    { s with tx_sink := { s.tx_sink with ack_queue := s.tx_sink.ack_queue.tail } }

/-- Effect of a sequence of invocations. -/
def Session_component.run (s : Session_component) (is : List Invocation) : Session_component :=
  is.foldl Session_component.invoke s

/-- The packets taken out of the submit queue, in order. -/
def dequeues : List Event → List Packet_descriptor
  | [] => []
  | Event.dequeue p :: es => p :: dequeues es
  | _ :: es => dequeues es

/-- Constructor of `Session_component`: the member initialisers and the two
checks of the constructor body.  `driver` is the driver created by the
factory. -/
def Session_component.construct (driver : Driver) (policy : Policy) (label : String) :
    Except Root_error Session_component :=
  let _offset := policy.offset
  let _span   := if policy.span ≠ 0 then policy.span else driver.block_count
  if _offset ≥ driver.block_count then
    Except.error Root_error.Unavailable
  else if _span > driver.block_count - _offset then
    Except.error Root_error.Unavailable
  else
    Except.ok
      { _label          := label
        driver          := driver
        _req_queue_full := false
        _ack_queue_full := false
        _p_to_handle    :=
          { operation := Opcode.READ, block_number := 0, block_count := 0,
            offset := 0, size := 0, succeeded := false }
        _p_in_fly       := 0
        _offset         := _offset
        _span           := _span
        _readable       := policy.readable
        _writeable      := policy.writeable }

/-! ## Root component -/

/-- State of a `Block::Root`: the driver the factory hands out, the list of
registered sessions (head first) and the value of
`sizeof(Session_component) + sizeof(Allocator_avl)`. -/
structure Root where
  driver    : Driver
  _sessions : List Session_component := []
  sizeof_session_and_alloc : Nat := 0
  deriving Repr

/-- The overlap test of the conflict scan of `_create_session`. -/
def Root.overlap (policy : Policy) (s : Session_component) : Bool :=
  (decide (policy.offset ≤ s.offset) && decide (policy.span > s.offset)) ||
  (decide (policy.offset ≥ s.offset) && decide (policy.offset < s.span))

/-- The `for` loop of `_create_session` over the registered sessions: it
throws `Unavailable` at the first conflicting pair of writers and otherwise
returns the labels of the sessions a warning was printed for. -/
def Root.conflict_scan (policy : Policy) : List Session_component → Except Root_error (List String)
  | [] => Except.ok []
  | s :: rest =>
    if (policy.writeable || s.writeable) = false then
      /- both read-only, no problem -/
      Root.conflict_scan policy rest
    else if Root.overlap policy s then
      if policy.writeable && s.writeable then
        Except.error Root_error.Unavailable
      else
        match Root.conflict_scan policy rest with
        | Except.ok ws   => Except.ok (s._label :: ws)
        | Except.error e => Except.error e
    else
      Root.conflict_scan policy rest

/-- Session creation of the root component
(`_create_session`): on success the new session and the root with the session
inserted at the head of the session list. -/
def Root._create_session (r : Root) (args : Session_args) :
    Except Root_error (Session_component × Root) :=
  let ram_quota   := args.ram_quota.getD 0
  let tx_buf_size := args.tx_buf_size.getD 0
  let session_size := max 4096 r.sizeof_session_and_alloc
  if ram_quota < session_size then
    Except.error Root_error.Quota_exceeded
  else if tx_buf_size > ram_quota - session_size then
    Except.error Root_error.Quota_exceeded
  else
    let policy := Policy.of_args args
    match Root.conflict_scan policy r._sessions with
    | Except.error e => Except.error e
    | Except.ok _ =>
      match Session_component.construct r.driver policy args.label with
      | Except.error e => Except.error e
      | Except.ok session => Except.ok (session, { r with _sessions := session :: r._sessions })

/-! ## Partition proxy -/

/-- Partition of the partition table: first sector and number of sectors. -/
structure Partition where
  lba     : Nat
  sectors : Nat
  deriving DecidableEq, Repr

/-- Proxy session request (`Block::Proxy::session`).

* `config` is the policy matching the label, `none` if no policy matches
  (`Session_policy::No_policy_defined`);
* `table` is the lookup `Partition_table::partition`;
* the result is the `Block::Policy` whose four fields are written into the
  arguments of the session request to the parent `Block` service. -/
def Proxy.session (config : Option Session_policy) (table : Int → Option Partition)
    (args : Session_args) : Except Root_error Policy :=
  match config with
  | none => Except.error Root_error.Unavailable
  | some policy =>
    match policy.partition with
    | none => Except.error Root_error.Unavailable
    | some num =>
      let block_policy := Policy.of_policy policy args
      match table num with
      | none => Except.error Root_error.Unavailable
      | some partition =>
        /- calculate new constrained arguments -/
        if block_policy.offset ≥ partition.sectors then
          Except.error Root_error.Unavailable
        else
          let offset := add64 partition.lba block_policy.offset
          if block_policy.span > sub64 partition.sectors offset then
            Except.error Root_error.Unavailable
          else
            let span := if block_policy.span ≠ 0 then block_policy.span else partition.sectors
            Except.ok { block_policy with offset := offset, span := span }

/-! ## Selection of the partition table (`part_blk/main.cc`) -/

/-- What a call of `parse()` on a partition table does: it returns whether the
table is valid, or it throws `Mbr_partition_table::Protective_mbr_found`, or
it throws some other exception. -/
inductive Parse_outcome where
  | returns (valid : Bool)
  | Protective_mbr_found
  | other_exception
  deriving DecidableEq, Repr

/-- The two partition-table objects of `Main`. -/
inductive Table where
  | gpt
  | mbr
  deriving DecidableEq, Repr

/-- The exceptions that leave `Main::_table`: the rethrown
`Protective_mbr_found`, `No_partion_table`, and any other exception of
`_mbr.parse()`, which `_table` does not catch. -/
inductive Main_error where
  | Protective_mbr_found
  | No_partion_table
  | other_exception
  deriving DecidableEq, Repr

/-- Result of `Main::_table`: the parsers that were consulted, in order, and
the table returned or the exception thrown. -/
structure Table_selection where
  consulted : List Table
  result    : Except Main_error Table
  deriving Repr

/-- Table selection (`Main::_table`).  `use_gpt_attribute` is the value of the
`use_gpt` attribute of the configuration, `none` if the attribute is absent or
the configuration cannot be read (`use_gpt` then keeps its initial value
`false`); `gpt` and `mbr` say what `_gpt.parse()` and `_mbr.parse()` do when
they are called. -/
def Main._table (use_gpt_attribute : Option Bool) (gpt mbr : Parse_outcome) :
    Table_selection :=
  let use_gpt := use_gpt_attribute.getD false
  /- if (use_gpt) try { valid_gpt = _gpt.parse(); } catch (...) { } -/
  let valid_gpt :=
    if use_gpt then
      match gpt with
      | Parse_outcome.returns valid => valid
      | _ => false
    else false
  let consulted_gpt := if use_gpt then [Table.gpt] else []
  /- fall back to MBR -/
  if valid_gpt = false then
    match mbr with
    | Parse_outcome.returns valid_mbr =>
      if valid_mbr then
        { consulted := consulted_gpt ++ [Table.mbr], result := Except.ok Table.mbr }
      else
        { consulted := consulted_gpt ++ [Table.mbr],
          result := Except.error Main_error.No_partion_table }
    | Parse_outcome.Protective_mbr_found =>
      { consulted := consulted_gpt ++ [Table.mbr],
        result := Except.error Main_error.Protective_mbr_found }
    | Parse_outcome.other_exception =>
      { consulted := consulted_gpt ++ [Table.mbr],
        result := Except.error Main_error.other_exception }
  else
    { consulted := consulted_gpt, result := Except.ok Table.gpt }

/-! ## Notions used to state the properties of the engine -/

/-- The packets `p` and `x` are the same request, whatever their `succeeded`
flags say. -/
def same_request (p x : Packet_descriptor) : Bool :=
  decide (({ x with succeeded := false } : Packet_descriptor) = { p with succeeded := false })

/-- The number of completions of the request `p` that the backend reports
(by `ack_packet`) in a sequence of invocations. -/
def completions (p : Packet_descriptor) : List Invocation → Nat
  | [] => 0
  | Invocation.ack_packet x _ :: is =>
    (if same_request p x then 1 else 0) + completions p is
  | _ :: is => completions p is

/-- How often the backend is offered the request `p` in a trace. -/
def offers (p : Packet_descriptor) (trace : List Event) : Nat :=
  (backend_calls trace).countP (fun c => same_request p c.packet)

/-- How often the request `p` is taken out of the submit queue in a trace. -/
def dequeued (p : Packet_descriptor) (trace : List Event) : Nat :=
  (dequeues trace).countP (same_request p)

/-- How often the request `p` is acknowledged in a trace. -/
def acknowledged (p : Packet_descriptor) (trace : List Event) : Nat :=
  (acks trace).countP (same_request p)

/-- The request `p` is not waiting in the session: it is neither held because
of congestion nor in the submit queue. -/
def Session_component.not_pending (s : Session_component) (p : Packet_descriptor) : Prop :=
  (s._req_queue_full = true → same_request p s._p_to_handle = false) ∧
  ∀ y ∈ s.tx_sink.submit_queue, same_request p y = false

/-- Since the trace was `t₀`, the request `p` was neither offered to the
backend nor dequeued, it was acknowledged `n` times, and it is not waiting in
the session. -/
def Session_component.quiet_since (s : Session_component) (p : Packet_descriptor)
    (t₀ : List Event) (n : Nat) : Prop :=
  s.not_pending p ∧
  ∃ new, s.trace = t₀ ++ new ∧ offers p new = 0 ∧ dequeued p new = 0 ∧
    acknowledged p new = n

/-- The packet that was taken out of the submit queue last in a trace, and
`last` if the trace has no dequeue. -/
def last_dequeue_from (last : Option Packet_descriptor) : List Event → Option Packet_descriptor
  | [] => last
  | Event.dequeue p :: es => last_dequeue_from (some p) es
  | _ :: es => last_dequeue_from last es

/-- The packet that was taken out of the submit queue last in a trace. -/
def last_dequeue (trace : List Event) : Option Packet_descriptor :=
  last_dequeue_from none trace

/-- Every backend call of a trace is for the packet that was dequeued last
before the call; `last` is the packet dequeued last before the trace. -/
def calls_follow_dequeue (last : Option Packet_descriptor) : List Event → Prop
  | [] => True
  | Event.dequeue p :: es => calls_follow_dequeue (some p) es
  | Event.backend c :: es =>
    (∃ p, last = some p ∧ c.packet = { p with succeeded := false }) ∧
      calls_follow_dequeue last es
  | Event.ack _ :: es => calls_follow_dequeue last es

/-! ## Sample values -/

/-- A packet for the given operation and block range, with a payload of 512
bytes for each block. -/
def sample_packet (operation : Opcode) (block_number block_count : Nat) : Packet_descriptor :=
  { operation := operation, block_number := block_number, block_count := block_count,
    offset := 0, size := 512 * block_count, succeeded := false }

/-- A readable and writeable session over the whole of a backend of 1000
blocks that was just constructed, given the answers of the backend, the
content of the submit queue and the capacity of the packet stream. -/
def sample_session (outcomes : List Outcome) (submit_queue : List Packet_descriptor)
    (capacity : Nat) : Session_component :=
  { _label := "", driver := { block_count := 1000, dma_enabled := false },
    _req_queue_full := false, _ack_queue_full := false,
    _p_to_handle := sample_packet Opcode.READ 0 0, _p_in_fly := 0,
    _offset := 0, _span := 1000, _readable := true, _writeable := true,
    outcomes := outcomes,
    tx_sink := { capacity := capacity, submit_queue := submit_queue } }

/-- Two sector ranges `[o₁, o₁ + n₁)` and `[o₂, o₂ + n₂)` share a sector. -/
def ranges_intersect (o₁ n₁ o₂ n₂ : Nat) : Prop :=
  ∃ x, o₁ ≤ x ∧ x < o₁ + n₁ ∧ o₂ ≤ x ∧ x < o₂ + n₂

/-- Number of answers other than `accepted` among the first `n` answers of
the script of the backend: the calls among the first `n` that the backend
refuses with `Request_congestion` or `Io_error`. -/
def refusals : List Outcome → Nat → Nat
  | [], _ => 0
  | _ :: _, 0 => 0
  | o :: os, n + 1 => (if o = Outcome.accepted then 0 else 1) + refusals os n

/-- Number of the backend calls in the trace that the backend accepted, when
it answers the calls according to `script`. -/
def accepted_calls (script : List Outcome) (trace : List Event) : Nat :=
  (backend_calls trace).length - refusals script (backend_calls trace).length

/-- The backend completes each accepted packet at most once: whenever it
reports a completion (`ack_packet`), the completions it has reported before,
`completed` at the start of the invocations, are fewer than the calls it has
accepted. -/
def Session_component.completes_at_most_once (script : List Outcome) :
    Session_component → Nat → List Invocation → Prop
  | _, _, [] => True
  | s, completed, Invocation.ack_packet packet success :: is =>
    completed < accepted_calls script s.trace ∧
    Session_component.completes_at_most_once script (s.ack_packet packet success)
      (completed + 1) is
  | s, completed, i :: is =>
    Session_component.completes_at_most_once script (s.invoke i) completed is

/-- Bookkeeping of a session whose backend answers according to `script` and
has reported `completed` completions: the script is consumed by the backend
calls, the in-flight counter is the number of dequeues less the number of
acknowledgements and within the capacity of the acknowledgement queue, and
every acknowledgement is covered by a completion, a refusal or a dequeued
packet that was not handed to the backend. -/
def Session_component.accounted (script : List Outcome) (completed : Nat)
    (t : Session_component) : Prop :=
  t.outcomes = script.drop (backend_calls t.trace).length ∧
  t._p_in_fly + (acks t.trace).length = (dequeues t.trace).length ∧
  t._p_in_fly ≤ t.tx_sink.capacity ∧
  (acks t.trace).length + (backend_calls t.trace).length +
      (if t._req_queue_full = true then 1 else 0) ≤
    (dequeues t.trace).length + completed +
      refusals script (backend_calls t.trace).length ∧
  completed + refusals script (backend_calls t.trace).length ≤
    (backend_calls t.trace).length

/-- The values of `_p_in_fly` at which the loop of `_packet_avail` takes
packets out of the submit queue: one value for each iteration that is
entered, the counter at the `get_packet()` of that iteration (compare
`_packet_avail_loop`). -/
def Session_component._packet_avail_loop_levels :
    List Packet_descriptor → Session_component → List Nat
  | [], _ => []
  | packet :: rest, s =>
    if s._req_queue_full = false ∧ s._ack_queue_full = false then
      s._p_in_fly ::
        Session_component._packet_avail_loop_levels rest (s._packet_avail_step packet rest)
    else []

/-- The values of `_p_in_fly` at which an invocation of `_packet_avail` takes
packets out of the submit queue. -/
def Session_component.dequeue_levels (s : Session_component) : List Nat :=
  Session_component._packet_avail_loop_levels s.tx_sink.submit_queue
    { s with _ack_queue_full := decide (s._p_in_fly ≥ s.tx_sink.ack_slots_free) }

/-! ## Auxiliary facts on the trace of `_handle_packet` -/

theorem backend_calls_append (xs ys : List Event) :
    backend_calls (xs ++ ys) = backend_calls xs ++ backend_calls ys := by
  induction xs with
  | nil => rfl
  | cons e es ih => cases e <;> simp [backend_calls, ih]

theorem acks_append (xs ys : List Event) : acks (xs ++ ys) = acks xs ++ acks ys := by
  induction xs with
  | nil => rfl
  | cons e es ih => cases e <;> simp [acks, ih]

/-- The events of one driver call: the call itself, followed by the
acknowledgement of the packet to handle when the backend answers with
`Io_error`. -/
theorem dispatch_trace (s : Session_component) (c : Backend_call) :
    (s.dispatch c).trace = s.trace ++ [Event.backend c] ∨
    (s.dispatch c).trace = s.trace ++ [Event.backend c, Event.ack s._p_to_handle] := by
  unfold Session_component.dispatch
  split
  · left; rfl
  · right; simp [Session_component._ack_packet]
  · left; rfl

/-- A packet of size zero or failing the range check is acknowledged and
nothing else happens. -/
theorem handle_packet_invalid (s : Session_component) (p : Packet_descriptor)
    (h : p.size = 0 ∨
      ¬ sub64 (add64 p.block_number p.block_count) 1 < s.driver.block_count) :
    s._handle_packet p =
      ({ s with _p_to_handle := { p with succeeded := false } } : Session_component)._ack_packet
        { p with succeeded := false } := by
  unfold Session_component._handle_packet
  have h' : p.size = 0 ∨
      ({ s with _p_to_handle := { p with succeeded := false } } : Session_component)._range_check
        { p with succeeded := false } = false := by
    rcases h with h | h
    · exact Or.inl h
    · right; simp [Session_component._range_check]; omega
  simp only [h', if_true]

/-- What a packet passing the validation does, by operation and
permission. -/
theorem handle_packet_valid (s : Session_component) (p : Packet_descriptor)
    (hsize : p.size ≠ 0)
    (hrange : sub64 (add64 p.block_number p.block_count) 1 < s.driver.block_count) :
    s._handle_packet p =
      (let s1 : Session_component := { s with _p_to_handle := { p with succeeded := false } }
       let block_number := min (add64 p.block_number s._offset) s._span
       let block_count := min p.block_count (s._span - block_number)
       match p.operation with
       | Opcode.READ =>
         if s._readable = false then s1
         else s1.dispatch
           { write := false, dma := s.driver.dma_enabled, start := block_number,
             count := block_count, packet := { p with succeeded := false } }
       | Opcode.WRITE =>
         if s._writeable = false then s1
         else s1.dispatch
           { write := true, dma := s.driver.dma_enabled, start := block_number,
             count := block_count, packet := { p with succeeded := false } }
       | Opcode.END => s1._ack_packet { p with succeeded := false }) := by
  unfold Session_component._handle_packet
  have h' : ¬ (p.size = 0 ∨
      ({ s with _p_to_handle := { p with succeeded := false } } : Session_component)._range_check
        { p with succeeded := false } = false) := by
    simp [Session_component._range_check, hsize, hrange]
  simp only [h', if_false]

/-! ## Session creation of the root component -/

/-- C1 (the code departs from the claim): on a device of 1000 blocks a
writeable session for the sectors `[100, 150)` is registered; a second
writeable request for `[120, 130)`, which lies inside that range, is not
refused by `_create_session`: afterwards both sessions are registered, both
are writeable, and sector 120 belongs to both ranges. -/
theorem create_session_admits_overlapping_writers :
    ∃ s₁ r₁ s₂ r₂,
      Root._create_session { driver := { block_count := 1000, dma_enabled := false } }
        { ram_quota := some 8192, offset := some 100, span := some 50 } = Except.ok (s₁, r₁) ∧
      Root._create_session r₁
        { ram_quota := some 8192, offset := some 120, span := some 10 } = Except.ok (s₂, r₂) ∧
      r₂._sessions = [s₂, s₁] ∧
      s₁.writeable = true ∧ s₂.writeable = true ∧
      (s₁.offset, s₁.span) = (100, 50) ∧ (s₂.offset, s₂.span) = (120, 10) ∧
      ranges_intersect s₁.offset s₁.span s₂.offset s₂.span := by
  refine ⟨_, _, _, _, rfl, rfl, rfl, rfl, rfl, rfl, rfl, ?_⟩
  exact ⟨120, by decide, by decide, by decide, by decide⟩

/-! ## Dispatch of a packet -/

/-- C2 (the code departs from the claim): for the session opened with
offset 100 and span 50 on a backend of 1000 blocks, the READ packet with
block number 10 and block count 5 reaches the backend as `read(50, 0)`, not
as `read(110, 5)`. -/
theorem handle_packet_roundtrip_dispatch :
    (Session_component.construct { block_count := 1000, dma_enabled := false }
        { offset := 100, span := 50 } "").map
      (fun s => backend_calls (s._handle_packet
        { operation := Opcode.READ, block_number := 10, block_count := 5,
          offset := 0, size := 2560, succeeded := false }).trace)
    = Except.ok
        [{ write := false, dma := false, start := 50, count := 0,
           packet := { operation := Opcode.READ, block_number := 10, block_count := 5,
                       offset := 0, size := 2560, succeeded := false } }] := by
  rfl

/-- C3, as stated, fails: for the session with offset 100 and span 50 on a
backend of 1000 blocks, the READ packet with block number 60 and block
count 5 exceeds the span (`60 + 5 > 50`), yet the backend is called (with
start 50 and count 0) and the packet is not acknowledged. -/
theorem handle_packet_beyond_span_dispatched :
    (Session_component.construct { block_count := 1000, dma_enabled := false }
        { offset := 100, span := 50 } "").map
      (fun s =>
        (decide (60 + 5 > s._span),
         (s._handle_packet
            { operation := Opcode.READ, block_number := 60, block_count := 5,
              offset := 0, size := 2560, succeeded := false }).trace))
    = Except.ok
        (true,
         [Event.backend
           { write := false, dma := false, start := 50, count := 0,
             packet := { operation := Opcode.READ, block_number := 60, block_count := 5,
                         offset := 0, size := 2560, succeeded := false } }]) := by
  rfl

/-- C3, amended: a packet of size zero, or one that fails the range check
against the size of the backend (`block_number + block_count - 1`, in
64-bit arithmetic, is not below `driver.block_count()`), causes no backend
call and exactly one acknowledgement, of the packet with `succeeded =
false`. -/
theorem handle_packet_rejects_out_of_device (s : Session_component) (p : Packet_descriptor)
    (h : p.size = 0 ∨
      ¬ sub64 (add64 p.block_number p.block_count) 1 < s.driver.block_count) :
    (s._handle_packet p).trace = s.trace ++ [Event.ack { p with succeeded := false }] ∧
    backend_calls (s._handle_packet p).trace = backend_calls s.trace := by
  rw [handle_packet_invalid s p h]
  constructor
  · rfl
  · simp [Session_component._ack_packet, backend_calls_append, backend_calls]

theorem handle_packet_rejects_out_of_device_witness :
    (Session_component._handle_packet
      { _label := "", driver := { block_count := 1000, dma_enabled := false },
        _req_queue_full := false, _ack_queue_full := false,
        _p_to_handle := { operation := Opcode.READ, block_number := 0, block_count := 0,
                          offset := 0, size := 0, succeeded := false },
        _p_in_fly := 1, _offset := 100, _span := 50, _readable := true, _writeable := true }
      { operation := Opcode.READ, block_number := 998, block_count := 5,
        offset := 0, size := 2560, succeeded := true }).trace
    = [Event.ack { operation := Opcode.READ, block_number := 998, block_count := 5,
                   offset := 0, size := 2560, succeeded := false }] :=
  (handle_packet_rejects_out_of_device _ _ (Or.inr (by decide))).1

/-- What the constructor establishes: the window of a constructed session
lies inside the device. -/
theorem construct_ok_bounds (d : Driver) (pol : Policy) (label : String)
    (s : Session_component) (h : Session_component.construct d pol label = Except.ok s) :
    s.driver = d ∧ s._offset = pol.offset ∧
    s._span = (if pol.span ≠ 0 then pol.span else d.block_count) ∧
    s._offset < d.block_count ∧ s._span ≤ d.block_count - s._offset := by
  unfold Session_component.construct at h
  simp only at h
  split_ifs at h with h1 h2 h3 h4 <;> simp at h <;> subst h <;> (simp_all; try omega)

/-- C4: for a session that was constructed successfully (in whatever state
its mutable members are by now), every backend call that `_handle_packet`
adds to the trace has `start + count <= driver.block_count()` as natural
numbers; the 64-bit sum `block_number + _offset` may wrap around. -/
theorem handle_packet_backend_within_device (d : Driver) (pol : Policy) (label : String)
    (s₀ s : Session_component) (p : Packet_descriptor)
    (h₀ : Session_component.construct d pol label = Except.ok s₀)
    (hd : s.driver = s₀.driver) (hs : s._span = s₀._span) :
    ∃ new, (s._handle_packet p).trace = s.trace ++ new ∧
      ∀ c, Event.backend c ∈ new → c.start + c.count ≤ s.driver.block_count := by
  obtain ⟨hdrv, -, -, hlt, hle⟩ := construct_ok_bounds d pol label s₀ h₀
  have hspan : s._span ≤ s.driver.block_count := by
    rw [hs, hd, hdrv]; omega
  by_cases hv : p.size = 0 ∨
      ¬ sub64 (add64 p.block_number p.block_count) 1 < s.driver.block_count
  · refine ⟨[Event.ack { p with succeeded := false }], ?_, ?_⟩
    · rw [handle_packet_invalid s p hv]; rfl
    · intro c hc; simp at hc
  · have hsize : p.size ≠ 0 := fun h => hv (Or.inl h)
    have hrange : sub64 (add64 p.block_number p.block_count) 1 < s.driver.block_count := by
      by_contra h; exact hv (Or.inr h)
    rw [handle_packet_valid s p hsize hrange]
    have key : ∀ (w : Bool) (pk : Packet_descriptor) (s1 : Session_component),
        s1.trace = s.trace →
        ∃ new, (s1.dispatch
            { write := w, dma := s.driver.dma_enabled,
              start := min (add64 p.block_number s._offset) s._span,
              count := min p.block_count
                (s._span - min (add64 p.block_number s._offset) s._span),
              packet := pk }).trace = s.trace ++ new ∧
          ∀ c, Event.backend c ∈ new → c.start + c.count ≤ s.driver.block_count := by
      intro w pk s1 ht
      rcases dispatch_trace s1
        { write := w, dma := s.driver.dma_enabled,
          start := min (add64 p.block_number s._offset) s._span,
          count := min p.block_count
            (s._span - min (add64 p.block_number s._offset) s._span),
          packet := pk } with h | h
      · refine ⟨_, by rw [h, ht], ?_⟩
        intro c hc
        simp at hc
        subst hc
        simp only
        omega
      · refine ⟨_, by rw [h, ht], ?_⟩
        intro c hc
        simp at hc
        subst hc
        simp only
        omega
    cases p.operation <;> simp only
    · split_ifs
      · exact ⟨[], by simp, by simp⟩
      · exact key false _ _ rfl
    · split_ifs
      · exact ⟨[], by simp, by simp⟩
      · exact key true _ _ rfl
    · exact ⟨[Event.ack _], rfl, by simp⟩

theorem handle_packet_backend_within_device_witness :
    ∃ new,
      (Session_component._handle_packet
        { _label := "", driver := { block_count := 1000, dma_enabled := false },
          _req_queue_full := false, _ack_queue_full := false,
          _p_to_handle := { operation := Opcode.READ, block_number := 0, block_count := 0,
                            offset := 0, size := 0, succeeded := false },
          _p_in_fly := 0, _offset := 10, _span := 50, _readable := true, _writeable := true }
        { operation := Opcode.READ, block_number := 2 ^ 64 - 5, block_count := 20,
          offset := 0, size := 10240, succeeded := false }).trace = [] ++ new ∧
      ∀ c, Event.backend c ∈ new → c.start + c.count ≤ 1000 :=
  handle_packet_backend_within_device
    { block_count := 1000, dma_enabled := false } { offset := 10, span := 50 } ""
    { _label := "", driver := { block_count := 1000, dma_enabled := false },
      _req_queue_full := false, _ack_queue_full := false,
      _p_to_handle := { operation := Opcode.READ, block_number := 0, block_count := 0,
                        offset := 0, size := 0, succeeded := false },
      _p_in_fly := 0, _offset := 10, _span := 50, _readable := true, _writeable := true }
    _ _ rfl rfl rfl

/-! ## Construction of a session -/

/-- C5: for a policy with `span != 0` the constructor throws
`Root::Unavailable` exactly when `offset + span > block_count` as natural
numbers, and every session it creates (whatever the span of the policy)
satisfies `_offset + _span <= driver.block_count()`. -/
theorem construct_unavailable_iff (d : Driver) (pol : Policy) (label : String) :
    (pol.span ≠ 0 →
      (Session_component.construct d pol label = Except.error Root_error.Unavailable ↔
        pol.offset + pol.span > d.block_count)) ∧
    (∀ s, Session_component.construct d pol label = Except.ok s →
      s._offset + s._span ≤ s.driver.block_count) := by
  constructor
  · intro hspan
    unfold Session_component.construct
    simp only [hspan, ne_eq, not_false_eq_true, if_true]
    split_ifs with h1 h2
    · simp; omega
    · simp; omega
    · simp; omega
  · intro s h
    obtain ⟨hdrv, -, -, hlt, hle⟩ := construct_ok_bounds d pol label s h
    rw [hdrv]; omega

theorem construct_unavailable_iff_witness :
    Session_component.construct { block_count := 200, dma_enabled := false }
      { offset := 190, span := 20 } "" = Except.error Root_error.Unavailable :=
  ((construct_unavailable_iff { block_count := 200, dma_enabled := false }
      { offset := 190, span := 20 } "").1 (by decide)).2 (by decide)

/-- C6 (the code departs from the claim): on a backend of 100 blocks a
session with offset 10 and span 0 (unset) is not constructed with span 90;
the constructor throws `Root::Unavailable`. -/
theorem construct_default_span_denied :
    Session_component.construct { block_count := 100, dma_enabled := false }
      { offset := 10, span := 0 } "" = Except.error Root_error.Unavailable := by
  rfl

/-- C7: for a packet that passes the validation (non-zero size, range check)
the backend is called exactly when the operation is READ on a readable
session or WRITE on a writeable one, and then exactly once, with start
`min(block_number + _offset, _span)` (the sum in 64-bit arithmetic), with
count `min(block_count, _span - start)`, and in the DMA variant exactly when
`driver.dma_enabled()`. -/
theorem handle_packet_backend_call (s : Session_component) (p : Packet_descriptor)
    (hsize : p.size ≠ 0) (hrange : s._range_check p = true) :
    backend_calls (s._handle_packet p).trace =
      backend_calls s.trace ++
        (if (p.operation = Opcode.READ ∧ s._readable = true) ∨
            (p.operation = Opcode.WRITE ∧ s._writeable = true) then
          [{ write  := decide (p.operation = Opcode.WRITE)
             dma    := s.driver.dma_enabled
             start  := min (add64 p.block_number s._offset) s._span
             count  := min p.block_count
                         (s._span - min (add64 p.block_number s._offset) s._span)
             packet := { p with succeeded := false } }]
         else []) := by
  have hrange' : sub64 (add64 p.block_number p.block_count) 1 < s.driver.block_count := by
    simpa [Session_component._range_check] using hrange
  rw [handle_packet_valid s p hsize hrange']
  have key : ∀ (c : Backend_call) (q : Packet_descriptor),
      backend_calls
        (({ s with _p_to_handle := q } : Session_component).dispatch c).trace =
        backend_calls s.trace ++ [c] := by
    intro c q
    rcases dispatch_trace { s with _p_to_handle := q } c with h | h <;>
      rw [h, backend_calls_append] <;> simp [backend_calls]
  rcases p with ⟨op, bn, bc, off, sz, su⟩
  cases op <;> simp only
  · by_cases hr : s._readable = true
    · have hr' : ¬ s._readable = false := by simp [hr]
      rw [if_neg hr', key]
      simp [hr]
    · have hr' : s._readable = false := by simpa using hr
      rw [if_pos hr']
      simp [hr']
  · by_cases hw : s._writeable = true
    · have hw' : ¬ s._writeable = false := by simp [hw]
      rw [if_neg hw', key]
      simp [hw]
    · have hw' : s._writeable = false := by simpa using hw
      rw [if_pos hw']
      simp [hw']
  · simp [Session_component._ack_packet, backend_calls_append, backend_calls]

theorem handle_packet_backend_call_witness :
    backend_calls (Session_component._handle_packet
      { _label := "", driver := { block_count := 1000, dma_enabled := true },
        _req_queue_full := false, _ack_queue_full := false,
        _p_to_handle := { operation := Opcode.READ, block_number := 0, block_count := 0,
                          offset := 0, size := 0, succeeded := false },
        _p_in_fly := 0, _offset := 0, _span := 50, _readable := true, _writeable := true }
      { operation := Opcode.WRITE, block_number := 45, block_count := 10,
        offset := 0, size := 5120, succeeded := false }).trace
    = [{ write := true, dma := true, start := 45, count := 5,
         packet := { operation := Opcode.WRITE, block_number := 45, block_count := 10,
                     offset := 0, size := 5120, succeeded := false } }] :=
  handle_packet_backend_call _ _ (by decide) (by decide)

/-! ## Partition proxy -/

/-- C8 (the code departs from the claim): for the partition with
`lba = 2048` and `sectors = 100`, the request with offset 10 and span 5000 is
forwarded with offset 2058 and span 5000, a range that ends at sector 7058,
beyond the end 2148 of the partition. -/
theorem proxy_forwards_beyond_partition :
    Proxy.session (some { partition := some 1 })
      (fun n => if n = 1 then some { lba := 2048, sectors := 100 } else none)
      { offset := some 10, span := some 5000 }
    = Except.ok { offset := 2058, span := 5000, readable := true, writeable := true } := by
  rfl

/-- C9 (the code departs from the claim): for the partition with
`lba = 2048` and `sectors = 1000000`, the request with offset 0 and span
1000000, which is exactly the partition, is rejected with
`Root::Unavailable`. -/
theorem proxy_rejects_range_inside_partition :
    Proxy.session (some { partition := some 1 })
      (fun n => if n = 1 then some { lba := 2048, sectors := 1000000 } else none)
      { offset := some 0, span := some 1000000 }
    = Except.error Root_error.Unavailable := by
  rfl

/-- C10 (the code departs from the claim): for the partition with
`lba = 2048` and `sectors = 100`, the request with offset 10 and no span is
forwarded with span 100, the size of the whole partition, not with the 90
sectors that remain after the offset. -/
theorem proxy_default_span_whole_partition :
    Proxy.session (some { partition := some 1 })
      (fun n => if n = 1 then some { lba := 2048, sectors := 100 } else none)
      { offset := some 10, span := none }
    = Except.ok { offset := 2058, span := 100, readable := true, writeable := true } := by
  rfl

/-- C11: `Proxy::session` throws `Root::Unavailable`, and no session request
is forwarded to the parent, when no policy matches the label, when the
matching policy has no `partition` attribute, when the partition table has no
partition of the configured number, or when the client's offset is not below
the sector count of the partition. -/
theorem proxy_session_unavailable (config : Option Session_policy)
    (table : Int → Option Partition) (args : Session_args)
    (h : config = none ∨
      ∃ policy, config = some policy ∧
        (policy.partition = none ∨
          ∃ num, policy.partition = some num ∧
            (table num = none ∨
              ∃ partition, table num = some partition ∧
                args.offset.getD 0 ≥ partition.sectors))) :
    Proxy.session config table args = Except.error Root_error.Unavailable := by
  rcases h with h | ⟨policy, hc, h⟩
  · subst h; rfl
  · subst hc
    rcases h with h | ⟨num, hn, h⟩
    · simp [Proxy.session, h]
    · rcases h with h | ⟨partition, ht, h⟩
      · simp [Proxy.session, hn, h]
      · have h' : partition.sectors ≤ (Policy.of_policy policy args).offset := h
        simp [Proxy.session, hn, ht, h']

theorem proxy_session_unavailable_witness :
    Proxy.session (some { partition := some 1 })
      (fun n => if n = 1 then some { lba := 2048, sectors := 100 } else none)
      { offset := some 100, span := some 1 } = Except.error Root_error.Unavailable :=
  proxy_session_unavailable _ _ _
    (Or.inr ⟨_, rfl, Or.inr ⟨1, rfl, Or.inr ⟨_, rfl, by decide⟩⟩⟩)

/-! ## Policy -/

/-- C12: the policy built from a configured policy and the client arguments
is readable exactly when the `readable` attribute of the configuration
(default true) and the `readable` argument of the client (default true) are
both true, and likewise for `writeable`. -/
theorem policy_permissions (policy : Session_policy) (args : Session_args) :
    ((Policy.of_policy policy args).readable = true ↔
      policy.readable.getD true = true ∧ args.readable.getD true = true) ∧
    ((Policy.of_policy policy args).writeable = true ↔
      policy.writeable.getD true = true ∧ args.writeable.getD true = true) := by
  constructor <;> simp [Policy.of_policy]

/-! ## Quota check of the root component -/

/-- The conflict scan throws nothing but `Unavailable`. -/
theorem conflict_scan_error (policy : Policy) (l : List Session_component) (e : Root_error)
    (h : Root.conflict_scan policy l = Except.error e) : e = Root_error.Unavailable := by
  induction l with
  | nil => simp [Root.conflict_scan] at h
  | cons s rest ih =>
    unfold Root.conflict_scan at h
    split_ifs at h with h1 h2 h3
    · exact ih h
    · injection h with h; exact h.symm
    · cases hr : Root.conflict_scan policy rest with
      | error e' =>
        rw [hr] at h
        injection h with h
        subst h
        exact ih hr
      | ok ws => rw [hr] at h; simp at h
    · exact ih h

/-- The constructor throws nothing but `Unavailable`. -/
theorem construct_error (d : Driver) (pol : Policy) (label : String) (e : Root_error)
    (h : Session_component.construct d pol label = Except.error e) :
    e = Root_error.Unavailable := by
  unfold Session_component.construct at h
  simp only at h
  split_ifs at h <;> injection h with h <;> exact h.symm

/-- C13: `_create_session` throws `Root::Quota_exceeded` exactly when
`ram_quota < session_size + tx_buf_size` as natural numbers, with
`session_size = max(4096, sizeof(Session_component) + sizeof(Allocator_avl))`. -/
theorem create_session_quota_exceeded_iff (r : Root) (args : Session_args) :
    r._create_session args = Except.error Root_error.Quota_exceeded ↔
      args.ram_quota.getD 0 <
        max 4096 r.sizeof_session_and_alloc + args.tx_buf_size.getD 0 := by
  unfold Root._create_session
  simp only
  split_ifs with h1 h2
  · simp; omega
  · simp; omega
  · have hno : ¬ (args.ram_quota.getD 0 <
        max 4096 r.sizeof_session_and_alloc + args.tx_buf_size.getD 0) := by omega
    simp only [hno, iff_false]
    cases hs : Root.conflict_scan (Policy.of_args args) r._sessions with
    | error e =>
      have := conflict_scan_error _ _ _ hs
      subst this
      simp
    | ok ws =>
      cases hc : Session_component.construct r.driver (Policy.of_args args) args.label with
      | error e =>
        have := construct_error _ _ _ _ hc
        subst this
        simp
      | ok session => simp

/-- C14: a packet of size zero, or one whose operation is neither READ nor
WRITE, causes no backend call, is acknowledged exactly once (with
`succeeded = false`), and leaves `_req_queue_full` as it is. -/
theorem handle_packet_rejects_empty_or_unknown (s : Session_component) (p : Packet_descriptor)
    (h : p.size = 0 ∨ (p.operation ≠ Opcode.READ ∧ p.operation ≠ Opcode.WRITE)) :
    (s._handle_packet p).trace = s.trace ++ [Event.ack { p with succeeded := false }] ∧
    (s._handle_packet p)._req_queue_full = s._req_queue_full := by
  by_cases hv : p.size = 0 ∨
      ¬ sub64 (add64 p.block_number p.block_count) 1 < s.driver.block_count
  · rw [handle_packet_invalid s p hv]
    exact ⟨rfl, rfl⟩
  · have hsize : p.size ≠ 0 := fun h0 => hv (Or.inl h0)
    have hrange : sub64 (add64 p.block_number p.block_count) 1 < s.driver.block_count := by
      by_contra hr; exact hv (Or.inr hr)
    have hop : p.operation = Opcode.END := by
      rcases h with h | ⟨h1, h2⟩
      · exact absurd h hsize
      · cases hp : p.operation <;> simp_all
    rw [handle_packet_valid s p hsize hrange]
    rcases p with ⟨op, bn, bc, off, sz, su⟩
    simp only at hop
    subst hop
    exact ⟨rfl, rfl⟩

theorem handle_packet_rejects_empty_or_unknown_witness :
    (Session_component._handle_packet
      { _label := "", driver := { block_count := 1000, dma_enabled := false },
        _req_queue_full := false, _ack_queue_full := false,
        _p_to_handle := { operation := Opcode.READ, block_number := 0, block_count := 0,
                          offset := 0, size := 0, succeeded := false },
        _p_in_fly := 1, _offset := 0, _span := 1000, _readable := true, _writeable := true }
      { operation := Opcode.END, block_number := 7, block_count := 1,
        offset := 0, size := 512, succeeded := true }).trace
    = [Event.ack { operation := Opcode.END, block_number := 7, block_count := 1,
                   offset := 0, size := 512, succeeded := false }] :=
  (handle_packet_rejects_empty_or_unknown _ _ (Or.inr ⟨by decide, by decide⟩)).1

/-! ## The drain loop and the completion of requests -/

theorem dequeues_append (xs ys : List Event) :
    dequeues (xs ++ ys) = dequeues xs ++ dequeues ys := by
  induction xs with
  | nil => rfl
  | cons e es ih => cases e <;> simp [dequeues, ih]

/-- Counting down and up again gives the counter back, modulo `2^32`. -/
theorem dec32_succ_mod (x : Nat) : (dec32 x + 1) % UNSIGNED_MOD = x % UNSIGNED_MOD := by
  unfold dec32
  split_ifs with h
  · subst h; decide
  · have : x - 1 + 1 = x := by omega
    rw [this]

theorem dec32_cases (x : Nat) :
    (x = 0 ∧ dec32 x = 4294967295) ∨ (0 < x ∧ dec32 x = x - 1) := by
  unfold dec32
  split_ifs with h
  · exact Or.inl ⟨h, by decide⟩
  · exact Or.inr ⟨by omega, rfl⟩

theorem dec32_lt (x : Nat) (h : x < UNSIGNED_MOD) : dec32 x < UNSIGNED_MOD := by
  unfold dec32
  split_ifs with h0
  · decide
  · omega

/-- A dispatchable packet is handed to the backend. -/
theorem handle_packet_dispatchable (s : Session_component) (p : Packet_descriptor)
    (h : s.dispatchable p) :
    s._handle_packet p =
      ({ s with _p_to_handle := { p with succeeded := false } } : Session_component).dispatch
        (s.call_of p) := by
  obtain ⟨hsize, hrange, hop⟩ := h
  have hrange' : sub64 (add64 p.block_number p.block_count) 1 < s.driver.block_count := by
    simpa [Session_component._range_check] using hrange
  rw [handle_packet_valid s p hsize hrange']
  rcases p with ⟨op, bn, bc, off, sz, su⟩
  rcases hop with ⟨ho, hr⟩ | ⟨ho, hw⟩
  · simp only at ho
    subst ho
    simp [hr, Session_component.call_of]
  · simp only at ho
    subst ho
    simp [hw, Session_component.call_of]

/-- A packet that is not dispatchable is either acknowledged as failed or
dropped; the backend is not called. -/
theorem handle_packet_not_dispatchable (s : Session_component) (p : Packet_descriptor)
    (h : ¬ s.dispatchable p) :
    s._handle_packet p =
      ({ s with _p_to_handle := { p with succeeded := false } } : Session_component)._ack_packet
        { p with succeeded := false } ∨
    s._handle_packet p =
      ({ s with _p_to_handle := { p with succeeded := false } } : Session_component) := by
  by_cases hv : p.size = 0 ∨
      ¬ sub64 (add64 p.block_number p.block_count) 1 < s.driver.block_count
  · exact Or.inl (handle_packet_invalid s p hv)
  · have hsize : p.size ≠ 0 := fun h0 => hv (Or.inl h0)
    have hrange : sub64 (add64 p.block_number p.block_count) 1 < s.driver.block_count := by
      by_contra hr; exact hv (Or.inr hr)
    have hrc : s._range_check p = true := by
      simpa [Session_component._range_check] using hrange
    rw [handle_packet_valid s p hsize hrange]
    rcases p with ⟨op, bn, bc, off, sz, su⟩
    cases op
    · have hr : s._readable = false := by
        cases hb : s._readable
        · rfl
        · exact absurd ⟨hsize, hrc, Or.inl ⟨rfl, hb⟩⟩ h
      simp [hr]
    · have hw : s._writeable = false := by
        cases hb : s._writeable
        · rfl
        · exact absurd ⟨hsize, hrc, Or.inr ⟨rfl, hb⟩⟩ h
      simp [hw]
    · exact Or.inl rfl

theorem dispatch_congestion (s : Session_component) (c : Backend_call)
    (h : s.outcomes.head? = some Outcome.Request_congestion) :
    s.dispatch c =
      { s with trace := s.trace ++ [Event.backend c], outcomes := s.outcomes.tail,
               _req_queue_full := true } := by
  simp [Session_component.dispatch, h]

theorem dispatch_io_error (s : Session_component) (c : Backend_call)
    (h : s.outcomes.head? = some Outcome.Io_error) :
    s.dispatch c =
      ({ s with trace := s.trace ++ [Event.backend c], outcomes := s.outcomes.tail } :
        Session_component)._ack_packet s._p_to_handle := by
  simp [Session_component.dispatch, h]

theorem dispatch_accepted (s : Session_component) (c : Backend_call)
    (h1 : s.outcomes.head? ≠ some Outcome.Request_congestion)
    (h2 : s.outcomes.head? ≠ some Outcome.Io_error) :
    s.dispatch c =
      { s with trace := s.trace ++ [Event.backend c], outcomes := s.outcomes.tail } := by
  unfold Session_component.dispatch
  split
  · next h => exact absurd h h1
  · next h => exact absurd h h2
  · rfl

/-- What `_handle_packet` leaves alone: the constant members, the flag
`_ack_queue_full`, the submit queue and the capacity of the packet stream;
the packet to handle is the packet handled, marked as failed. -/
theorem handle_packet_frame (s : Session_component) (p : Packet_descriptor) :
    (s._handle_packet p).driver = s.driver ∧
    (s._handle_packet p)._offset = s._offset ∧
    (s._handle_packet p)._span = s._span ∧
    (s._handle_packet p)._readable = s._readable ∧
    (s._handle_packet p)._writeable = s._writeable ∧
    (s._handle_packet p)._ack_queue_full = s._ack_queue_full ∧
    (s._handle_packet p).tx_sink.submit_queue = s.tx_sink.submit_queue ∧
    (s._handle_packet p).tx_sink.capacity = s.tx_sink.capacity ∧
    (s._handle_packet p)._p_to_handle = { p with succeeded := false } := by
  by_cases hd : s.dispatchable p
  · rw [handle_packet_dispatchable s p hd]
    unfold Session_component.dispatch
    split <;> simp [Session_component._ack_packet, Packet_stream_sink.acknowledge_packet]
  · rcases handle_packet_not_dispatchable s p hd with h | h <;> rw [h] <;>
      simp [Session_component._ack_packet, Packet_stream_sink.acknowledge_packet]

theorem handle_packet_trace_prefix (s : Session_component) (p : Packet_descriptor) :
    ∃ tl, (s._handle_packet p).trace = s.trace ++ tl := by
  by_cases hd : s.dispatchable p
  · rw [handle_packet_dispatchable s p hd]
    rcases dispatch_trace { s with _p_to_handle := { p with succeeded := false } }
      (s.call_of p) with h | h
    · exact ⟨_, h⟩
    · exact ⟨_, h⟩
  · rcases handle_packet_not_dispatchable s p hd with h | h <;> rw [h]
    · exact ⟨[Event.ack { p with succeeded := false }], rfl⟩
    · exact ⟨[], by simp⟩

theorem packet_avail_step_trace (s : Session_component) (p : Packet_descriptor)
    (rest : List Packet_descriptor) :
    ∃ tl, (s._packet_avail_step p rest).trace = s.trace ++ Event.dequeue p :: tl := by
  obtain ⟨tl, h⟩ := handle_packet_trace_prefix (s.get_packet p rest) p
  refine ⟨tl, ?_⟩
  show (Session_component._handle_packet _ p).trace = _
  rw [h]
  simp [Session_component.get_packet]

theorem packet_avail_loop_cons (s : Session_component) (p : Packet_descriptor)
    (rest : List Packet_descriptor) :
    Session_component._packet_avail_loop (p :: rest) s =
      if s._req_queue_full = false ∧ s._ack_queue_full = false then
        Session_component._packet_avail_loop rest (s._packet_avail_step p rest)
      else s := rfl

theorem packet_avail_loop_trace_prefix (q : List Packet_descriptor) :
    ∀ s : Session_component, ∃ tl, (Session_component._packet_avail_loop q s).trace =
      s.trace ++ tl := by
  induction q with
  | nil => intro s; exact ⟨[], by simp [Session_component._packet_avail_loop]⟩
  | cons p rest ih =>
    intro s
    rw [packet_avail_loop_cons]
    split_ifs with hc
    · obtain ⟨tl, h⟩ := ih (s._packet_avail_step p rest)
      obtain ⟨tl', h'⟩ := packet_avail_step_trace s p rest
      exact ⟨Event.dequeue p :: tl' ++ tl, by rw [h, h']; simp⟩
    · exact ⟨[], by simp⟩

/-- The five ways `_handle_packet` can go, with what each does to the
trace, the script of the backend, the congestion flag, the in-flight counter
and the acknowledgement queue: the packet is (1) rejected, (2) dropped for
lack of permission, (3) accepted by the backend, (4) refused by the backend
with `Request_congestion`, (5) refused with `Io_error`. -/
theorem handle_packet_cases (s : Session_component) (p : Packet_descriptor) :
    (¬ s.dispatchable p ∧
      (s._handle_packet p).trace = s.trace ++ [Event.ack { p with succeeded := false }] ∧
      (s._handle_packet p).outcomes = s.outcomes ∧
      (s._handle_packet p)._req_queue_full = s._req_queue_full ∧
      (s._handle_packet p)._p_in_fly = dec32 s._p_in_fly ∧
      (s._handle_packet p).tx_sink.ack_queue =
        s.tx_sink.ack_queue ++ [{ p with succeeded := false }]) ∨
    (¬ s.dispatchable p ∧
      (s._handle_packet p).trace = s.trace ∧
      (s._handle_packet p).outcomes = s.outcomes ∧
      (s._handle_packet p)._req_queue_full = s._req_queue_full ∧
      (s._handle_packet p)._p_in_fly = s._p_in_fly ∧
      (s._handle_packet p).tx_sink.ack_queue = s.tx_sink.ack_queue) ∨
    (s.dispatchable p ∧
      s.outcomes.head? ≠ some Outcome.Request_congestion ∧
      s.outcomes.head? ≠ some Outcome.Io_error ∧
      (s._handle_packet p).trace = s.trace ++ [Event.backend (s.call_of p)] ∧
      (s._handle_packet p).outcomes = s.outcomes.tail ∧
      (s._handle_packet p)._req_queue_full = s._req_queue_full ∧
      (s._handle_packet p)._p_in_fly = s._p_in_fly ∧
      (s._handle_packet p).tx_sink.ack_queue = s.tx_sink.ack_queue) ∨
    (s.dispatchable p ∧
      s.outcomes.head? = some Outcome.Request_congestion ∧
      (s._handle_packet p).trace = s.trace ++ [Event.backend (s.call_of p)] ∧
      (s._handle_packet p).outcomes = s.outcomes.tail ∧
      (s._handle_packet p)._req_queue_full = true ∧
      (s._handle_packet p)._p_in_fly = s._p_in_fly ∧
      (s._handle_packet p).tx_sink.ack_queue = s.tx_sink.ack_queue) ∨
    (s.dispatchable p ∧
      s.outcomes.head? = some Outcome.Io_error ∧
      (s._handle_packet p).trace =
        s.trace ++ [Event.backend (s.call_of p), Event.ack { p with succeeded := false }] ∧
      (s._handle_packet p).outcomes = s.outcomes.tail ∧
      (s._handle_packet p)._req_queue_full = s._req_queue_full ∧
      (s._handle_packet p)._p_in_fly = dec32 s._p_in_fly ∧
      (s._handle_packet p).tx_sink.ack_queue =
        s.tx_sink.ack_queue ++ [{ p with succeeded := false }]) := by
  by_cases hd : s.dispatchable p
  · right; right
    rw [handle_packet_dispatchable s p hd]
    by_cases h1 : s.outcomes.head? = some Outcome.Request_congestion
    · right; left
      have h1' : ({ s with _p_to_handle := { p with succeeded := false } } :
          Session_component).outcomes.head? = some Outcome.Request_congestion := h1
      rw [dispatch_congestion _ _ h1']
      exact ⟨hd, h1, rfl, rfl, rfl, rfl, rfl⟩
    · by_cases h2 : s.outcomes.head? = some Outcome.Io_error
      · right; right
        have h2' : ({ s with _p_to_handle := { p with succeeded := false } } :
            Session_component).outcomes.head? = some Outcome.Io_error := h2
        rw [dispatch_io_error _ _ h2']
        refine ⟨hd, h2, ?_, rfl, rfl, rfl, rfl⟩
        simp [Session_component._ack_packet]
      · left
        have h1' : ({ s with _p_to_handle := { p with succeeded := false } } :
            Session_component).outcomes.head? ≠ some Outcome.Request_congestion := h1
        have h2' : ({ s with _p_to_handle := { p with succeeded := false } } :
            Session_component).outcomes.head? ≠ some Outcome.Io_error := h2
        rw [dispatch_accepted _ _ h1' h2']
        exact ⟨hd, h1, h2, rfl, rfl, rfl, rfl, rfl⟩
  · rcases handle_packet_not_dispatchable s p hd with h | h
    · left
      rw [h]
      exact ⟨hd, rfl, rfl, rfl, rfl, rfl⟩
    · right; left
      rw [h]
      exact ⟨hd, rfl, rfl, rfl, rfl, rfl⟩

/-- The loop of `_packet_avail` is entered with `_ack_queue_full` set by the
initialisation expression. -/
theorem packet_avail_eq (s : Session_component) :
    s._packet_avail =
      Session_component._packet_avail_loop s.tx_sink.submit_queue
        { s with _ack_queue_full := decide (s._p_in_fly ≥ s.tx_sink.ack_slots_free) } := rfl

/-- State after one iteration of the loop for a dispatchable packet that the
backend answers with `Io_error`. -/
theorem packet_avail_step_io_error (s : Session_component) (p : Packet_descriptor)
    (rest : List Packet_descriptor)
    (hd : s.dispatchable p) (ho : s.outcomes.head? = some Outcome.Io_error) :
    (s._packet_avail_step p rest).trace =
      s.trace ++ [Event.dequeue p, Event.backend (s.call_of p),
                  Event.ack { p with succeeded := false }] ∧
    (s._packet_avail_step p rest)._req_queue_full = s._req_queue_full ∧
    (s._packet_avail_step p rest)._ack_queue_full =
      decide ((dec32 s._p_in_fly + 1) % UNSIGNED_MOD ≥
        s.tx_sink.capacity - (s.tx_sink.ack_queue.length + 1)) := by
  have hd' : (s.get_packet p rest).dispatchable p := hd
  have ho' : (s.get_packet p rest).outcomes.head? = some Outcome.Io_error := ho
  obtain ⟨-, -, -, -, -, -, -, hcap, -⟩ := handle_packet_frame (s.get_packet p rest) p
  rcases handle_packet_cases (s.get_packet p rest) p with
    ⟨hn, -⟩ | ⟨hn, -⟩ | ⟨-, -, h2, -⟩ | ⟨-, h1, -⟩ | ⟨-, -, ht, -, hr, hp, ha⟩
  · exact absurd hd' hn
  · exact absurd hd' hn
  · exact absurd ho' h2
  · rw [ho'] at h1; cases h1
  · refine ⟨?_, hr, ?_⟩
    · show (Session_component._handle_packet _ p).trace = _
      rw [ht]
      simp [Session_component.get_packet, Session_component.call_of]
    · show decide (((Session_component._handle_packet _ p)._p_in_fly + 1) % UNSIGNED_MOD ≥
        (Session_component._handle_packet _ p).tx_sink.capacity -
          (Session_component._handle_packet _ p).tx_sink.ack_queue.length) = _
      rw [hp, ha, hcap]
      simp [Session_component.get_packet]

/-- C15: when the backend answers the call for a packet with `Io_error`, the
packet is acknowledged exactly once, as failed, right after the call, and
`_req_queue_full` stays as it is; in `_packet_avail` the loop then goes on:
with a further packet `q` in the submit queue and acknowledgement slots left,
`q` is the next packet taken out of the queue. -/
theorem packet_avail_io_error_goes_on (s : Session_component) (p : Packet_descriptor)
    (hd : s.dispatchable p) (ho : s.outcomes.head? = some Outcome.Io_error) :
    (s._handle_packet p).trace =
      s.trace ++ [Event.backend (s.call_of p), Event.ack { p with succeeded := false }] ∧
    (s._handle_packet p)._req_queue_full = s._req_queue_full ∧
    ∀ q rest, s.tx_sink.submit_queue = p :: q :: rest → s._req_queue_full = false →
      s._p_in_fly + 1 < s.tx_sink.ack_slots_free →
      ∃ tl, s._packet_avail.trace =
        s.trace ++ [Event.dequeue p, Event.backend (s.call_of p),
                    Event.ack { p with succeeded := false }, Event.dequeue q] ++ tl := by
  refine ⟨?_, ?_, ?_⟩
  · rcases handle_packet_cases s p with
      ⟨hn, -⟩ | ⟨hn, -⟩ | ⟨-, -, h2, -⟩ | ⟨-, h1, -⟩ | ⟨-, -, ht, -⟩
    · exact absurd hd hn
    · exact absurd hd hn
    · exact absurd ho h2
    · rw [ho] at h1; cases h1
    · exact ht
  · rcases handle_packet_cases s p with
      ⟨hn, -⟩ | ⟨hn, -⟩ | ⟨-, -, h2, -⟩ | ⟨-, h1, -⟩ | ⟨-, -, -, -, hr, -⟩
    · exact absurd hd hn
    · exact absurd hd hn
    · exact absurd ho h2
    · rw [ho] at h1; cases h1
    · exact hr
  · intro q rest hq hreq hroom
    have hroom' : ¬ s._p_in_fly ≥ s.tx_sink.ack_slots_free := by omega
    obtain ⟨h1, h2, h3⟩ := packet_avail_step_io_error
      { s with _ack_queue_full := decide (s._p_in_fly ≥ s.tx_sink.ack_slots_free) }
      p (q :: rest) hd ho
    have hfull : ¬ ((dec32 s._p_in_fly + 1) % UNSIGNED_MOD ≥
        s.tx_sink.capacity - (s.tx_sink.ack_queue.length + 1)) := by
      have hfree : s.tx_sink.ack_slots_free =
          s.tx_sink.capacity - s.tx_sink.ack_queue.length := rfl
      have hle : (dec32 s._p_in_fly + 1) % UNSIGNED_MOD ≤ s._p_in_fly := by
        rw [dec32_succ_mod]
        exact Nat.mod_le _ _
      omega
    rw [packet_avail_eq, hq, packet_avail_loop_cons,
      if_pos ⟨hreq, by simp only [hroom', decide_False]⟩,
      packet_avail_loop_cons,
      if_pos ⟨by rw [h2]; exact hreq, by rw [h3]; simp only [hfull, decide_False]⟩]
    obtain ⟨tl, h⟩ := packet_avail_loop_trace_prefix rest
      (Session_component._packet_avail_step
        (Session_component._packet_avail_step
          { s with _ack_queue_full := decide (s._p_in_fly ≥ s.tx_sink.ack_slots_free) }
          p (q :: rest)) q rest)
    obtain ⟨tl', h'⟩ := packet_avail_step_trace
        (Session_component._packet_avail_step
          { s with _ack_queue_full := decide (s._p_in_fly ≥ s.tx_sink.ack_slots_free) }
          p (q :: rest)) q rest
    refine ⟨tl' ++ tl, ?_⟩
    rw [h, h', h1]
    simp [Session_component.call_of]

/-! ## Induction principles for the entry points -/

theorem packet_avail_step_submit_queue (s : Session_component) (p : Packet_descriptor)
    (rest : List Packet_descriptor) :
    (s._packet_avail_step p rest).tx_sink.submit_queue = rest := by
  obtain ⟨-, -, -, -, -, -, hq, -, -⟩ := handle_packet_frame (s.get_packet p rest) p
  show (Session_component._handle_packet _ p).tx_sink.submit_queue = rest
  rw [hq]
  rfl

/-- A property that holds before the loop of `_packet_avail` and is kept by
every iteration that is entered holds after the loop. -/
theorem packet_avail_loop_induction (P : Session_component → Prop)
    (hstep : ∀ (s : Session_component) (p : Packet_descriptor) (rest : List Packet_descriptor),
      s.tx_sink.submit_queue = p :: rest → s._req_queue_full = false →
      s._ack_queue_full = false → P s → P (s._packet_avail_step p rest)) :
    ∀ (q : List Packet_descriptor) (s : Session_component),
      s.tx_sink.submit_queue = q → P s → P (Session_component._packet_avail_loop q s) := by
  intro q
  induction q with
  | nil => intro s _ h; exact h
  | cons p rest ih =>
    intro s hq h
    rw [packet_avail_loop_cons]
    split_ifs with hc
    · exact ih _ (packet_avail_step_submit_queue s p rest) (hstep s p rest hq hc.1 hc.2 h)
    · exact h

/-- A property that is kept by the initialisation expression of the loop and
by every iteration is kept by `_packet_avail`. -/
theorem packet_avail_induction (P : Session_component → Prop)
    (hinit : ∀ (s : Session_component) (b : Bool), P s → P { s with _ack_queue_full := b })
    (hstep : ∀ (s : Session_component) (p : Packet_descriptor) (rest : List Packet_descriptor),
      s.tx_sink.submit_queue = p :: rest → s._req_queue_full = false →
      s._ack_queue_full = false → P s → P (s._packet_avail_step p rest))
    (s : Session_component) (h : P s) : P s._packet_avail := by
  rw [packet_avail_eq]
  exact packet_avail_loop_induction P hstep _ _ rfl (hinit s _ h)

/-- A property that holds after the acknowledgement made by `ack_packet` and
is kept by the retry of the held packet and by `_packet_avail` holds after
`ack_packet`. -/
theorem ack_packet_induction (P : Session_component → Prop)
    (hinit : ∀ (s : Session_component) (b : Bool), P s → P { s with _ack_queue_full := b })
    (hstep : ∀ (s : Session_component) (p : Packet_descriptor) (rest : List Packet_descriptor),
      s.tx_sink.submit_queue = p :: rest → s._req_queue_full = false →
      s._ack_queue_full = false → P s → P (s._packet_avail_step p rest))
    (hretry : ∀ s : Session_component, s._req_queue_full = true → P s →
      P (Session_component._handle_packet { s with _req_queue_full := false } s._p_to_handle))
    (s : Session_component) (packet : Packet_descriptor) (success : Bool)
    (h : P (s._ack_packet { packet with succeeded := success })) :
    P (s.ack_packet packet success) := by
  unfold Session_component.ack_packet
  simp only
  split_ifs with h1 h2
  · exact h
  · exact packet_avail_induction P hinit hstep _ (hretry _ h2 h)
  · exact packet_avail_induction P hinit hstep _ h

/-- What an iteration of the loop leaves alone, and what it always does. -/
theorem packet_avail_step_frame (s : Session_component) (p : Packet_descriptor)
    (rest : List Packet_descriptor) :
    (s._packet_avail_step p rest).driver = s.driver ∧
    (s._packet_avail_step p rest)._offset = s._offset ∧
    (s._packet_avail_step p rest)._span = s._span ∧
    (s._packet_avail_step p rest)._readable = s._readable ∧
    (s._packet_avail_step p rest)._writeable = s._writeable ∧
    (s._packet_avail_step p rest).tx_sink.capacity = s.tx_sink.capacity ∧
    (s._packet_avail_step p rest)._p_to_handle = { p with succeeded := false } ∧
    (s._packet_avail_step p rest)._p_in_fly < UNSIGNED_MOD := by
  obtain ⟨h1, h2, h3, h4, h5, -, -, h8, h9⟩ := handle_packet_frame (s.get_packet p rest) p
  refine ⟨h1, h2, h3, h4, h5, h8, h9, ?_⟩
  show ((Session_component._handle_packet _ p)._p_in_fly + 1) % UNSIGNED_MOD < UNSIGNED_MOD
  exact Nat.mod_lt _ (by decide)

/-- The five ways an iteration of the loop can go (see
`handle_packet_cases`). -/
theorem packet_avail_step_cases (s : Session_component) (p : Packet_descriptor)
    (rest : List Packet_descriptor) :
    (¬ s.dispatchable p ∧
      (s._packet_avail_step p rest).trace =
        s.trace ++ [Event.dequeue p, Event.ack { p with succeeded := false }] ∧
      (s._packet_avail_step p rest).outcomes = s.outcomes ∧
      (s._packet_avail_step p rest)._req_queue_full = s._req_queue_full ∧
      (s._packet_avail_step p rest)._p_in_fly =
        (dec32 s._p_in_fly + 1) % UNSIGNED_MOD ∧
      (s._packet_avail_step p rest).tx_sink.ack_queue =
        s.tx_sink.ack_queue ++ [{ p with succeeded := false }]) ∨
    (¬ s.dispatchable p ∧
      (s._packet_avail_step p rest).trace = s.trace ++ [Event.dequeue p] ∧
      (s._packet_avail_step p rest).outcomes = s.outcomes ∧
      (s._packet_avail_step p rest)._req_queue_full = s._req_queue_full ∧
      (s._packet_avail_step p rest)._p_in_fly = (s._p_in_fly + 1) % UNSIGNED_MOD ∧
      (s._packet_avail_step p rest).tx_sink.ack_queue = s.tx_sink.ack_queue) ∨
    (s.dispatchable p ∧
      s.outcomes.head? ≠ some Outcome.Request_congestion ∧
      s.outcomes.head? ≠ some Outcome.Io_error ∧
      (s._packet_avail_step p rest).trace =
        s.trace ++ [Event.dequeue p, Event.backend (s.call_of p)] ∧
      (s._packet_avail_step p rest).outcomes = s.outcomes.tail ∧
      (s._packet_avail_step p rest)._req_queue_full = s._req_queue_full ∧
      (s._packet_avail_step p rest)._p_in_fly = (s._p_in_fly + 1) % UNSIGNED_MOD ∧
      (s._packet_avail_step p rest).tx_sink.ack_queue = s.tx_sink.ack_queue) ∨
    (s.dispatchable p ∧
      s.outcomes.head? = some Outcome.Request_congestion ∧
      (s._packet_avail_step p rest).trace =
        s.trace ++ [Event.dequeue p, Event.backend (s.call_of p)] ∧
      (s._packet_avail_step p rest).outcomes = s.outcomes.tail ∧
      (s._packet_avail_step p rest)._req_queue_full = true ∧
      (s._packet_avail_step p rest)._p_in_fly = (s._p_in_fly + 1) % UNSIGNED_MOD ∧
      (s._packet_avail_step p rest).tx_sink.ack_queue = s.tx_sink.ack_queue) ∨
    (s.dispatchable p ∧
      s.outcomes.head? = some Outcome.Io_error ∧
      (s._packet_avail_step p rest).trace =
        s.trace ++ [Event.dequeue p, Event.backend (s.call_of p),
                    Event.ack { p with succeeded := false }] ∧
      (s._packet_avail_step p rest).outcomes = s.outcomes.tail ∧
      (s._packet_avail_step p rest)._req_queue_full = s._req_queue_full ∧
      (s._packet_avail_step p rest)._p_in_fly =
        (dec32 s._p_in_fly + 1) % UNSIGNED_MOD ∧
      (s._packet_avail_step p rest).tx_sink.ack_queue =
        s.tx_sink.ack_queue ++ [{ p with succeeded := false }]) := by
  have hfly : (s._packet_avail_step p rest)._p_in_fly =
      ((Session_component._handle_packet (s.get_packet p rest) p)._p_in_fly + 1) %
        UNSIGNED_MOD := rfl
  have htr : (s._packet_avail_step p rest).trace =
      (Session_component._handle_packet (s.get_packet p rest) p).trace := rfl
  have hout : (s._packet_avail_step p rest).outcomes =
      (Session_component._handle_packet (s.get_packet p rest) p).outcomes := rfl
  have hreq : (s._packet_avail_step p rest)._req_queue_full =
      (Session_component._handle_packet (s.get_packet p rest) p)._req_queue_full := rfl
  have hack : (s._packet_avail_step p rest).tx_sink.ack_queue =
      (Session_component._handle_packet (s.get_packet p rest) p).tx_sink.ack_queue := rfl
  have hcall : (s.get_packet p rest).call_of p = s.call_of p := rfl
  rw [hfly, htr, hout, hreq, hack]
  rcases handle_packet_cases (s.get_packet p rest) p with
    ⟨hd, ht, ho, hr, hp, ha⟩ | ⟨hd, ht, ho, hr, hp, ha⟩ | ⟨hd, h1, h2, ht, ho, hr, hp, ha⟩ |
    ⟨hd, h1, ht, ho, hr, hp, ha⟩ | ⟨hd, h1, ht, ho, hr, hp, ha⟩
  · left
    rw [ht, ho, hr, hp, ha]
    exact ⟨hd, by simp [Session_component.get_packet], rfl, rfl, rfl, rfl⟩
  · right; left
    rw [ht, ho, hr, hp, ha]
    exact ⟨hd, rfl, rfl, rfl, rfl, rfl⟩
  · right; right; left
    rw [ht, ho, hr, hp, ha, hcall]
    exact ⟨hd, h1, h2, by simp [Session_component.get_packet], rfl, rfl, rfl, rfl⟩
  · right; right; right; left
    rw [ht, ho, hr, hp, ha, hcall]
    exact ⟨hd, h1, by simp [Session_component.get_packet], rfl, rfl, rfl, rfl⟩
  · right; right; right; right
    rw [ht, ho, hr, hp, ha, hcall]
    exact ⟨hd, h1, by simp [Session_component.get_packet], rfl, rfl, rfl, rfl⟩

/-! ## Congestion of the backend -/

theorem mem_take_succ_iff {α : Type} (l : List α) (n : Nat) (x : α) :
    x ∈ l.take (n + 1) ↔ x ∈ l.take n ∨ (l.drop n).head? = some x := by
  rw [List.take_succ, List.head?_drop]
  simp [Option.mem_toList, eq_comm]

/-- The state of the loop of `_packet_avail`, related to the state `s` in
which the invocation began: the events so far, the answers of the backend
used up so far, what is left in the submit queue, and, once a call was
answered with `Request_congestion`, that this call is the last event. -/
theorem packet_avail_loop_congestion (s : Session_component)
    (hreq : s._req_queue_full = false) :
    ∃ new, s._packet_avail.trace = s.trace ++ new ∧
      s._packet_avail.outcomes = s.outcomes.drop (backend_calls new).length ∧
      dequeues new ++ s._packet_avail.tx_sink.submit_queue = s.tx_sink.submit_queue ∧
      ((s._packet_avail._req_queue_full = false ∧
          Outcome.Request_congestion ∉ s.outcomes.take (backend_calls new).length) ∨
       (s._packet_avail._req_queue_full = true ∧
          ∃ pre p, new = pre ++ [Event.dequeue p, Event.backend (s.call_of p)] ∧
            s._packet_avail._p_to_handle = { p with succeeded := false } ∧
            Outcome.Request_congestion ∉ s.outcomes.take (backend_calls pre).length)) := by
  have key := packet_avail_induction
    (fun t => (∀ p, t.call_of p = s.call_of p) ∧
      ∃ new, t.trace = s.trace ++ new ∧
        t.outcomes = s.outcomes.drop (backend_calls new).length ∧
        dequeues new ++ t.tx_sink.submit_queue = s.tx_sink.submit_queue ∧
        ((t._req_queue_full = false ∧
            Outcome.Request_congestion ∉ s.outcomes.take (backend_calls new).length) ∨
         (t._req_queue_full = true ∧
            ∃ pre p, new = pre ++ [Event.dequeue p, Event.backend (s.call_of p)] ∧
              t._p_to_handle = { p with succeeded := false } ∧
              Outcome.Request_congestion ∉ s.outcomes.take (backend_calls pre).length)))
    (fun t b h => h)
    (by
      intro t p rest hq hr _ ⟨hcall, new, htr, hout, hdq, hflag⟩
      have hno : Outcome.Request_congestion ∉ s.outcomes.take (backend_calls new).length := by
        rcases hflag with ⟨-, h⟩ | ⟨h, -⟩
        · exact h
        · rw [hr] at h; cases h
      obtain ⟨f1, f2, f3, -, -, -, f7, -⟩ := packet_avail_step_frame t p rest
      have hsq := packet_avail_step_submit_queue t p rest
      have hcall' : ∀ q, (t._packet_avail_step p rest).call_of q = s.call_of q := by
        intro q
        rw [← hcall q]
        simp [Session_component.call_of, f1, f2, f3]
      have hdq' : ∀ ev, dequeues ev = [] →
          dequeues (new ++ Event.dequeue p :: ev) ++
            (t._packet_avail_step p rest).tx_sink.submit_queue = s.tx_sink.submit_queue := by
        intro ev hev
        rw [hsq, ← hdq, hq, dequeues_append]
        simp [dequeues, hev]
      refine ⟨hcall', ?_⟩
      rcases packet_avail_step_cases t p rest with
        ⟨-, ht, ho, hrq, -, -⟩ | ⟨-, ht, ho, hrq, -, -⟩ | ⟨-, h1, h2, ht, ho, hrq, -, -⟩ |
        ⟨-, h1, ht, ho, hrq, -, -⟩ | ⟨-, h1, ht, ho, hrq, -, -⟩
      · refine ⟨new ++ [Event.dequeue p, Event.ack { p with succeeded := false }], ?_, ?_,
          hdq' _ rfl, Or.inl ⟨?_, ?_⟩⟩
        · rw [ht, htr]; simp
        · rw [ho, hout, backend_calls_append]; simp [backend_calls]
        · rw [hrq, hr]
        · rw [backend_calls_append]; simpa [backend_calls] using hno
      · refine ⟨new ++ [Event.dequeue p], ?_, ?_, hdq' _ rfl, Or.inl ⟨?_, ?_⟩⟩
        · rw [ht, htr]; simp
        · rw [ho, hout, backend_calls_append]; simp [backend_calls]
        · rw [hrq, hr]
        · rw [backend_calls_append]; simpa [backend_calls] using hno
      · refine ⟨new ++ [Event.dequeue p, Event.backend (t.call_of p)], ?_, ?_,
          hdq' _ rfl, Or.inl ⟨?_, ?_⟩⟩
        · rw [ht, htr]; simp
        · rw [ho, hout, backend_calls_append]; simp [backend_calls]
        · rw [hrq, hr]
        · rw [backend_calls_append]
          simp only [backend_calls, List.length_append, List.length_singleton]
          rw [mem_take_succ_iff]
          rintro (h | h)
          · exact hno h
          · rw [← hout] at h; exact h1 h
      · refine ⟨new ++ [Event.dequeue p, Event.backend (t.call_of p)], ?_, ?_,
          hdq' _ rfl, Or.inr ⟨hrq, new, p, ?_, f7, hno⟩⟩
        · rw [ht, htr]; simp
        · rw [ho, hout, backend_calls_append]; simp [backend_calls]
        · rw [hcall p]
      · refine ⟨new ++ [Event.dequeue p, Event.backend (t.call_of p),
            Event.ack { p with succeeded := false }], ?_, ?_, hdq' _ rfl, Or.inl ⟨?_, ?_⟩⟩
        · rw [ht, htr]; simp
        · rw [ho, hout, backend_calls_append]; simp [backend_calls]
        · rw [hrq, hr]
        · rw [backend_calls_append]
          simp only [backend_calls, List.length_append, List.length_singleton]
          rw [mem_take_succ_iff]
          rintro (h | h)
          · exact hno h
          · rw [← hout, h1] at h; cases h)
    s ⟨fun _ => rfl, [], by simp, by simp [backend_calls], by simp [dequeues],
      Or.inl ⟨hreq, by simp [backend_calls]⟩⟩
  exact key.2

/-- C16: when, during `_packet_avail`, a call of the backend is answered with
`Request_congestion`, then on return `_req_queue_full` is set, the events of
the invocation end with the dequeue of a packet and its (congested) backend
call, no earlier call of the invocation was congested, and `_p_to_handle` is
that packet: it was not acknowledged, and after it no packet was taken out of
the submit queue, which holds what the invocation did not dequeue. -/
theorem packet_avail_congestion (s : Session_component)
    (hreq : s._req_queue_full = false) :
    ∃ new, s._packet_avail.trace = s.trace ++ new ∧
      dequeues new ++ s._packet_avail.tx_sink.submit_queue = s.tx_sink.submit_queue ∧
      (Outcome.Request_congestion ∈ s.outcomes.take (backend_calls new).length →
        s._packet_avail._req_queue_full = true ∧
        ∃ pre p, new = pre ++ [Event.dequeue p, Event.backend (s.call_of p)] ∧
          s._packet_avail._p_to_handle = { p with succeeded := false } ∧
          Outcome.Request_congestion ∉ s.outcomes.take (backend_calls pre).length) := by
  obtain ⟨new, htr, -, hdq, h⟩ := packet_avail_loop_congestion s hreq
  refine ⟨new, htr, hdq, ?_⟩
  intro hc
  rcases h with ⟨-, hno⟩ | h
  · exact absurd hc hno
  · exact h

theorem packet_avail_congestion_witness :
    ∃ new,
      (sample_session [Outcome.accepted, Outcome.Request_congestion]
        [sample_packet Opcode.READ 1 1, sample_packet Opcode.READ 2 1,
         sample_packet Opcode.READ 3 1] 4)._packet_avail.trace = [] ++ new ∧
      dequeues new ++
        (sample_session [Outcome.accepted, Outcome.Request_congestion]
          [sample_packet Opcode.READ 1 1, sample_packet Opcode.READ 2 1,
           sample_packet Opcode.READ 3 1] 4)._packet_avail.tx_sink.submit_queue =
        [sample_packet Opcode.READ 1 1, sample_packet Opcode.READ 2 1,
         sample_packet Opcode.READ 3 1] ∧
      (Outcome.Request_congestion ∈
          [Outcome.accepted, Outcome.Request_congestion].take (backend_calls new).length →
        (sample_session [Outcome.accepted, Outcome.Request_congestion]
          [sample_packet Opcode.READ 1 1, sample_packet Opcode.READ 2 1,
           sample_packet Opcode.READ 3 1] 4)._packet_avail._req_queue_full = true ∧
        ∃ pre p, new = pre ++ [Event.dequeue p,
            Event.backend ((sample_session [Outcome.accepted, Outcome.Request_congestion]
              [sample_packet Opcode.READ 1 1, sample_packet Opcode.READ 2 1,
               sample_packet Opcode.READ 3 1] 4).call_of p)] ∧
          (sample_session [Outcome.accepted, Outcome.Request_congestion]
            [sample_packet Opcode.READ 1 1, sample_packet Opcode.READ 2 1,
             sample_packet Opcode.READ 3 1] 4)._packet_avail._p_to_handle =
            { p with succeeded := false } ∧
          Outcome.Request_congestion ∉
            [Outcome.accepted, Outcome.Request_congestion].take (backend_calls pre).length) :=
  packet_avail_congestion
    (sample_session [Outcome.accepted, Outcome.Request_congestion]
      [sample_packet Opcode.READ 1 1, sample_packet Opcode.READ 2 1,
       sample_packet Opcode.READ 3 1] 4) rfl

/-- While `_req_queue_full` is set, `_packet_avail` only evaluates the
initialisation expression of its loop. -/
theorem packet_avail_of_req_queue_full (s : Session_component)
    (h : s._req_queue_full = true) :
    s._packet_avail =
      { s with _ack_queue_full := decide (s._p_in_fly ≥ s.tx_sink.ack_slots_free) } := by
  rw [packet_avail_eq]
  cases hq : s.tx_sink.submit_queue with
  | nil => rfl
  | cons p rest =>
    rw [packet_avail_loop_cons, if_neg]
    simp [h]

/-- C18, as stated, fails: a session holds the READ packet for block 2
because of congestion (`_req_queue_full` is set) and the backend would accept
the next call; `_ready_to_ack` neither calls the backend nor dequeues the
waiting packet for block 3: the trace is unchanged. -/
theorem ready_to_ack_does_not_retry :
    ((sample_session [Outcome.accepted, Outcome.Request_congestion, Outcome.accepted]
        [sample_packet Opcode.READ 1 1, sample_packet Opcode.READ 2 1,
         sample_packet Opcode.READ 3 1] 4)._packet_avail._req_queue_full,
     (sample_session [Outcome.accepted, Outcome.Request_congestion, Outcome.accepted]
        [sample_packet Opcode.READ 1 1, sample_packet Opcode.READ 2 1,
         sample_packet Opcode.READ 3 1] 4)._packet_avail._ready_to_ack.trace)
    = (true,
       (sample_session [Outcome.accepted, Outcome.Request_congestion, Outcome.accepted]
        [sample_packet Opcode.READ 1 1, sample_packet Opcode.READ 2 1,
         sample_packet Opcode.READ 3 1] 4)._packet_avail.trace) := by
  rfl

/-- C18, amended: when `_ready_to_ack` arrives while `_req_queue_full` is
set, the engine neither re-dispatches the held packet nor dequeues anything:
the trace, the submit queue, the held packet and the flag stay as they are
(the held packet is retried only by `ack_packet`). -/
theorem ready_to_ack_while_congested (s : Session_component)
    (h : s._req_queue_full = true) :
    s._ready_to_ack.trace = s.trace ∧
    s._ready_to_ack.tx_sink = s.tx_sink ∧
    s._ready_to_ack._p_to_handle = s._p_to_handle ∧
    s._ready_to_ack._req_queue_full = true := by
  unfold Session_component._ready_to_ack
  rw [packet_avail_of_req_queue_full s h]
  exact ⟨rfl, rfl, rfl, h⟩

theorem ready_to_ack_while_congested_witness :
    (sample_session [Outcome.Request_congestion] [sample_packet Opcode.READ 1 1] 4
      )._packet_avail._ready_to_ack.trace =
    (sample_session [Outcome.Request_congestion] [sample_packet Opcode.READ 1 1] 4
      )._packet_avail.trace :=
  (ready_to_ack_while_congested _ rfl).1

theorem packet_avail_io_error_goes_on_witness :
    ∃ tl,
      (sample_session [Outcome.Io_error]
        [sample_packet Opcode.READ 1 1, sample_packet Opcode.READ 2 1] 4)._packet_avail.trace =
      [] ++ [Event.dequeue (sample_packet Opcode.READ 1 1),
             Event.backend { write := false, dma := false, start := 1, count := 1,
                             packet := sample_packet Opcode.READ 1 1 },
             Event.ack (sample_packet Opcode.READ 1 1),
             Event.dequeue (sample_packet Opcode.READ 2 1)] ++ tl :=
  (packet_avail_io_error_goes_on
    (sample_session [Outcome.Io_error]
      [sample_packet Opcode.READ 1 1, sample_packet Opcode.READ 2 1] 4)
    (sample_packet Opcode.READ 1 1)
    ⟨by decide, by decide, Or.inl ⟨rfl, rfl⟩⟩ rfl).2.2
    (sample_packet Opcode.READ 2 1) [] rfl rfl (by decide)

/-- A property that is kept by the pieces the entry points are made of is
kept by every invocation. -/
theorem invoke_induction (P : Session_component → Prop)
    (hinit : ∀ (s : Session_component) (b : Bool), P s → P { s with _ack_queue_full := b })
    (hstep : ∀ (s : Session_component) (p : Packet_descriptor) (rest : List Packet_descriptor),
      s.tx_sink.submit_queue = p :: rest → s._req_queue_full = false →
      s._ack_queue_full = false → P s → P (s._packet_avail_step p rest))
    (hretry : ∀ s : Session_component, s._req_queue_full = true → P s →
      P (Session_component._handle_packet { s with _req_queue_full := false } s._p_to_handle))
    (hack : ∀ (s : Session_component) (p : Packet_descriptor), P s → P (s._ack_packet p))
    (hsubmit : ∀ (s : Session_component) (p : Packet_descriptor), P s →
      P { s with tx_sink :=
            { s.tx_sink with submit_queue := s.tx_sink.submit_queue ++ [p] } })
    (hrelease : ∀ s : Session_component, P s →
      P { s with tx_sink := { s.tx_sink with ack_queue := s.tx_sink.ack_queue.tail } })
    (s : Session_component) (i : Invocation) (h : P s) : P (s.invoke i) := by
  cases i with
  | packet_avail => exact packet_avail_induction P hinit hstep s h
  | ready_to_ack => exact packet_avail_induction P hinit hstep s h
  | ack_packet packet success =>
    exact ack_packet_induction P hinit hstep hretry s packet success (hack s _ h)
  | submit packet =>
    show P (if _ then _ else _)
    split_ifs
    · exact hsubmit s packet h
    · exact h
  | release => exact hrelease s h

theorem run_nil (s : Session_component) : s.run [] = s := rfl

theorem run_cons (s : Session_component) (i : Invocation) (is : List Invocation) :
    s.run (i :: is) = (s.invoke i).run is := rfl

/-- A property that is kept by the pieces the entry points are made of is
kept by every sequence of invocations. -/
theorem run_induction (P : Session_component → Prop)
    (hinit : ∀ (s : Session_component) (b : Bool), P s → P { s with _ack_queue_full := b })
    (hstep : ∀ (s : Session_component) (p : Packet_descriptor) (rest : List Packet_descriptor),
      s.tx_sink.submit_queue = p :: rest → s._req_queue_full = false →
      s._ack_queue_full = false → P s → P (s._packet_avail_step p rest))
    (hretry : ∀ s : Session_component, s._req_queue_full = true → P s →
      P (Session_component._handle_packet { s with _req_queue_full := false } s._p_to_handle))
    (hack : ∀ (s : Session_component) (p : Packet_descriptor), P s → P (s._ack_packet p))
    (hsubmit : ∀ (s : Session_component) (p : Packet_descriptor), P s →
      P { s with tx_sink :=
            { s.tx_sink with submit_queue := s.tx_sink.submit_queue ++ [p] } })
    (hrelease : ∀ s : Session_component, P s →
      P { s with tx_sink := { s.tx_sink with ack_queue := s.tx_sink.ack_queue.tail } })
    (is : List Invocation) : ∀ s : Session_component, P s → P (s.run is) := by
  induction is with
  | nil => intro s h; exact h
  | cons i is ih =>
    intro s h
    rw [run_cons]
    exact ih _ (invoke_induction P hinit hstep hretry hack hsubmit hrelease s i h)

/-! ## The packet held because of congestion -/

/-- Whether a packet is dispatchable depends on the constant members of the
session only, and not on the `succeeded` flag of the packet. -/
theorem dispatchable_congr (s t : Session_component) (p : Packet_descriptor) (b : Bool)
    (h1 : t.driver = s.driver) (h2 : t._readable = s._readable)
    (h3 : t._writeable = s._writeable) :
    t.dispatchable { p with succeeded := b } ↔ s.dispatchable p := by
  simp [Session_component.dispatchable, Session_component._range_check, h1, h2, h3]

/-- While `_req_queue_full` is set, the packet to handle is a packet that was
handed to the backend: it is dispatchable and carries `succeeded = false`. -/
theorem run_held_packet (s₀ : Session_component) (h0 : s₀._req_queue_full = false)
    (is : List Invocation) :
    (s₀.run is)._req_queue_full = true →
      (s₀.run is).dispatchable (s₀.run is)._p_to_handle ∧
      (s₀.run is)._p_to_handle.succeeded = false := by
  refine run_induction
    (fun t => t._req_queue_full = true →
      t.dispatchable t._p_to_handle ∧ t._p_to_handle.succeeded = false)
    ?_ ?_ ?_ ?_ ?_ ?_ is s₀ ?_
  · intro t b h hfull
    simp only [Session_component.dispatchable, Session_component._range_check] at h hfull ⊢
    exact h hfull
  · intro t p rest _ hr _ _ hfull
    obtain ⟨f1, -, -, f4, f5, -, f7, -⟩ := packet_avail_step_frame t p rest
    rcases packet_avail_step_cases t p rest with
      ⟨-, -, -, hrq, -⟩ | ⟨-, -, -, hrq, -⟩ | ⟨-, -, -, -, -, hrq, -⟩ |
      ⟨hd, -⟩ | ⟨-, -, -, -, hrq, -⟩
    · rw [hrq, hr] at hfull; cases hfull
    · rw [hrq, hr] at hfull; cases hfull
    · rw [hrq, hr] at hfull; cases hfull
    · rw [f7]
      exact ⟨(dispatchable_congr t _ p false f1 f4 f5).2 hd, rfl⟩
    · rw [hrq, hr] at hfull; cases hfull
  · intro t _ _ hfull
    obtain ⟨f1, -, -, f4, f5, -, -, -, f9⟩ :=
      handle_packet_frame { t with _req_queue_full := false } t._p_to_handle
    rcases handle_packet_cases { t with _req_queue_full := false } t._p_to_handle with
      ⟨-, -, -, hrq, -⟩ | ⟨-, -, -, hrq, -⟩ | ⟨-, -, -, -, -, hrq, -⟩ |
      ⟨hd, -⟩ | ⟨-, -, -, -, hrq, -⟩
    · rw [hrq] at hfull; simp only at hfull; cases hfull
    · rw [hrq] at hfull; simp only at hfull; cases hfull
    · rw [hrq] at hfull; simp only at hfull; cases hfull
    · rw [f9]
      exact ⟨(dispatchable_congr _ _ t._p_to_handle false f1 f4 f5).2 hd, rfl⟩
    · rw [hrq] at hfull; simp only at hfull; cases hfull
  · intro t p h hfull
    simp only [Session_component.dispatchable, Session_component._range_check,
      Session_component._ack_packet] at h hfull ⊢
    exact h hfull
  · intro t p h hfull
    simp only [Session_component.dispatchable, Session_component._range_check] at h hfull ⊢
    exact h hfull
  · intro t h hfull
    simp only [Session_component.dispatchable, Session_component._range_check] at h hfull ⊢
    exact h hfull
  · intro h
    rw [h0] at h
    cases h

theorem packet_avail_trace_prefix (s : Session_component) :
    ∃ tl, s._packet_avail.trace = s.trace ++ tl := by
  rw [packet_avail_eq]
  exact packet_avail_loop_trace_prefix _ _

/-- With `_req_queue_full` set, `ack_packet` acknowledges, handles the held
packet again and then resumes packet processing. -/
theorem ack_packet_of_req_queue_full (s : Session_component) (packet : Packet_descriptor)
    (success : Bool) (hfull : s._req_queue_full = true) :
    s.ack_packet packet success =
      (Session_component._handle_packet
        { s._ack_packet { packet with succeeded := success } with _req_queue_full := false }
        s._p_to_handle)._packet_avail := by
  have h1 : (s._ack_packet { packet with succeeded := success })._req_queue_full = true := by
    simp only [Session_component._ack_packet]
    exact hfull
  unfold Session_component.ack_packet
  simp only [h1]
  simp [Session_component._ack_packet]

/-- The retry of a held, dispatchable packet by `ack_packet`. -/
theorem ack_packet_retry (s : Session_component) (packet : Packet_descriptor)
    (success : Bool) (hfull : s._req_queue_full = true)
    (hd : s.dispatchable s._p_to_handle) :
    ∃ tl, (s.ack_packet packet success).trace =
        s.trace ++ Event.ack { packet with succeeded := success } ::
          Event.backend (s.call_of s._p_to_handle) :: tl ∧
      (s.outcomes.head? = some Outcome.Request_congestion →
        (s.ack_packet packet success)._req_queue_full = true ∧ tl = [] ∧
        (s.ack_packet packet success).tx_sink.submit_queue = s.tx_sink.submit_queue) ∧
      ((s.ack_packet packet success)._req_queue_full = false →
        s.outcomes.head? ≠ some Outcome.Request_congestion) := by
  have hd' : Session_component.dispatchable
      { s._ack_packet { packet with succeeded := success } with _req_queue_full := false }
      s._p_to_handle := by
    simp only [Session_component.dispatchable, Session_component._range_check,
      Session_component._ack_packet] at hd ⊢
    exact hd
  have hout : ({ s._ack_packet { packet with succeeded := success } with
      _req_queue_full := false } : Session_component).outcomes = s.outcomes := by
    simp only [Session_component._ack_packet]
  have htr : ({ s._ack_packet { packet with succeeded := success } with
      _req_queue_full := false } : Session_component).trace =
      s.trace ++ [Event.ack { packet with succeeded := success }] := by
    simp only [Session_component._ack_packet]
  have hcall : Session_component.call_of
      { s._ack_packet { packet with succeeded := success } with _req_queue_full := false }
      s._p_to_handle = s.call_of s._p_to_handle := by
    simp only [Session_component.call_of, Session_component._ack_packet]
  have hsq : ({ s._ack_packet { packet with succeeded := success } with
      _req_queue_full := false } : Session_component).tx_sink.submit_queue =
      s.tx_sink.submit_queue := by
    simp only [Session_component._ack_packet, Packet_stream_sink.acknowledge_packet]
  rw [ack_packet_of_req_queue_full s packet success hfull]
  obtain ⟨-, -, -, -, -, -, fq, -, -⟩ := handle_packet_frame
    { s._ack_packet { packet with succeeded := success } with _req_queue_full := false }
    s._p_to_handle
  obtain ⟨tl, hpre⟩ := packet_avail_trace_prefix
    (Session_component._handle_packet
      { s._ack_packet { packet with succeeded := success } with _req_queue_full := false }
      s._p_to_handle)
  rcases handle_packet_cases
    { s._ack_packet { packet with succeeded := success } with _req_queue_full := false }
    s._p_to_handle with
    ⟨hn, -⟩ | ⟨hn, -⟩ | ⟨-, h1, -, ht, -, hrq, -⟩ | ⟨-, h1, ht, -, hrq, -⟩ |
    ⟨-, h1, ht, -, hrq, -⟩
  · exact absurd hd' hn
  · exact absurd hd' hn
  · rw [hout] at h1
    refine ⟨tl, ?_, fun hc => absurd hc h1, fun _ => h1⟩
    rw [hpre, ht, htr, hcall]
    simp
  · rw [hout] at h1
    have hav := packet_avail_of_req_queue_full _ hrq
    refine ⟨[], ?_, fun _ => ⟨?_, rfl, ?_⟩, fun hc => ?_⟩
    · rw [hav]
      show (Session_component._handle_packet _ _).trace = _
      rw [ht, htr, hcall]
      simp
    · rw [hav]
      exact hrq
    · rw [hav]
      show (Session_component._handle_packet _ _).tx_sink.submit_queue = _
      rw [fq, hsq]
    · rw [hav] at hc
      have hc' : (Session_component._handle_packet
        { s._ack_packet { packet with succeeded := success } with _req_queue_full := false }
        s._p_to_handle)._req_queue_full = false := hc
      rw [hrq] at hc'
      cases hc'
  · rw [hout] at h1
    have hne : s.outcomes.head? ≠ some Outcome.Request_congestion := by
      rw [h1]; simp
    refine ⟨Event.ack { s._p_to_handle with succeeded := false } :: tl, ?_,
      fun hc => absurd hc hne, fun _ => hne⟩
    rw [hpre, ht, htr, hcall]
    simp

/-- C17: when `ack_packet` is called while `_req_queue_full` is set (in a
state reached by any sequence of invocations from a state with the flag
clear, such as a constructed session), the acknowledgement of the completed
packet is followed at once by the backend call for the held packet
`_p_to_handle`, before anything is taken out of the submit queue; if the
backend answers this call with `Request_congestion` again, then on return
`_req_queue_full` is set, nothing else has happened and the submit queue is
untouched; so the flag is clear on return only if the retry was not
congested. -/
theorem ack_packet_retries_held_packet (s₀ : Session_component)
    (h0 : s₀._req_queue_full = false) (is : List Invocation)
    (packet : Packet_descriptor) (success : Bool)
    (hfull : (s₀.run is)._req_queue_full = true) :
    ∃ tl, ((s₀.run is).ack_packet packet success).trace =
        (s₀.run is).trace ++ Event.ack { packet with succeeded := success } ::
          Event.backend ((s₀.run is).call_of (s₀.run is)._p_to_handle) :: tl ∧
      ((s₀.run is).outcomes.head? = some Outcome.Request_congestion →
        ((s₀.run is).ack_packet packet success)._req_queue_full = true ∧ tl = [] ∧
        ((s₀.run is).ack_packet packet success).tx_sink.submit_queue =
          (s₀.run is).tx_sink.submit_queue) ∧
      (((s₀.run is).ack_packet packet success)._req_queue_full = false →
        (s₀.run is).outcomes.head? ≠ some Outcome.Request_congestion) :=
  ack_packet_retry (s₀.run is) packet success hfull (run_held_packet s₀ h0 is hfull).1

theorem ack_packet_retries_held_packet_witness :
    ∃ tl,
      (((sample_session [Outcome.accepted, Outcome.Request_congestion]
          [sample_packet Opcode.READ 1 1, sample_packet Opcode.READ 2 1] 4).run
          [Invocation.packet_avail]).ack_packet (sample_packet Opcode.READ 1 1) true).trace =
        ((sample_session [Outcome.accepted, Outcome.Request_congestion]
          [sample_packet Opcode.READ 1 1, sample_packet Opcode.READ 2 1] 4).run
          [Invocation.packet_avail]).trace ++
        Event.ack { sample_packet Opcode.READ 1 1 with succeeded := true } ::
          Event.backend
            (((sample_session [Outcome.accepted, Outcome.Request_congestion]
                [sample_packet Opcode.READ 1 1, sample_packet Opcode.READ 2 1] 4).run
                [Invocation.packet_avail]).call_of
              ((sample_session [Outcome.accepted, Outcome.Request_congestion]
                [sample_packet Opcode.READ 1 1, sample_packet Opcode.READ 2 1] 4).run
                [Invocation.packet_avail])._p_to_handle) :: tl :=
  (ack_packet_retries_held_packet
    (sample_session [Outcome.accepted, Outcome.Request_congestion]
      [sample_packet Opcode.READ 1 1, sample_packet Opcode.READ 2 1] 4)
    rfl [Invocation.packet_avail] (sample_packet Opcode.READ 1 1) true rfl).imp
    (fun _ h => h.1)

/-! ## The in-flight counter -/

/-- The in-flight counter, the acknowledgements and the dequeues of a
session are related modulo `2^32` after every sequence of invocations, if they
are before it. -/
theorem run_in_flight (s₀ : Session_component)
    (h0 : s₀._p_in_fly < UNSIGNED_MOD ∧
      (s₀._p_in_fly + (acks s₀.trace).length) % UNSIGNED_MOD =
        (dequeues s₀.trace).length % UNSIGNED_MOD)
    (is : List Invocation) :
    (s₀.run is)._p_in_fly < UNSIGNED_MOD ∧
    ((s₀.run is)._p_in_fly + (acks (s₀.run is).trace).length) % UNSIGNED_MOD =
      (dequeues (s₀.run is).trace).length % UNSIGNED_MOD := by
  refine run_induction
    (fun t => t._p_in_fly < UNSIGNED_MOD ∧
      (t._p_in_fly + (acks t.trace).length) % UNSIGNED_MOD =
        (dequeues t.trace).length % UNSIGNED_MOD)
    ?_ ?_ ?_ ?_ ?_ ?_ is s₀ h0
  · intro t b h
    exact h
  · intro t p rest _ _ _ ⟨hlt, h⟩
    obtain ⟨-, -, -, -, -, -, -, f8⟩ := packet_avail_step_frame t p rest
    refine ⟨f8, ?_⟩
    have hdec := dec32_cases t._p_in_fly
    simp only [UNSIGNED_MOD] at hlt h ⊢
    rcases packet_avail_step_cases t p rest with
      ⟨-, ht, -, -, hp, -⟩ | ⟨-, ht, -, -, hp, -⟩ | ⟨-, -, -, ht, -, -, hp, -⟩ |
      ⟨-, -, ht, -, -, hp, -⟩ | ⟨-, -, ht, -, -, hp, -⟩ <;>
    · rw [ht, hp, acks_append, dequeues_append]
      simp only [UNSIGNED_MOD, acks, dequeues, List.length_append, List.length_cons,
        List.length_nil]
      omega
  · intro t _ ⟨hlt, h⟩
    have hdec := dec32_cases t._p_in_fly
    have hdlt := dec32_lt t._p_in_fly hlt
    have hfly : ({ t with _req_queue_full := false } : Session_component)._p_in_fly =
        t._p_in_fly := rfl
    have htrace : ({ t with _req_queue_full := false } : Session_component).trace =
        t.trace := rfl
    simp only [UNSIGNED_MOD] at hlt h hdlt ⊢
    rcases handle_packet_cases { t with _req_queue_full := false } t._p_to_handle with
      ⟨-, ht, -, -, hp, -⟩ | ⟨-, ht, -, -, hp, -⟩ | ⟨-, -, -, ht, -, -, hp, -⟩ |
      ⟨-, -, ht, -, -, hp, -⟩ | ⟨-, -, ht, -, -, hp, -⟩ <;>
    · rw [ht, hp, hfly, htrace]
      try rw [acks_append, dequeues_append]
      try simp only [acks, dequeues, List.length_append, List.length_cons,
        List.length_nil]
      omega
  · intro t p ⟨hlt, h⟩
    have hdec := dec32_cases t._p_in_fly
    have hdlt := dec32_lt t._p_in_fly hlt
    have hfly : (t._ack_packet p)._p_in_fly = dec32 t._p_in_fly := by
      unfold Session_component._ack_packet
      rfl
    have htrace : (t._ack_packet p).trace = t.trace ++ [Event.ack p] := by
      unfold Session_component._ack_packet
      rfl
    rw [hfly, htrace, acks_append, dequeues_append]
    simp only [UNSIGNED_MOD] at hlt h hdlt ⊢
    simp only [acks, dequeues, List.length_append, List.length_cons, List.length_nil]
    omega
  · intro t p h
    exact h
  · intro t h
    exact h

/-- A session is constructed with the counter at zero, the congestion flag
clear and nothing done yet. -/
theorem construct_ok_fresh (d : Driver) (pol : Policy) (label : String)
    (s : Session_component) (h : Session_component.construct d pol label = Except.ok s) :
    s._p_in_fly = 0 ∧ s.trace = [] ∧ s._req_queue_full = false := by
  unfold Session_component.construct at h
  simp only at h
  split_ifs at h <;> simp at h <;> subst h <;> exact ⟨rfl, rfl, rfl⟩

/-- The decrement of `_ack_packet` is unchecked: an `ack_packet` for a packet
that was never dequeued (which a backend that completes accepted packets only
does not issue) on a freshly constructed session leaves `_p_in_fly` at
`2^32 - 1 = 4294967295`.  The exact bookkeeping of the counter is therefore
stated for a backend that completes each accepted packet at most once. -/
theorem ack_packet_unchecked_decrement :
    (Session_component.construct { block_count := 1000, dma_enabled := false } {} "").map
      (fun s =>
        (((s.start 4 []).run [Invocation.ack_packet (sample_packet Opcode.READ 1 1) true]
            )._p_in_fly,
         (dequeues ((s.start 4 []).run
            [Invocation.ack_packet (sample_packet Opcode.READ 1 1) true]).trace).length,
         (acks ((s.start 4 []).run
            [Invocation.ack_packet (sample_packet Opcode.READ 1 1) true]).trace).length))
    = Except.ok (4294967295, 0, 1) := by
  rfl

/-! ## No duplication of a request that met congestion -/

theorem same_request_self (p : Packet_descriptor) : same_request p p = true := by
  simp [same_request]

theorem same_request_succeeded (p x : Packet_descriptor) (b : Bool) :
    same_request p { x with succeeded := b } = same_request p x := by
  simp [same_request]

theorem offers_append (p : Packet_descriptor) (xs ys : List Event) :
    offers p (xs ++ ys) = offers p xs + offers p ys := by
  simp [offers, backend_calls_append, List.countP_append]

theorem dequeued_append (p : Packet_descriptor) (xs ys : List Event) :
    dequeued p (xs ++ ys) = dequeued p xs + dequeued p ys := by
  simp [dequeued, dequeues_append, List.countP_append]

theorem acknowledged_append (p : Packet_descriptor) (xs ys : List Event) :
    acknowledged p (xs ++ ys) = acknowledged p xs + acknowledged p ys := by
  simp [acknowledged, acks_append, List.countP_append]

theorem call_of_packet (s : Session_component) (x : Packet_descriptor) :
    (s.call_of x).packet = { x with succeeded := false } := rfl

/-- Events that all belong to the handling of one packet `y`, which is not
the request `p`, do not concern `p`. -/
theorem quiet_list (p y : Packet_descriptor) (hy : same_request p y = false)
    (ev : List Event)
    (h : ∀ e ∈ ev, e = Event.dequeue y ∨
      (∃ c, e = Event.backend c ∧ c.packet = { y with succeeded := false }) ∨
      e = Event.ack { y with succeeded := false }) :
    offers p ev = 0 ∧ dequeued p ev = 0 ∧ acknowledged p ev = 0 := by
  have hy' : same_request p { y with succeeded := false } = false := by
    rw [same_request_succeeded]; exact hy
  induction ev with
  | nil => exact ⟨rfl, rfl, rfl⟩
  | cons e es ih =>
    obtain ⟨i1, i2, i3⟩ := ih (fun e' he' => h e' (List.mem_cons_of_mem _ he'))
    have hsplit : e :: es = [e] ++ es := rfl
    rw [hsplit, offers_append, dequeued_append, acknowledged_append, i1, i2, i3]
    rcases h e (List.mem_cons_self _ _) with he | ⟨c, he, hc⟩ | he
    · subst he
      refine ⟨rfl, ?_, rfl⟩
      simp [dequeued, dequeues, hy]
    · subst he
      refine ⟨?_, rfl, rfl⟩
      simp [offers, backend_calls, hc, hy']
    · subst he
      refine ⟨rfl, rfl, ?_⟩
      simp [acknowledged, acks, hy']

/-- Quiet events keep `quiet_since`; acknowledgements of `p` are counted. -/
theorem quiet_extend (p : Packet_descriptor) (t₀ : List Event) (n k : Nat)
    (u u' : Session_component) (ev : List Event)
    (hnp : u'.not_pending p) (htr : u'.trace = u.trace ++ ev)
    (h1 : offers p ev = 0) (h2 : dequeued p ev = 0) (h3 : acknowledged p ev = k)
    (h : u.quiet_since p t₀ n) : u'.quiet_since p t₀ (n + k) := by
  obtain ⟨-, new, hnew, o, d, a⟩ := h
  refine ⟨hnp, new ++ ev, ?_, ?_, ?_, ?_⟩
  · rw [htr, hnew, List.append_assoc]
  · rw [offers_append, o, h1]
  · rw [dequeued_append, d, h2]
  · rw [acknowledged_append, a, h3]

/-- An iteration of the loop of `_packet_avail` keeps `quiet_since`. -/
theorem quiet_step (p : Packet_descriptor) (t₀ : List Event) (n : Nat)
    (u : Session_component) (y : Packet_descriptor) (rest : List Packet_descriptor)
    (hq : u.tx_sink.submit_queue = y :: rest)
    (h : u.quiet_since p t₀ n) : (u._packet_avail_step y rest).quiet_since p t₀ n := by
  have hy : same_request p y = false := h.1.2 y (by rw [hq]; exact List.mem_cons_self _ _)
  have hy' : same_request p { y with succeeded := false } = false := by
    rw [same_request_succeeded]; exact hy
  have hrest : ∀ z ∈ (u._packet_avail_step y rest).tx_sink.submit_queue,
      same_request p z = false := by
    rw [packet_avail_step_submit_queue]
    intro z hz
    exact h.1.2 z (by rw [hq]; exact List.mem_cons_of_mem _ hz)
  obtain ⟨-, -, -, -, -, -, f7, -⟩ := packet_avail_step_frame u y rest
  have hnp : (u._packet_avail_step y rest).not_pending p := by
    refine ⟨fun _ => ?_, hrest⟩
    rw [f7]
    exact hy'
  have key : ∀ ev : List Event, (u._packet_avail_step y rest).trace = u.trace ++ ev →
      (∀ e ∈ ev, e = Event.dequeue y ∨
        (∃ c, e = Event.backend c ∧ c.packet = { y with succeeded := false }) ∨
        e = Event.ack { y with succeeded := false }) →
      (u._packet_avail_step y rest).quiet_since p t₀ n := by
    intro ev htr hev
    obtain ⟨q1, q2, q3⟩ := quiet_list p y hy ev hev
    exact quiet_extend p t₀ n 0 u _ ev hnp htr q1 q2 q3 h
  rcases packet_avail_step_cases u y rest with
    ⟨-, ht, -⟩ | ⟨-, ht, -⟩ | ⟨-, -, -, ht, -⟩ | ⟨-, -, ht, -⟩ | ⟨-, -, ht, -⟩
  · exact key _ ht (by simp)
  · exact key _ ht (by simp)
  · exact key _ ht (by simp [call_of_packet])
  · exact key _ ht (by simp [call_of_packet])
  · exact key _ ht (by simp [call_of_packet])

/-- The retry of the held packet by `ack_packet` keeps `quiet_since`. -/
theorem quiet_retry (p : Packet_descriptor) (t₀ : List Event) (n : Nat)
    (u : Session_component) (hfull : u._req_queue_full = true)
    (h : u.quiet_since p t₀ n) :
    (Session_component._handle_packet { u with _req_queue_full := false }
      u._p_to_handle).quiet_since p t₀ n := by
  have hy : same_request p u._p_to_handle = false := h.1.1 hfull
  have hy' : same_request p { u._p_to_handle with succeeded := false } = false := by
    rw [same_request_succeeded]; exact hy
  obtain ⟨-, -, -, -, -, -, fq, -, f9⟩ :=
    handle_packet_frame { u with _req_queue_full := false } u._p_to_handle
  have hnp : (Session_component._handle_packet { u with _req_queue_full := false }
      u._p_to_handle).not_pending p := by
    refine ⟨fun _ => ?_, ?_⟩
    · rw [f9]; exact hy'
    · rw [fq]; exact h.1.2
  have key : ∀ ev : List Event,
      (Session_component._handle_packet { u with _req_queue_full := false }
        u._p_to_handle).trace = u.trace ++ ev →
      (∀ e ∈ ev, e = Event.dequeue u._p_to_handle ∨
        (∃ c, e = Event.backend c ∧ c.packet = { u._p_to_handle with succeeded := false }) ∨
        e = Event.ack { u._p_to_handle with succeeded := false }) →
      (Session_component._handle_packet { u with _req_queue_full := false }
        u._p_to_handle).quiet_since p t₀ n := by
    intro ev htr hev
    obtain ⟨q1, q2, q3⟩ := quiet_list p u._p_to_handle hy ev hev
    exact quiet_extend p t₀ n 0 u _ ev hnp htr q1 q2 q3 h
  rcases handle_packet_cases { u with _req_queue_full := false } u._p_to_handle with
    ⟨-, ht, -⟩ | ⟨-, ht, -⟩ | ⟨-, -, -, ht, -⟩ | ⟨-, -, ht, -⟩ | ⟨-, -, ht, -⟩
  · exact key _ ht (by simp)
  · exact key [] (by rw [ht]; simp) (by simp)
  · exact key _ ht (by simp [call_of_packet])
  · exact key _ ht (by simp [call_of_packet])
  · exact key _ ht (by simp [call_of_packet])

/-- `_packet_avail` keeps `quiet_since`. -/
theorem quiet_packet_avail (p : Packet_descriptor) (t₀ : List Event) (n : Nat)
    (u : Session_component) (h : u.quiet_since p t₀ n) :
    u._packet_avail.quiet_since p t₀ n :=
  packet_avail_induction (fun t => t.quiet_since p t₀ n)
    (fun _ _ h => h)
    (fun t y rest hq _ _ h => quiet_step p t₀ n t y rest hq h)
    u h

/-- `ack_packet` keeps `quiet_since`, counting the acknowledgement if it is
one of the request `p`. -/
theorem quiet_ack_packet (p : Packet_descriptor) (t₀ : List Event) (n : Nat)
    (u : Session_component) (x : Packet_descriptor) (b : Bool)
    (h : u.quiet_since p t₀ n) :
    (u.ack_packet x b).quiet_since p t₀ (n + (if same_request p x then 1 else 0)) := by
  refine ack_packet_induction
    (fun t => t.quiet_since p t₀ (n + (if same_request p x then 1 else 0)))
    (fun _ _ h => h)
    (fun t y rest hq _ _ h => quiet_step p t₀ _ t y rest hq h)
    (fun t hfull h => quiet_retry p t₀ _ t hfull h)
    u x b ?_
  have hnp : (u._ack_packet { x with succeeded := b }).not_pending p := by
    have := h.1
    unfold Session_component._ack_packet
    exact this
  have htr : (u._ack_packet { x with succeeded := b }).trace =
      u.trace ++ [Event.ack { x with succeeded := b }] := by
    unfold Session_component._ack_packet
    rfl
  refine quiet_extend p t₀ n _ u _ _ hnp htr rfl rfl ?_ h
  have hx := same_request_succeeded p x b
  cases hsr : same_request p x <;> rw [hsr] at hx <;>
    simp [acknowledged, acks, List.countP_cons, hx]

theorem completions_cons (p : Packet_descriptor) (i : Invocation) (is : List Invocation) :
    completions p (i :: is) = completions p [i] + completions p is := by
  cases i <;> simp [completions]

/-- Every invocation keeps `quiet_since`, provided the client does not submit
the request `p` again; the completions of `p` are counted. -/
theorem quiet_invoke (p : Packet_descriptor) (t₀ : List Event) (n : Nat)
    (u : Session_component) (i : Invocation)
    (hs : ∀ y, i = Invocation.submit y → same_request p y = false)
    (h : u.quiet_since p t₀ n) :
    (u.invoke i).quiet_since p t₀ (n + completions p [i]) := by
  cases i with
  | packet_avail => exact quiet_packet_avail p t₀ n u h
  | ready_to_ack => exact quiet_packet_avail p t₀ n u h
  | ack_packet x b =>
    have := quiet_ack_packet p t₀ n u x b h
    simpa [completions] using this
  | submit y =>
    have hy := hs y rfl
    show Session_component.quiet_since (if _ then _ else _) p t₀ _
    split_ifs
    · obtain ⟨⟨h1, h2⟩, h3⟩ := h
      refine ⟨⟨h1, ?_⟩, h3⟩
      intro z hz
      have hz' : z ∈ u.tx_sink.submit_queue ++ [y] := hz
      rcases List.mem_append.1 hz' with hz'' | hz''
      · exact h2 z hz''
      · rw [List.mem_singleton.1 hz'']; exact hy
    · exact h
  | release => exact h

/-- Every sequence of invocations keeps `quiet_since`, provided the client
does not submit the request `p` again; the completions of `p` are counted. -/
theorem quiet_run (p : Packet_descriptor) (t₀ : List Event) (is : List Invocation) :
    ∀ (n : Nat) (u : Session_component),
      (∀ y, Invocation.submit y ∈ is → same_request p y = false) →
      u.quiet_since p t₀ n → (u.run is).quiet_since p t₀ (n + completions p is) := by
  induction is with
  | nil => intro n u _ h; exact h
  | cons i is ih =>
    intro n u hs h
    rw [run_cons, completions_cons, ← Nat.add_assoc]
    exact ih _ _ (fun y hy => hs y (List.mem_cons_of_mem _ hy))
      (quiet_invoke p t₀ n u i (fun y hi => hs y (by rw [hi]; exact List.mem_cons_self _ _)) h)

theorem packet_avail_loop_of_req_queue_full (q : List Packet_descriptor)
    (t : Session_component) (h : t._req_queue_full = true) :
    Session_component._packet_avail_loop q t = t := by
  cases q with
  | nil => rfl
  | cons y rest =>
    rw [packet_avail_loop_cons, if_neg]
    simp [h]

/-- The first part of the scenario of C19: the loop of `_packet_avail` arrives
at the dispatchable packet `p` at the head of the submit queue and the
backend answers with `Request_congestion`. -/
theorem packet_avail_loop_head_congested (s : Session_component) (p : Packet_descriptor)
    (rest : List Packet_descriptor) (os : List Outcome)
    (hreq : s._req_queue_full = false) (hack : s._ack_queue_full = false)
    (hd : s.dispatchable p)
    (ho : s.outcomes = Outcome.Request_congestion :: os) :
    (Session_component._packet_avail_loop (p :: rest) s).trace =
      s.trace ++ [Event.dequeue p, Event.backend (s.call_of p)] ∧
    (Session_component._packet_avail_loop (p :: rest) s).outcomes = os ∧
    (Session_component._packet_avail_loop (p :: rest) s)._req_queue_full = true ∧
    (Session_component._packet_avail_loop (p :: rest) s)._p_to_handle =
      { p with succeeded := false } ∧
    (Session_component._packet_avail_loop (p :: rest) s).tx_sink.submit_queue = rest ∧
    (Session_component._packet_avail_loop (p :: rest) s).driver = s.driver ∧
    (Session_component._packet_avail_loop (p :: rest) s)._readable = s._readable ∧
    (Session_component._packet_avail_loop (p :: rest) s)._writeable = s._writeable := by
  have hhead : s.outcomes.head? = some Outcome.Request_congestion := by
    rw [ho]; rfl
  obtain ⟨f1, -, -, f4, f5, -, f7, -⟩ := packet_avail_step_frame s p rest
  have fq := packet_avail_step_submit_queue s p rest
  rcases packet_avail_step_cases s p rest with
    ⟨hn, -⟩ | ⟨hn, -⟩ | ⟨-, h1, -⟩ | ⟨-, -, ht, hout, hrq, -⟩ | ⟨-, h1, -⟩
  · exact absurd hd hn
  · exact absurd hd hn
  · exact absurd hhead h1
  · rw [packet_avail_loop_cons, if_pos ⟨hreq, hack⟩,
      packet_avail_loop_of_req_queue_full _ _ hrq]
    refine ⟨ht, ?_, hrq, f7, fq, f1, f4, f5⟩
    rw [hout, ho]; rfl
  · rw [hhead] at h1; cases h1

/-- While `_req_queue_full` is set, invocations other than `ack_packet` leave
the trace, the script of the backend, the held packet and the constant
members alone; the submit queue only grows by what the client submits. -/
theorem run_while_congested (mid : List Invocation) :
    ∀ t : Session_component, t._req_queue_full = true →
      (∀ i ∈ mid, ∀ x b, i ≠ Invocation.ack_packet x b) →
      (t.run mid).trace = t.trace ∧ (t.run mid).outcomes = t.outcomes ∧
      (t.run mid)._req_queue_full = true ∧
      (t.run mid)._p_to_handle = t._p_to_handle ∧
      (t.run mid).driver = t.driver ∧ (t.run mid)._readable = t._readable ∧
      (t.run mid)._writeable = t._writeable ∧
      ∀ y ∈ (t.run mid).tx_sink.submit_queue,
        y ∈ t.tx_sink.submit_queue ∨ Invocation.submit y ∈ mid := by
  induction mid with
  | nil =>
    intro t hfull _
    exact ⟨rfl, rfl, hfull, rfl, rfl, rfl, rfl, fun y hy => Or.inl hy⟩
  | cons i mid ih =>
    intro t hfull hmid
    have hmid' : ∀ j ∈ mid, ∀ x b, j ≠ Invocation.ack_packet x b :=
      fun j hj => hmid j (List.mem_cons_of_mem _ hj)
    have step : (t.invoke i).trace = t.trace ∧ (t.invoke i).outcomes = t.outcomes ∧
        (t.invoke i)._req_queue_full = true ∧
        (t.invoke i)._p_to_handle = t._p_to_handle ∧
        (t.invoke i).driver = t.driver ∧ (t.invoke i)._readable = t._readable ∧
        (t.invoke i)._writeable = t._writeable ∧
        ∀ y ∈ (t.invoke i).tx_sink.submit_queue,
          y ∈ t.tx_sink.submit_queue ∨ Invocation.submit y = i := by
      cases i with
      | packet_avail =>
        have hi : t.invoke Invocation.packet_avail = t._packet_avail := rfl
        rw [hi, packet_avail_of_req_queue_full t hfull]
        exact ⟨rfl, rfl, hfull, rfl, rfl, rfl, rfl, fun y hy => Or.inl hy⟩
      | ready_to_ack =>
        have hi : t.invoke Invocation.ready_to_ack = t._packet_avail := rfl
        rw [hi, packet_avail_of_req_queue_full t hfull]
        exact ⟨rfl, rfl, hfull, rfl, rfl, rfl, rfl, fun y hy => Or.inl hy⟩
      | ack_packet x b => exact absurd rfl (hmid _ (List.mem_cons_self _ _) x b)
      | submit z =>
        have hi : t.invoke (Invocation.submit z) =
            if t.tx_sink.submit_queue.length < t.tx_sink.capacity then
              { t with tx_sink :=
                  { t.tx_sink with submit_queue := t.tx_sink.submit_queue ++ [z] } }
            else t := rfl
        rw [hi]
        split_ifs
        · refine ⟨rfl, rfl, hfull, rfl, rfl, rfl, rfl, ?_⟩
          intro y hy
          have hy' : y ∈ t.tx_sink.submit_queue ++ [z] := hy
          rcases List.mem_append.1 hy' with h | h
          · exact Or.inl h
          · rw [List.mem_singleton.1 h]; exact Or.inr rfl
        · exact ⟨rfl, rfl, hfull, rfl, rfl, rfl, rfl, fun y hy => Or.inl hy⟩
      | release =>
        exact ⟨rfl, rfl, hfull, rfl, rfl, rfl, rfl, fun y hy => Or.inl hy⟩
    obtain ⟨s1, s2, s3, s4, s5, s6, s7, s8⟩ := step
    obtain ⟨r1, r2, r3, r4, r5, r6, r7, r8⟩ := ih (t.invoke i) s3 hmid'
    rw [run_cons]
    refine ⟨r1.trans s1, r2.trans s2, r3, r4.trans s4, r5.trans s5, r6.trans s6,
      r7.trans s7, ?_⟩
    intro y hy
    rcases r8 y hy with h | h
    · rcases s8 y h with h' | h'
      · exact Or.inl h'
      · exact Or.inr (by rw [h']; exact List.mem_cons_self _ _)
    · exact Or.inr (List.mem_cons_of_mem _ h)

/-- The second part of the scenario of C19: `ack_packet` finds
`_req_queue_full` set and the backend accepts the retry of the held
packet; packet processing is then resumed from the state `H`. -/
theorem ack_packet_retry_accepted (t : Session_component) (x : Packet_descriptor)
    (b : Bool) (os : List Outcome)
    (hfull : t._req_queue_full = true) (hd : t.dispatchable t._p_to_handle)
    (ho : t.outcomes = Outcome.accepted :: os) :
    ∃ H : Session_component, t.ack_packet x b = H._packet_avail ∧
      H.trace = t.trace ++ [Event.ack { x with succeeded := b },
        Event.backend (t.call_of t._p_to_handle)] ∧
      H._req_queue_full = false ∧
      H.tx_sink.submit_queue = t.tx_sink.submit_queue := by
  have hd' : Session_component.dispatchable
      { t._ack_packet { x with succeeded := b } with _req_queue_full := false }
      t._p_to_handle := by
    unfold Session_component._ack_packet
    exact hd
  have hout : Session_component.outcomes
      { t._ack_packet { x with succeeded := b } with _req_queue_full := false } =
      t.outcomes := by
    unfold Session_component._ack_packet
    rfl
  have htr : Session_component.trace
      { t._ack_packet { x with succeeded := b } with _req_queue_full := false } =
      t.trace ++ [Event.ack { x with succeeded := b }] := by
    unfold Session_component._ack_packet
    rfl
  have hcall : Session_component.call_of
      { t._ack_packet { x with succeeded := b } with _req_queue_full := false }
      t._p_to_handle = t.call_of t._p_to_handle := by
    unfold Session_component._ack_packet
    rfl
  have hsq : (Session_component.tx_sink
      { t._ack_packet { x with succeeded := b } with _req_queue_full := false }).submit_queue =
      t.tx_sink.submit_queue := by
    unfold Session_component._ack_packet
    rfl
  obtain ⟨-, -, -, -, -, -, fq, -, -⟩ := handle_packet_frame
    { t._ack_packet { x with succeeded := b } with _req_queue_full := false }
    t._p_to_handle
  refine ⟨_, ack_packet_of_req_queue_full t x b hfull, ?_⟩
  rcases handle_packet_cases
    { t._ack_packet { x with succeeded := b } with _req_queue_full := false }
    t._p_to_handle with
    ⟨hn, -⟩ | ⟨hn, -⟩ | ⟨-, -, -, ht, -, hrq, -⟩ | ⟨-, h1, -⟩ | ⟨-, h1, -⟩
  · exact absurd hd' hn
  · exact absurd hd' hn
  · refine ⟨?_, hrq, ?_⟩
    · rw [ht, htr, hcall]
      simp
    · rw [fq, hsq]
  · rw [hout, ho] at h1; cases h1
  · rw [hout, ho] at h1; cases h1

/-- C19: the loop of `_packet_avail` arrives at a dispatchable packet `p` (the
head of the submit queue, both flags clear), the backend answers its
dispatch with `Request_congestion`, and, after any invocations `mid` other
than `ack_packet`, accepts the retry made by the next `ack_packet`; the
client submits no second packet that is the same request.  Then, whatever
invocations `is` follow, the backend is offered `p` exactly twice in total,
`p` is dequeued exactly once, and `p` is acknowledged exactly as often as the
backend reports its completion by `ack_packet`: once if the backend completes
it once, and never on the initiative of the engine. -/
theorem congested_packet_not_duplicated (s : Session_component) (p : Packet_descriptor)
    (rest : List Packet_descriptor) (os : List Outcome) (mid : List Invocation)
    (q : Packet_descriptor) (success : Bool) (is : List Invocation)
    (hreq : s._req_queue_full = false) (hack : s._ack_queue_full = false)
    (_hq : s.tx_sink.submit_queue = p :: rest) (hd : s.dispatchable p)
    (ho : s.outcomes = Outcome.Request_congestion :: Outcome.accepted :: os)
    (hrest : ∀ y ∈ rest, same_request p y = false)
    (hmid : ∀ i ∈ mid, ∀ x b, i ≠ Invocation.ack_packet x b)
    (hsub : ∀ y, Invocation.submit y ∈ mid ++ is → same_request p y = false) :
    ∃ new,
      ((((Session_component._packet_avail_loop (p :: rest) s).run mid).ack_packet
          q success).run is).trace = s.trace ++ new ∧
      offers p new = 2 ∧ dequeued p new = 1 ∧
      acknowledged p new = completions p (Invocation.ack_packet q success :: is) := by
  obtain ⟨a1, a2, a3, a4, a5, a6, a9, a10⟩ :=
    packet_avail_loop_head_congested s p rest (Outcome.accepted :: os) hreq hack hd ho
  obtain ⟨m1, m2, m3, m4, m5, m6, m7, m8⟩ :=
    run_while_congested mid (Session_component._packet_avail_loop (p :: rest) s) a3 hmid
  have hheld : Session_component.dispatchable
      ((Session_component._packet_avail_loop (p :: rest) s).run mid)
      ((Session_component._packet_avail_loop (p :: rest) s).run mid)._p_to_handle := by
    rw [m4, a4]
    exact (dispatchable_congr s _ p false (m5.trans a6) (m6.trans a9) (m7.trans a10)).2 hd
  obtain ⟨H, hH, htr, hflag, hsq⟩ :=
    ack_packet_retry_accepted _ q success os m3 hheld (m2.trans a2)
  have hquiet : H.quiet_since p H.trace 0 := by
    refine ⟨⟨fun hf => ?_, ?_⟩, [], by simp, rfl, rfl, rfl⟩
    · rw [hflag] at hf; cases hf
    · rw [hsq]
      intro y hy
      rcases m8 y hy with h | h
      · rw [a5] at h; exact hrest y h
      · exact hsub y (List.mem_append_left _ h)
  have hrun := quiet_run p H.trace is 0 _
    (fun y hy => hsub y (List.mem_append_right _ hy))
    (quiet_packet_avail p H.trace 0 H hquiet)
  obtain ⟨-, new, hnew, o, d, a⟩ := hrun
  have hcall : (Session_component.call_of
      ((Session_component._packet_avail_loop (p :: rest) s).run mid)
      ((Session_component._packet_avail_loop (p :: rest) s).run mid)._p_to_handle).packet =
      { p with succeeded := false } := by
    rw [call_of_packet, m4, a4]
  have hq' := same_request_succeeded p q success
  refine ⟨[Event.dequeue p, Event.backend (s.call_of p),
      Event.ack { q with succeeded := success },
      Event.backend (Session_component.call_of
        ((Session_component._packet_avail_loop (p :: rest) s).run mid)
        ((Session_component._packet_avail_loop (p :: rest) s).run mid)._p_to_handle)] ++ new,
    ?_, ?_, ?_, ?_⟩
  · rw [hH, hnew, htr, m1, a1]
    simp
  · rw [offers_append, o]
    simp [offers, backend_calls, hcall, call_of_packet, same_request_succeeded,
      same_request_self]
  · rw [dequeued_append, d]
    simp [dequeued, dequeues, same_request_self]
  · rw [acknowledged_append, a, completions_cons]
    cases hsr : same_request p q <;> rw [hsr] at hq' <;>
      simp [acknowledged, acks, completions, hq', hsr]

theorem congested_packet_not_duplicated_witness :
    ∃ new,
      ((((Session_component._packet_avail_loop
            [sample_packet Opcode.READ 1 1, sample_packet Opcode.READ 2 1]
            (sample_session [Outcome.Request_congestion, Outcome.accepted]
              [sample_packet Opcode.READ 1 1, sample_packet Opcode.READ 2 1] 4)).run
          [Invocation.ready_to_ack]).ack_packet (sample_packet Opcode.READ 9 1) true).run
          [Invocation.ack_packet (sample_packet Opcode.READ 1 1) true]).trace = [] ++ new ∧
      offers (sample_packet Opcode.READ 1 1) new = 2 ∧
      dequeued (sample_packet Opcode.READ 1 1) new = 1 ∧
      acknowledged (sample_packet Opcode.READ 1 1) new = 1 :=
  congested_packet_not_duplicated
    (sample_session [Outcome.Request_congestion, Outcome.accepted]
      [sample_packet Opcode.READ 1 1, sample_packet Opcode.READ 2 1] 4)
    (sample_packet Opcode.READ 1 1) [sample_packet Opcode.READ 2 1] []
    [Invocation.ready_to_ack] (sample_packet Opcode.READ 9 1) true
    [Invocation.ack_packet (sample_packet Opcode.READ 1 1) true]
    rfl rfl rfl ⟨by decide, by decide, Or.inl ⟨rfl, rfl⟩⟩ rfl (by decide)
    (fun i hi x b h => by subst h; simp at hi) (fun y hy => by simp at hy)

/-! ## Permissions of a session -/

/-- C23: a READ packet that passes the validation on a session that is not
readable, and a WRITE packet on a session that is not writeable, is dropped:
`_handle_packet` calls the backend for it as little as it acknowledges it (the
trace stays as it is), and the in-flight counter is not counted down. -/
theorem handle_packet_drops_forbidden (s : Session_component) (p : Packet_descriptor)
    (hsize : p.size ≠ 0) (hrange : s._range_check p = true)
    (h : (p.operation = Opcode.READ ∧ s._readable = false) ∨
         (p.operation = Opcode.WRITE ∧ s._writeable = false)) :
    (s._handle_packet p).trace = s.trace ∧
    (s._handle_packet p)._p_in_fly = s._p_in_fly ∧
    (s._handle_packet p)._req_queue_full = s._req_queue_full := by
  have hrange' : sub64 (add64 p.block_number p.block_count) 1 < s.driver.block_count := by
    simpa [Session_component._range_check] using hrange
  rw [handle_packet_valid s p hsize hrange']
  rcases p with ⟨op, bn, bc, off, sz, su⟩
  rcases h with ⟨ho, hr⟩ | ⟨ho, hw⟩
  · simp only at ho
    subst ho
    simp [hr]
  · simp only at ho
    subst ho
    simp [hw]

theorem handle_packet_drops_forbidden_witness :
    (Session_component._handle_packet
      { _label := "", driver := { block_count := 1000, dma_enabled := false },
        _req_queue_full := false, _ack_queue_full := false,
        _p_to_handle := sample_packet Opcode.READ 0 0, _p_in_fly := 0,
        _offset := 0, _span := 1000, _readable := true, _writeable := false }
      (sample_packet Opcode.WRITE 3 1)).trace = [] :=
  (handle_packet_drops_forbidden _ _ (by decide) (by decide)
    (Or.inr ⟨rfl, rfl⟩)).1

/-! ## Selection of the partition table -/

/-- C24: `Main::_table` returns the GPT table exactly when `use_gpt` is
configured and `_gpt.parse()` returns true, and then the MBR parser is not
consulted; otherwise it returns the MBR table when `_mbr.parse()` returns
true, and throws `No_partion_table` when `_mbr.parse()` returns false. -/
theorem table_selection (use_gpt_attribute : Option Bool) (gpt mbr : Parse_outcome) :
    ((Main._table use_gpt_attribute gpt mbr).result = Except.ok Table.gpt ↔
      use_gpt_attribute.getD false = true ∧ gpt = Parse_outcome.returns true) ∧
    (use_gpt_attribute.getD false = true → gpt = Parse_outcome.returns true →
      (Main._table use_gpt_attribute gpt mbr).consulted = [Table.gpt]) ∧
    (¬ (use_gpt_attribute.getD false = true ∧ gpt = Parse_outcome.returns true) →
      mbr = Parse_outcome.returns true →
      (Main._table use_gpt_attribute gpt mbr).result = Except.ok Table.mbr) ∧
    (¬ (use_gpt_attribute.getD false = true ∧ gpt = Parse_outcome.returns true) →
      mbr = Parse_outcome.returns false →
      (Main._table use_gpt_attribute gpt mbr).result =
        Except.error Main_error.No_partion_table) := by
  rcases use_gpt_attribute with _ | (_ | _) <;>
    rcases gpt with (_ | _) | _ | _ <;>
    rcases mbr with (_ | _) | _ | _ <;>
    simp [Main._table]

theorem table_selection_witness :
    (Main._table (some true) Parse_outcome.other_exception
      (Parse_outcome.returns false)).result = Except.error Main_error.No_partion_table :=
  (table_selection (some true) Parse_outcome.other_exception
    (Parse_outcome.returns false)).2.2.2 (by decide) rfl

/-- C25: when `use_gpt` is configured and `_gpt.parse()` throws or returns
false, no failure of the GPT parser leaves `_table`: the MBR parser is
consulted next, the result is the one a run without GPT would give, and it is
the MBR table whenever `_mbr.parse()` returns true. -/
theorem table_falls_back_to_mbr (use_gpt_attribute : Option Bool) (gpt mbr : Parse_outcome)
    (h1 : use_gpt_attribute.getD false = true)
    (h2 : gpt ≠ Parse_outcome.returns true) :
    (Main._table use_gpt_attribute gpt mbr).consulted = [Table.gpt, Table.mbr] ∧
    (Main._table use_gpt_attribute gpt mbr).result =
      (Main._table none gpt mbr).result ∧
    (mbr = Parse_outcome.returns true →
      (Main._table use_gpt_attribute gpt mbr).result = Except.ok Table.mbr) := by
  rcases use_gpt_attribute with _ | (_ | _) <;>
    rcases gpt with (_ | _) | _ | _ <;>
    rcases mbr with (_ | _) | _ | _ <;>
    simp [Main._table] at h1 h2 ⊢

theorem table_falls_back_to_mbr_witness :
    (Main._table (some true) Parse_outcome.other_exception
      (Parse_outcome.returns true)).result = Except.ok Table.mbr :=
  (table_falls_back_to_mbr (some true) Parse_outcome.other_exception
    (Parse_outcome.returns true) rfl (by decide)).2.2 rfl

/-- C26: when the use of GPT is not requested and `_mbr.parse()` throws
`Protective_mbr_found`, `_table` throws `Protective_mbr_found`: it returns no
table and does not throw `No_partion_table`. -/
theorem table_protective_mbr (use_gpt_attribute : Option Bool) (gpt : Parse_outcome)
    (h : use_gpt_attribute.getD false = false) :
    (Main._table use_gpt_attribute gpt Parse_outcome.Protective_mbr_found).result =
      Except.error Main_error.Protective_mbr_found ∧
    (Main._table use_gpt_attribute gpt Parse_outcome.Protective_mbr_found).consulted =
      [Table.mbr] := by
  rcases use_gpt_attribute with _ | (_ | _) <;>
    rcases gpt with (_ | _) | _ | _ <;>
    simp [Main._table] at h ⊢

theorem table_protective_mbr_witness :
    (Main._table none (Parse_outcome.returns true)
      Parse_outcome.Protective_mbr_found).result =
      Except.error Main_error.Protective_mbr_found :=
  (table_protective_mbr none (Parse_outcome.returns true) rfl).1

/-! ## The conflict scan of the root component -/

/-- The scan throws only because of a registered writer that overlaps a
writeable request. -/
theorem conflict_scan_error_cause (policy : Policy) (l : List Session_component) :
    ∀ e, Root.conflict_scan policy l = Except.error e →
      policy.writeable = true ∧
      ∃ s ∈ l, s.writeable = true ∧ Root.overlap policy s = true := by
  induction l with
  | nil => intro e h; simp [Root.conflict_scan] at h
  | cons s rest ih =>
    intro e h
    unfold Root.conflict_scan at h
    split_ifs at h with h1 h2 h3
    · obtain ⟨a, t, ht, b⟩ := ih e h
      exact ⟨a, t, List.mem_cons_of_mem _ ht, b⟩
    · simp only [Bool.and_eq_true] at h3
      exact ⟨h3.1, s, List.mem_cons_self _ _, h3.2, h2⟩
    · cases hr : Root.conflict_scan policy rest with
      | error e' =>
        obtain ⟨a, t, ht, b⟩ := ih e' hr
        exact ⟨a, t, List.mem_cons_of_mem _ ht, b⟩
      | ok ws => rw [hr] at h; simp at h
    · obtain ⟨a, t, ht, b⟩ := ih e h
      exact ⟨a, t, List.mem_cons_of_mem _ ht, b⟩

/-- Without a registered writer that overlaps a writeable request the scan
returns the labels of the sessions it warns about. -/
theorem conflict_scan_ok (policy : Policy) (l : List Session_component) :
    (¬ ∃ s ∈ l, policy.writeable = true ∧ s.writeable = true ∧
        Root.overlap policy s = true) →
      Root.conflict_scan policy l = Except.ok
        ((l.filter (fun s => (policy.writeable || s.writeable) &&
          Root.overlap policy s)).map (fun s => s._label)) := by
  induction l with
  | nil => intro _; rfl
  | cons s rest ih =>
    intro hno
    have hrest : ¬ ∃ t ∈ rest, policy.writeable = true ∧ t.writeable = true ∧
        Root.overlap policy t = true := by
      rintro ⟨t, ht, a⟩
      exact hno ⟨t, List.mem_cons_of_mem _ ht, a⟩
    have hs : ¬ (policy.writeable = true ∧ s.writeable = true ∧
        Root.overlap policy s = true) :=
      fun a => hno ⟨s, List.mem_cons_self _ _, a⟩
    have ih' := ih hrest
    unfold Root.conflict_scan
    split_ifs with h1 h2 h3
    · rw [ih', List.filter_cons]
      simp [h1]
    · simp only [Bool.and_eq_true] at h3
      exact absurd ⟨h3.1, h3.2, h2⟩ hs
    · rw [ih', List.filter_cons]
      have h1' : (policy.writeable || s.writeable) = true := by
        cases hb : (policy.writeable || s.writeable)
        · exact absurd hb h1
        · rfl
      simp [h1', h2]
    · rw [ih', List.filter_cons]
      simp [h2]

/-- C27: the conflict scan of `_create_session` throws `Root::Unavailable`
only when the requested policy and some registered session it overlaps are
both writeable; when no such pair exists (in particular for every request
with `writeable = false`) the scan throws nothing and prints a warning for
each registered session that overlaps the request with one of the two being
a writer. -/
theorem conflict_scan_refuses_writers_only (policy : Policy) (l : List Session_component) :
    (∀ e, Root.conflict_scan policy l = Except.error e →
      policy.writeable = true ∧
      ∃ s ∈ l, s.writeable = true ∧ Root.overlap policy s = true) ∧
    ((¬ ∃ s ∈ l, policy.writeable = true ∧ s.writeable = true ∧
        Root.overlap policy s = true) →
      Root.conflict_scan policy l = Except.ok
        ((l.filter (fun s => (policy.writeable || s.writeable) &&
          Root.overlap policy s)).map (fun s => s._label))) ∧
    (policy.writeable = false → ∃ ws, Root.conflict_scan policy l = Except.ok ws) := by
  refine ⟨conflict_scan_error_cause policy l, conflict_scan_ok policy l, ?_⟩
  intro hw
  refine ⟨_, conflict_scan_ok policy l ?_⟩
  rintro ⟨s, -, a, -⟩
  rw [hw] at a
  cases a

theorem conflict_scan_refuses_writers_only_witness :
    Root.conflict_scan { offset := 120, span := 10, readable := true, writeable := false }
      [{ sample_session [] [] 4 with _label := "writer", _offset := 100, _span := 150 }]
    = Except.ok ["writer"] :=
  (conflict_scan_refuses_writers_only
    { offset := 120, span := 10, readable := true, writeable := false }
    [{ sample_session [] [] 4 with _label := "writer", _offset := 100, _span := 150 }]).2.1
    (by
      rintro ⟨s, -, a, -⟩
      cases a)

/-- C29: the conflict scan reports no false conflict: when its overlap
condition holds for a requested policy and a registered (that is,
constructed) session, the requested range, which for `span = 0` reaches to
the end of the device, and the range of the session share a sector. -/
theorem overlap_is_real (d : Driver) (pol : Policy) (label : String)
    (s : Session_component) (policy : Policy)
    (hs : Session_component.construct d pol label = Except.ok s)
    (hov : Root.overlap policy s = true) :
    ranges_intersect policy.offset
      (if policy.span ≠ 0 then policy.span else d.block_count - policy.offset)
      s.offset s.span := by
  obtain ⟨-, -, hspan, hlt, hle⟩ := construct_ok_bounds d pol label s hs
  have hpos : 0 < s._span := by
    rw [hspan]
    split_ifs with h
    · omega
    · omega
  simp only [Root.overlap, Session_component.offset, Session_component.span,
    Bool.or_eq_true, Bool.and_eq_true, decide_eq_true_eq] at hov
  unfold ranges_intersect Session_component.offset Session_component.span
  rcases hov with ⟨h1, h2⟩ | ⟨h1, h2⟩
  · refine ⟨s._offset, h1, ?_, le_refl _, by omega⟩
    have hne : policy.span ≠ 0 := by omega
    rw [if_pos hne]
    omega
  · refine ⟨policy.offset, le_refl _, ?_, h1, by omega⟩
    split_ifs with hne
    · omega
    · omega

theorem overlap_is_real_witness :
    ranges_intersect 120 (1000 - 120) 100 150 :=
  overlap_is_real { block_count := 1000, dma_enabled := false }
    { offset := 100, span := 150 } ""
    { sample_session [] [] 0 with _offset := 100, _span := 150 }
    { offset := 120, span := 0 } rfl (by decide)

/-! ## The range check -/

/-- C30 (the code departs from the claim): on a backend of 1000 blocks
`_range_check` accepts the packet with block number 5 and block count 0 (an
empty request), and the packet with block number `2^64 - 1` and block count 2,
whose sum wraps around to 1. -/
theorem range_check_accepts_empty_and_wrapping :
    (sample_session [] [] 4)._range_check
      { operation := Opcode.READ, block_number := 5, block_count := 0,
        offset := 0, size := 512, succeeded := false } = true ∧
    (sample_session [] [] 4)._range_check
      { operation := Opcode.READ, block_number := 2 ^ 64 - 1, block_count := 2,
        offset := 0, size := 1024, succeeded := false } = true ∧
    ¬ (2 ^ 64 - 1 + 2 ≤ (sample_session [] [] 4).driver.block_count) := by
  decide

/-! ## Order of dispatch -/

theorem last_dequeue_from_append (xs ys : List Event) :
    ∀ last, last_dequeue_from last (xs ++ ys) =
      last_dequeue_from (last_dequeue_from last xs) ys := by
  induction xs with
  | nil => intro last; rfl
  | cons e es ih =>
    intro last
    cases e <;> simp [last_dequeue_from, ih]

theorem calls_follow_dequeue_append (xs ys : List Event) :
    ∀ last, calls_follow_dequeue last (xs ++ ys) ↔
      calls_follow_dequeue last xs ∧
      calls_follow_dequeue (last_dequeue_from last xs) ys := by
  induction xs with
  | nil => intro last; simp [calls_follow_dequeue, last_dequeue_from]
  | cons e es ih =>
    intro last
    cases e <;> simp [calls_follow_dequeue, last_dequeue_from, ih, and_assoc]

/-- The events of handling the packet `y` that was dequeued last follow the
dequeue order. -/
theorem calls_follow_dequeue_handled (y : Packet_descriptor) (ev : List Event)
    (h : ∀ e ∈ ev,
      (∃ c, e = Event.backend c ∧ c.packet = { y with succeeded := false }) ∨
      (∃ x, e = Event.ack x)) :
    calls_follow_dequeue (some y) ev ∧ last_dequeue_from (some y) ev = some y := by
  induction ev with
  | nil => exact ⟨trivial, rfl⟩
  | cons e es ih =>
    obtain ⟨i1, i2⟩ := ih (fun e' he' => h e' (List.mem_cons_of_mem _ he'))
    rcases h e (List.mem_cons_self _ _) with ⟨c, he, hc⟩ | ⟨x, he⟩
    · subst he
      exact ⟨⟨⟨y, rfl, hc⟩, i1⟩, i2⟩
    · subst he
      exact ⟨i1, i2⟩

/-- In every state reached from a state with an empty trace and the
congestion flag clear, every backend call in the trace is for the packet that
was dequeued last before it, and a packet held because of congestion is the
packet that was dequeued last. -/
theorem run_calls_follow_dequeue (s₀ : Session_component)
    (h0 : s₀._req_queue_full = false) (ht : s₀.trace = []) (is : List Invocation) :
    calls_follow_dequeue none (s₀.run is).trace ∧
    ((s₀.run is)._req_queue_full = true →
      ∃ p, last_dequeue (s₀.run is).trace = some p ∧
        (s₀.run is)._p_to_handle = { p with succeeded := false }) := by
  refine run_induction
    (fun t => calls_follow_dequeue none t.trace ∧
      (t._req_queue_full = true →
        ∃ p, last_dequeue t.trace = some p ∧ t._p_to_handle = { p with succeeded := false }))
    ?_ ?_ ?_ ?_ ?_ ?_ is s₀ ?_
  · intro t b h
    exact h
  · intro t y rest _ hr _ ⟨hc, _⟩
    obtain ⟨-, -, -, -, -, -, f7, -⟩ := packet_avail_step_frame t y rest
    have key : ∀ ev : List Event,
        (t._packet_avail_step y rest).trace = t.trace ++ Event.dequeue y :: ev →
        (∀ e ∈ ev,
          (∃ c, e = Event.backend c ∧ c.packet = { y with succeeded := false }) ∨
          (∃ x, e = Event.ack x)) →
        calls_follow_dequeue none (t._packet_avail_step y rest).trace ∧
        last_dequeue (t._packet_avail_step y rest).trace = some y := by
      intro ev htr hev
      obtain ⟨k1, k2⟩ := calls_follow_dequeue_handled y ev hev
      rw [htr]
      constructor
      · rw [calls_follow_dequeue_append]
        exact ⟨hc, k1⟩
      · unfold last_dequeue
        rw [last_dequeue_from_append]
        exact k2
    have fin : calls_follow_dequeue none (t._packet_avail_step y rest).trace ∧
        last_dequeue (t._packet_avail_step y rest).trace = some y := by
      rcases packet_avail_step_cases t y rest with
        ⟨-, ht, -⟩ | ⟨-, ht, -⟩ | ⟨-, -, -, ht, -⟩ | ⟨-, -, ht, -⟩ | ⟨-, -, ht, -⟩
      · exact key _ ht (by simp)
      · exact key [] ht (by simp)
      · exact key _ ht (by simp [call_of_packet])
      · exact key _ ht (by simp [call_of_packet])
      · exact key _ ht (by simp [call_of_packet])
    exact ⟨fin.1, fun _ => ⟨y, fin.2, f7⟩⟩
  · intro t hfull ⟨hc, hheld⟩
    obtain ⟨p, hp, hph⟩ := hheld hfull
    obtain ⟨-, -, -, -, -, -, -, -, f9⟩ :=
      handle_packet_frame { t with _req_queue_full := false } t._p_to_handle
    have hsame : ({ t._p_to_handle with succeeded := false } : Packet_descriptor) =
        { p with succeeded := false } := by
      rw [hph]
    have key : ∀ ev : List Event,
        (Session_component._handle_packet { t with _req_queue_full := false }
          t._p_to_handle).trace = t.trace ++ ev →
        (∀ e ∈ ev,
          (∃ c, e = Event.backend c ∧ c.packet = { p with succeeded := false }) ∨
          (∃ x, e = Event.ack x)) →
        calls_follow_dequeue none (Session_component._handle_packet
          { t with _req_queue_full := false } t._p_to_handle).trace ∧
        last_dequeue (Session_component._handle_packet
          { t with _req_queue_full := false } t._p_to_handle).trace = some p := by
      intro ev htr hev
      obtain ⟨k1, k2⟩ := calls_follow_dequeue_handled p ev hev
      have hp' : last_dequeue_from none t.trace = some p := hp
      rw [htr]
      constructor
      · rw [calls_follow_dequeue_append, hp']
        exact ⟨hc, k1⟩
      · unfold last_dequeue
        rw [last_dequeue_from_append, hp']
        exact k2
    have fin : calls_follow_dequeue none (Session_component._handle_packet
          { t with _req_queue_full := false } t._p_to_handle).trace ∧
        last_dequeue (Session_component._handle_packet
          { t with _req_queue_full := false } t._p_to_handle).trace = some p := by
      rcases handle_packet_cases { t with _req_queue_full := false } t._p_to_handle with
        ⟨-, ht, -⟩ | ⟨-, ht, -⟩ | ⟨-, -, -, ht, -⟩ | ⟨-, -, ht, -⟩ | ⟨-, -, ht, -⟩
      · exact key _ ht (by simp)
      · exact key [] (by rw [ht]; simp) (by simp)
      · exact key _ ht (by simp [call_of_packet, hsame])
      · exact key _ ht (by simp [call_of_packet, hsame])
      · exact key _ ht (by simp [call_of_packet, hsame])
    refine ⟨fin.1, fun _ => ⟨p, fin.2, ?_⟩⟩
    rw [f9, hsame]
  · intro t x ⟨hc, hheld⟩
    have htr : (t._ack_packet x).trace = t.trace ++ [Event.ack x] := by
      unfold Session_component._ack_packet
      rfl
    have hfl : (t._ack_packet x)._req_queue_full = t._req_queue_full := by
      unfold Session_component._ack_packet
      rfl
    have hph : (t._ack_packet x)._p_to_handle = t._p_to_handle := by
      unfold Session_component._ack_packet
      rfl
    rw [htr, hfl, hph]
    constructor
    · rw [calls_follow_dequeue_append]
      exact ⟨hc, trivial⟩
    · intro hf
      obtain ⟨p, hp, hq⟩ := hheld hf
      refine ⟨p, ?_, hq⟩
      unfold last_dequeue at hp ⊢
      rw [last_dequeue_from_append, hp]
      rfl
  · intro t x h
    exact h
  · intro t h
    exact h
  · show calls_follow_dequeue none s₀.trace ∧ _
    rw [ht]
    refine ⟨trivial, fun hf => ?_⟩
    rw [h0] at hf
    cases hf

/-- C22: over every sequence of invocations and every script of backend
answers, each backend call is for the packet that was taken out of the submit
queue last before the call.  The calls, and so the calls the backend
accepts, follow the order of the dequeues: when a call is made, no packet
dequeued after the called one has been dispatched, and while a packet is held
because of congestion it stays the packet dequeued last, so that nothing
dequeued later can be dispatched before it. -/
theorem dispatch_in_dequeue_order (s₀ : Session_component)
    (h0 : s₀._req_queue_full = false) (ht : s₀.trace = []) (is : List Invocation) :
    (∀ pre c post, (s₀.run is).trace = pre ++ Event.backend c :: post →
      ∃ p, last_dequeue pre = some p ∧ c.packet = { p with succeeded := false }) ∧
    ((s₀.run is)._req_queue_full = true →
      ∃ p, last_dequeue (s₀.run is).trace = some p ∧
        (s₀.run is)._p_to_handle = { p with succeeded := false }) := by
  obtain ⟨h1, h2⟩ := run_calls_follow_dequeue s₀ h0 ht is
  refine ⟨?_, h2⟩
  intro pre c post htr
  rw [htr, calls_follow_dequeue_append] at h1
  exact h1.2.1

theorem dispatch_in_dequeue_order_witness :
    (sample_session [Outcome.accepted, Outcome.Request_congestion, Outcome.accepted]
        [] 4)._req_queue_full = false ∧
    (sample_session [Outcome.accepted, Outcome.Request_congestion, Outcome.accepted]
        [] 4).trace = [] ∧
    ((∀ pre c post,
        ((sample_session [Outcome.accepted, Outcome.Request_congestion, Outcome.accepted]
          [] 4).run
          [Invocation.submit (sample_packet Opcode.READ 1 1),
           Invocation.submit (sample_packet Opcode.WRITE 2 1),
           Invocation.packet_avail,
           Invocation.ack_packet (sample_packet Opcode.READ 1 1) true]).trace =
          pre ++ Event.backend c :: post →
        ∃ p, last_dequeue pre = some p ∧ c.packet = { p with succeeded := false }) ∧
      (((sample_session [Outcome.accepted, Outcome.Request_congestion, Outcome.accepted]
          [] 4).run
          [Invocation.submit (sample_packet Opcode.READ 1 1),
           Invocation.submit (sample_packet Opcode.WRITE 2 1),
           Invocation.packet_avail,
           Invocation.ack_packet (sample_packet Opcode.READ 1 1) true])._req_queue_full = true →
        ∃ p,
          last_dequeue ((sample_session
            [Outcome.accepted, Outcome.Request_congestion, Outcome.accepted] [] 4).run
            [Invocation.submit (sample_packet Opcode.READ 1 1),
             Invocation.submit (sample_packet Opcode.WRITE 2 1),
             Invocation.packet_avail,
             Invocation.ack_packet (sample_packet Opcode.READ 1 1) true]).trace = some p ∧
          ((sample_session [Outcome.accepted, Outcome.Request_congestion, Outcome.accepted]
            [] 4).run
            [Invocation.submit (sample_packet Opcode.READ 1 1),
             Invocation.submit (sample_packet Opcode.WRITE 2 1),
             Invocation.packet_avail,
             Invocation.ack_packet (sample_packet Opcode.READ 1 1) true])._p_to_handle =
            { p with succeeded := false })) :=
  ⟨rfl, rfl,
    dispatch_in_dequeue_order
      (sample_session [Outcome.accepted, Outcome.Request_congestion, Outcome.accepted] [] 4)
      rfl rfl
      [Invocation.submit (sample_packet Opcode.READ 1 1),
       Invocation.submit (sample_packet Opcode.WRITE 2 1),
       Invocation.packet_avail,
       Invocation.ack_packet (sample_packet Opcode.READ 1 1) true]⟩

/-! ## Requests dropped for lack of permission -/

/-- A READ on a session that is not readable, or a WRITE on a session that is
not writeable, that passes the validation leaves no mark in the trace, the
counter and the congestion flag. -/
theorem handle_packet_forbidden (s : Session_component) (p : Packet_descriptor)
    (hsize : p.size ≠ 0) (hrange : s._range_check p = true)
    (h : (p.operation = Opcode.READ ∧ s._readable = false) ∨
         (p.operation = Opcode.WRITE ∧ s._writeable = false)) :
    (s._handle_packet p).trace = s.trace ∧
    (s._handle_packet p)._p_in_fly = s._p_in_fly ∧
    (s._handle_packet p)._req_queue_full = s._req_queue_full := by
  have hrange' : sub64 (add64 p.block_number p.block_count) 1 < s.driver.block_count := by
    simpa [Session_component._range_check] using hrange
  rw [handle_packet_valid s p hsize hrange']
  rcases p with ⟨op, bn, bc, off, sz, su⟩
  rcases h with ⟨ho, hr⟩ | ⟨ho, hw⟩
  · simp only at ho
    subst ho
    simp [hr]
  · simp only at ho
    subst ho
    simp [hw]

/-- Once the in-flight counter has reached the number of free slots of the
acknowledgement queue, `_packet_avail` only sets `_ack_queue_full`. -/
theorem packet_avail_of_in_flight_full (s : Session_component)
    (h : s.tx_sink.ack_slots_free ≤ s._p_in_fly) :
    s._packet_avail = { s with _ack_queue_full := true } := by
  rw [packet_avail_eq]
  have hd : decide (s._p_in_fly ≥ s.tx_sink.ack_slots_free) = true := by
    simpa using h
  rw [hd]
  cases hq : s.tx_sink.submit_queue with
  | nil => rfl
  | cons p rest =>
    rw [packet_avail_loop_cons, if_neg]
    simp

/-- A stalled session stays stalled as long as the backend reports no
completion and either the client takes no acknowledgement out of the queue or
the counter has reached the capacity of the queue. -/
theorem run_stalled (is : List Invocation) :
    ∀ t : Session_component, t.tx_sink.ack_slots_free ≤ t._p_in_fly →
      (∀ i ∈ is, ∀ x b, i ≠ Invocation.ack_packet x b) →
      (t.tx_sink.capacity ≤ t._p_in_fly ∨ ∀ i ∈ is, i ≠ Invocation.release) →
      (t.run is).trace = t.trace ∧ (t.run is)._p_in_fly = t._p_in_fly ∧
      (t.run is).tx_sink.capacity = t.tx_sink.capacity ∧
      (t.run is).tx_sink.ack_slots_free ≤ (t.run is)._p_in_fly := by
  induction is with
  | nil => intro t h _ _; exact ⟨rfl, rfl, rfl, h⟩
  | cons i is ih =>
    intro t hfull hno hrel
    have hno' : ∀ j ∈ is, ∀ x b, j ≠ Invocation.ack_packet x b :=
      fun j hj => hno j (List.mem_cons_of_mem _ hj)
    have hstep : (t.invoke i).trace = t.trace ∧ (t.invoke i)._p_in_fly = t._p_in_fly ∧
        (t.invoke i).tx_sink.capacity = t.tx_sink.capacity ∧
        (t.invoke i).tx_sink.ack_slots_free ≤ (t.invoke i)._p_in_fly := by
      cases i with
      | packet_avail =>
        have hi : t.invoke Invocation.packet_avail = t._packet_avail := rfl
        rw [hi, packet_avail_of_in_flight_full t hfull]
        exact ⟨rfl, rfl, rfl, hfull⟩
      | ready_to_ack =>
        have hi : t.invoke Invocation.ready_to_ack = t._packet_avail := rfl
        rw [hi, packet_avail_of_in_flight_full t hfull]
        exact ⟨rfl, rfl, rfl, hfull⟩
      | ack_packet x b => exact absurd rfl (hno _ (List.mem_cons_self _ _) x b)
      | submit x =>
        have hi : t.invoke (Invocation.submit x) =
            if t.tx_sink.submit_queue.length < t.tx_sink.capacity then
              { t with tx_sink :=
                  { t.tx_sink with submit_queue := t.tx_sink.submit_queue ++ [x] } }
            else t := rfl
        rw [hi]
        split_ifs
        · exact ⟨rfl, rfl, rfl, hfull⟩
        · exact ⟨rfl, rfl, rfl, hfull⟩
      | release =>
        have hi : t.invoke Invocation.release =
            { t with tx_sink := { t.tx_sink with ack_queue := t.tx_sink.ack_queue.tail } } :=
          rfl
        rw [hi]
        refine ⟨rfl, rfl, rfl, ?_⟩
        rcases hrel with hcap | hnorel
        · show t.tx_sink.capacity - t.tx_sink.ack_queue.tail.length ≤ t._p_in_fly
          omega
        · exact absurd rfl (hnorel _ (List.mem_cons_self _ _))
    obtain ⟨s1, s2, s3, s4⟩ := hstep
    have hrel' : (t.invoke i).tx_sink.capacity ≤ (t.invoke i)._p_in_fly ∨
        ∀ j ∈ is, j ≠ Invocation.release := by
      rcases hrel with hcap | hnorel
      · left
        rw [s2, s3]
        exact hcap
      · right
        exact fun j hj => hnorel j (List.mem_cons_of_mem _ hj)
    obtain ⟨r1, r2, r3, r4⟩ := ih (t.invoke i) s4 hno' hrel'
    rw [run_cons]
    exact ⟨r1.trans s1, r2.trans s2, r3.trans s3, r4⟩

/-- C28, as stated, fails: on a session that is not readable the loop rejects
a READ packet that lies outside the device (its acknowledgement takes one of
the four slots) and drops three READ packets; the counter is 3 and has
reached the number of free slots, 3, and `_ack_queue_full` is set.  The client
submits one more packet and takes the acknowledgement out of the queue: the
next `_ready_to_ack` dequeues the packet and counts `_p_in_fly` up to 4,
although no completion of the backend was acknowledged in between (the
acknowledgements in the trace stay the one of the rejected packet). -/
theorem stall_ends_by_release :
    (((({ sample_session [] [] 4 with _readable := false } : Session_component).run
        [Invocation.submit (sample_packet Opcode.READ 2000 1),
         Invocation.submit (sample_packet Opcode.READ 1 1),
         Invocation.submit (sample_packet Opcode.READ 2 1),
         Invocation.submit (sample_packet Opcode.READ 3 1),
         Invocation.packet_avail])._p_in_fly,
      (({ sample_session [] [] 4 with _readable := false } : Session_component).run
        [Invocation.submit (sample_packet Opcode.READ 2000 1),
         Invocation.submit (sample_packet Opcode.READ 1 1),
         Invocation.submit (sample_packet Opcode.READ 2 1),
         Invocation.submit (sample_packet Opcode.READ 3 1),
         Invocation.packet_avail]).tx_sink.ack_slots_free,
      (({ sample_session [] [] 4 with _readable := false } : Session_component).run
        [Invocation.submit (sample_packet Opcode.READ 2000 1),
         Invocation.submit (sample_packet Opcode.READ 1 1),
         Invocation.submit (sample_packet Opcode.READ 2 1),
         Invocation.submit (sample_packet Opcode.READ 3 1),
         Invocation.packet_avail])._ack_queue_full),
     ((({ sample_session [] [] 4 with _readable := false } : Session_component).run
        [Invocation.submit (sample_packet Opcode.READ 2000 1),
         Invocation.submit (sample_packet Opcode.READ 1 1),
         Invocation.submit (sample_packet Opcode.READ 2 1),
         Invocation.submit (sample_packet Opcode.READ 3 1),
         Invocation.packet_avail,
         Invocation.submit (sample_packet Opcode.READ 4 1),
         Invocation.release,
         Invocation.ready_to_ack])._p_in_fly,
      dequeues (({ sample_session [] [] 4 with _readable := false } : Session_component).run
        [Invocation.submit (sample_packet Opcode.READ 2000 1),
         Invocation.submit (sample_packet Opcode.READ 1 1),
         Invocation.submit (sample_packet Opcode.READ 2 1),
         Invocation.submit (sample_packet Opcode.READ 3 1),
         Invocation.packet_avail,
         Invocation.submit (sample_packet Opcode.READ 4 1),
         Invocation.release,
         Invocation.ready_to_ack]).trace,
      acks (({ sample_session [] [] 4 with _readable := false } : Session_component).run
        [Invocation.submit (sample_packet Opcode.READ 2000 1),
         Invocation.submit (sample_packet Opcode.READ 1 1),
         Invocation.submit (sample_packet Opcode.READ 2 1),
         Invocation.submit (sample_packet Opcode.READ 3 1),
         Invocation.packet_avail,
         Invocation.submit (sample_packet Opcode.READ 4 1),
         Invocation.release,
         Invocation.ready_to_ack]).trace))
    = ((3, 3, true),
       (4,
        [sample_packet Opcode.READ 2000 1, sample_packet Opcode.READ 1 1,
         sample_packet Opcode.READ 2 1, sample_packet Opcode.READ 3 1,
         sample_packet Opcode.READ 4 1],
        [sample_packet Opcode.READ 2000 1])) := by
  rfl

/-- C28, amended: a request dropped for lack of permission is taken out of
the submit queue and counted in `_p_in_fly`, and neither the backend is
called for it nor is it acknowledged, so that the count is never taken back.
Once `_p_in_fly` has reached the number of free acknowledgement slots, every
later `_packet_avail` or `_ready_to_ack` only sets `_ack_queue_full`: the
trace and the counter stay as they are, for as long as no completion of the
backend is acknowledged and the client takes no acknowledgement out of the
acknowledgement queue; once `_p_in_fly` has reached the capacity of that
queue, also when the client takes the acknowledgements out. -/
theorem dropped_requests_stall (s : Session_component) (p : Packet_descriptor)
    (rest : List Packet_descriptor) (t : Session_component) (is : List Invocation)
    (hsize : p.size ≠ 0) (hrange : s._range_check p = true)
    (hforbidden : (p.operation = Opcode.READ ∧ s._readable = false) ∨
      (p.operation = Opcode.WRITE ∧ s._writeable = false))
    (hfull : t.tx_sink.ack_slots_free ≤ t._p_in_fly)
    (hno : ∀ i ∈ is, ∀ x b, i ≠ Invocation.ack_packet x b)
    (hrel : t.tx_sink.capacity ≤ t._p_in_fly ∨ ∀ i ∈ is, i ≠ Invocation.release) :
    ((s._packet_avail_step p rest).trace = s.trace ++ [Event.dequeue p] ∧
      (s._packet_avail_step p rest)._p_in_fly = (s._p_in_fly + 1) % UNSIGNED_MOD) ∧
    ((t.run is).trace = t.trace ∧ (t.run is)._p_in_fly = t._p_in_fly ∧
      (t.run is)._packet_avail = { t.run is with _ack_queue_full := true } ∧
      (t.run is)._ready_to_ack = { t.run is with _ack_queue_full := true }) := by
  constructor
  · obtain ⟨h1, h2, -⟩ := handle_packet_forbidden (s.get_packet p rest) p hsize hrange hforbidden
    constructor
    · show (Session_component._handle_packet (s.get_packet p rest) p).trace = _
      rw [h1]
      rfl
    · show ((Session_component._handle_packet (s.get_packet p rest) p)._p_in_fly + 1)
        % UNSIGNED_MOD = _
      rw [h2]
      rfl
  · obtain ⟨r1, r2, -, r4⟩ := run_stalled is t hfull hno hrel
    exact ⟨r1, r2, packet_avail_of_in_flight_full _ r4, packet_avail_of_in_flight_full _ r4⟩

theorem dropped_requests_stall_witness :
    (Session_component._packet_avail_step
        ({ sample_session [] [] 4 with _readable := false } : Session_component)
        (sample_packet Opcode.READ 1 1) []).trace =
      [] ++ [Event.dequeue (sample_packet Opcode.READ 1 1)] ∧
    (({ sample_session [] [sample_packet Opcode.READ 2 1] 4 with
          _p_in_fly := 4 } : Session_component).run
        [Invocation.submit (sample_packet Opcode.READ 3 1), Invocation.release,
         Invocation.packet_avail, Invocation.ready_to_ack]).trace = [] :=
  ⟨(dropped_requests_stall
      ({ sample_session [] [] 4 with _readable := false } : Session_component)
      (sample_packet Opcode.READ 1 1) []
      ({ sample_session [] [sample_packet Opcode.READ 2 1] 4 with
          _p_in_fly := 4 } : Session_component)
      [Invocation.submit (sample_packet Opcode.READ 3 1), Invocation.release,
       Invocation.packet_avail, Invocation.ready_to_ack]
      (by decide) (by decide) (Or.inl ⟨rfl, rfl⟩) (by decide)
      (fun i hi x b h => by subst h; simp at hi) (Or.inl (by decide))).1.1,
   (dropped_requests_stall
      ({ sample_session [] [] 4 with _readable := false } : Session_component)
      (sample_packet Opcode.READ 1 1) []
      ({ sample_session [] [sample_packet Opcode.READ 2 1] 4 with
          _p_in_fly := 4 } : Session_component)
      [Invocation.submit (sample_packet Opcode.READ 3 1), Invocation.release,
       Invocation.packet_avail, Invocation.ready_to_ack]
      (by decide) (by decide) (Or.inl ⟨rfl, rfl⟩) (by decide)
      (fun i hi x b h => by subst h; simp at hi) (Or.inl (by decide))).2.1⟩

/-! ## The in-flight counter and the capacity of the acknowledgement queue -/

theorem refusals_zero (script : List Outcome) : refusals script 0 = 0 := by
  cases script <;> rfl

/-- One more call counts as a refusal exactly when the next answer of the
script is `Request_congestion` or `Io_error`. -/
theorem refusals_next (script : List Outcome) :
    ∀ n, refusals script (n + 1) = refusals script n +
      (if (script.drop n).head? = some Outcome.Request_congestion ∨
          (script.drop n).head? = some Outcome.Io_error then 1 else 0) := by
  induction script with
  | nil => intro n; simp [refusals]
  | cons a l ih =>
    intro n
    cases n with
    | zero => cases a <;> simp [refusals, refusals_zero]
    | succ n =>
      have h := ih n
      simp only [refusals, List.drop_succ_cons]
      omega

theorem drop_tail_succ (script : List Outcome) (n : Nat) :
    (script.drop n).tail = script.drop (n + 1) := by
  simp

theorem ack_slots_free_le (k : Packet_stream_sink) : k.ack_slots_free ≤ k.capacity := by
  unfold Packet_stream_sink.ack_slots_free
  omega

/-- Bookkeeping across `_handle_packet`, for a packet that was counted as
dequeued and is not covered yet; `e` is 1 in the loop of `_packet_avail`,
where the counter is counted up after the packet was handled, and 0 when the
held packet is handled again. -/
theorem handle_packet_accounted (script : List Outcome) (c e : Nat)
    (u : Session_component) (y : Packet_descriptor)
    (ha : u.outcomes = script.drop (backend_calls u.trace).length)
    (hb : u._p_in_fly + e + (acks u.trace).length = (dequeues u.trace).length)
    (hM : u._p_in_fly + e < UNSIGNED_MOD) (he1 : e ≤ 1)
    (hc : (acks u.trace).length + (backend_calls u.trace).length + 1 ≤
      (dequeues u.trace).length + c + refusals script (backend_calls u.trace).length)
    (hd : c + refusals script (backend_calls u.trace).length ≤ (backend_calls u.trace).length)
    (he : u._req_queue_full = false) :
    (u._handle_packet y).outcomes =
      script.drop (backend_calls (u._handle_packet y).trace).length ∧
    ((u._handle_packet y)._p_in_fly + e) % UNSIGNED_MOD +
      (acks (u._handle_packet y).trace).length = (dequeues (u._handle_packet y).trace).length ∧
    ((u._handle_packet y)._p_in_fly + e) % UNSIGNED_MOD ≤ u._p_in_fly + e ∧
    (acks (u._handle_packet y).trace).length + (backend_calls (u._handle_packet y).trace).length +
        (if (u._handle_packet y)._req_queue_full = true then 1 else 0) ≤
      (dequeues (u._handle_packet y).trace).length + c +
        refusals script (backend_calls (u._handle_packet y).trace).length ∧
    c + refusals script (backend_calls (u._handle_packet y).trace).length ≤
      (backend_calls (u._handle_packet y).trace).length ∧
    (u._handle_packet y)._p_in_fly < UNSIGNED_MOD := by
  have hnext := refusals_next script (backend_calls u.trace).length
  rw [← ha] at hnext
  have hdrop := drop_tail_succ script (backend_calls u.trace).length
  rw [← ha] at hdrop
  have hdec := dec32_cases u._p_in_fly
  simp only [UNSIGNED_MOD] at hM ⊢
  rcases handle_packet_cases u y with
    ⟨-, ht, ho, hr, hp, -⟩ | ⟨-, ht, ho, hr, hp, -⟩ | ⟨-, h1, h2, ht, ho, hr, hp, -⟩ |
    ⟨-, h1, ht, ho, hr, hp, -⟩ | ⟨-, h1, ht, ho, hr, hp, -⟩
  · rw [ht, ho, hr, hp, he, backend_calls_append, acks_append, dequeues_append]
    simp only [acks, dequeues, backend_calls, List.length_append, List.length_cons,
      List.length_nil, Nat.add_zero, Bool.false_eq_true, if_false]
    refine ⟨ha, ?_, ?_, ?_, ?_, ?_⟩ <;> omega
  · rw [ht, ho, hr, hp, he]
    simp only [Bool.false_eq_true, if_false]
    refine ⟨ha, ?_, ?_, ?_, ?_, ?_⟩ <;> omega
  · rw [if_neg (not_or.mpr ⟨h1, h2⟩)] at hnext
    rw [ht, ho, hr, hp, he, backend_calls_append, acks_append, dequeues_append]
    simp only [acks, dequeues, backend_calls, List.length_append, List.length_cons,
      List.length_nil, Nat.add_zero, Bool.false_eq_true, if_false]
    rw [hnext]
    refine ⟨hdrop, ?_, ?_, ?_, ?_, ?_⟩ <;> omega
  · rw [if_pos (Or.inl h1)] at hnext
    rw [ht, ho, hr, hp, backend_calls_append, acks_append, dequeues_append]
    simp only [acks, dequeues, backend_calls, List.length_append, List.length_cons,
      List.length_nil, Nat.add_zero, if_true]
    rw [hnext]
    refine ⟨hdrop, ?_, ?_, ?_, ?_, ?_⟩ <;> omega
  · rw [if_pos (Or.inr h1)] at hnext
    rw [ht, ho, hr, hp, he, backend_calls_append, acks_append, dequeues_append]
    simp only [acks, dequeues, backend_calls, List.length_append, List.length_cons,
      List.length_nil, Nat.add_zero, Bool.false_eq_true, if_false]
    rw [hnext]
    refine ⟨hdrop, ?_, ?_, ?_, ?_, ?_⟩ <;> omega

/-- An iteration of the loop of `_packet_avail` that is entered with
`_ack_queue_full` just computed keeps the bookkeeping, and computes
`_ack_queue_full` anew. -/
theorem accounted_step (script : List Outcome) (c : Nat) (t : Session_component)
    (y : Packet_descriptor) (rest : List Packet_descriptor)
    (hcap : t.tx_sink.capacity < UNSIGNED_MOD) (hacc : t.accounted script c)
    (hfresh : t._ack_queue_full = decide (t._p_in_fly ≥ t.tx_sink.ack_slots_free))
    (hrq : t._req_queue_full = false) (hak : t._ack_queue_full = false) :
    (t._packet_avail_step y rest).accounted script c ∧
    (t._packet_avail_step y rest)._ack_queue_full =
      decide ((t._packet_avail_step y rest)._p_in_fly ≥
        (t._packet_avail_step y rest).tx_sink.ack_slots_free) := by
  obtain ⟨i1, i2, i3, i4, i5⟩ := hacc
  have hfree : t._p_in_fly < t.tx_sink.capacity := by
    have h1 := ack_slots_free_le t.tx_sink
    rw [hak] at hfresh
    have h2 : ¬ (t._p_in_fly ≥ t.tx_sink.ack_slots_free) := by
      intro h3
      rw [decide_eq_true h3] at hfresh
      cases hfresh
    omega
  obtain ⟨-, -, -, -, -, hcapeq, -, -⟩ := packet_avail_step_frame t y rest
  rw [hrq] at i4
  simp only [Bool.false_eq_true, if_false, Nat.add_zero] at i4
  have hB : (backend_calls (t.get_packet y rest).trace).length =
      (backend_calls t.trace).length := by
    show (backend_calls (t.trace ++ [Event.dequeue y])).length = _
    rw [backend_calls_append]
    simp [backend_calls]
  have hA : (acks (t.get_packet y rest).trace).length = (acks t.trace).length := by
    show (acks (t.trace ++ [Event.dequeue y])).length = _
    rw [acks_append]
    simp [acks]
  have hD : (dequeues (t.get_packet y rest).trace).length =
      (dequeues t.trace).length + 1 := by
    show (dequeues (t.trace ++ [Event.dequeue y])).length = _
    rw [dequeues_append]
    simp [dequeues]
  have hP : (t.get_packet y rest)._p_in_fly = t._p_in_fly := rfl
  obtain ⟨o1, o2, o3, o4, o5, -⟩ :=
    handle_packet_accounted script c 1 (t.get_packet y rest) y
      (by rw [hB]; exact i1) (by rw [hA, hD, hP]; omega) (by rw [hP]; omega) (le_refl 1)
      (by rw [hA, hB, hD]; omega) (by rw [hB]; exact i5) hrq
  rw [hP] at o3
  refine ⟨⟨o1, o2, ?_, o4, o5⟩, rfl⟩
  rw [hcapeq]
  show ((Session_component._handle_packet (t.get_packet y rest) y)._p_in_fly + 1) %
    UNSIGNED_MOD ≤ _
  omega

/-- Handling the held packet again keeps the bookkeeping. -/
theorem accounted_retry (script : List Outcome) (c : Nat) (t : Session_component)
    (hcap : t.tx_sink.capacity < UNSIGNED_MOD) (hacc : t.accounted script c)
    (hfull : t._req_queue_full = true) :
    (Session_component._handle_packet { t with _req_queue_full := false }
      t._p_to_handle).accounted script c := by
  obtain ⟨i1, i2, i3, i4, i5⟩ := hacc
  rw [hfull] at i4
  simp only [if_true] at i4
  obtain ⟨-, -, -, -, -, -, -, hcapeq, -⟩ :=
    handle_packet_frame { t with _req_queue_full := false } t._p_to_handle
  have hP : ({ t with _req_queue_full := false } : Session_component)._p_in_fly =
      t._p_in_fly := rfl
  have hT : ({ t with _req_queue_full := false } : Session_component).trace = t.trace := rfl
  obtain ⟨o1, o2, o3, o4, o5, o6⟩ :=
    handle_packet_accounted script c 0 { t with _req_queue_full := false } t._p_to_handle
      (by rw [hT]; exact i1) (by rw [hT, hP]; omega) (by rw [hP]; omega) (Nat.zero_le 1)
      (by rw [hT]; exact i4) (by rw [hT]; exact i5) rfl
  rw [hP] at o3
  have hmod : ((Session_component._handle_packet { t with _req_queue_full := false }
      t._p_to_handle)._p_in_fly + 0) % UNSIGNED_MOD =
      (Session_component._handle_packet { t with _req_queue_full := false }
        t._p_to_handle)._p_in_fly := Nat.mod_eq_of_lt o6
  rw [hmod] at o2 o3
  refine ⟨o1, o2, ?_, o4, o5⟩
  rw [hcapeq]
  show _ ≤ t.tx_sink.capacity
  omega

/-- The acknowledgement of a completion that the backend reports for a call
it has accepted keeps the bookkeeping, with one completion more. -/
theorem accounted_ack (script : List Outcome) (c : Nat) (t : Session_component)
    (x : Packet_descriptor) (hacc : t.accounted script c)
    (hlt : c < accepted_calls script t.trace) :
    (t._ack_packet x).accounted script (c + 1) := by
  obtain ⟨i1, i2, i3, i4, i5⟩ := hacc
  unfold accepted_calls at hlt
  have hdec := dec32_cases t._p_in_fly
  have hP : (t._ack_packet x)._p_in_fly = dec32 t._p_in_fly := by
    unfold Session_component._ack_packet
    rfl
  have hT : (t._ack_packet x).trace = t.trace ++ [Event.ack x] := by
    unfold Session_component._ack_packet
    rfl
  have hO : (t._ack_packet x).outcomes = t.outcomes := by
    unfold Session_component._ack_packet
    rfl
  have hR : (t._ack_packet x)._req_queue_full = t._req_queue_full := by
    unfold Session_component._ack_packet
    rfl
  have hC : (t._ack_packet x).tx_sink.capacity = t.tx_sink.capacity := by
    unfold Session_component._ack_packet
    rfl
  unfold Session_component.accounted
  rw [hP, hT, hO, hR, hC, backend_calls_append, acks_append, dequeues_append]
  simp only [acks, dequeues, backend_calls, List.length_append, List.length_cons,
    List.length_nil, Nat.add_zero]
  refine ⟨i1, ?_, ?_, ?_, ?_⟩ <;> omega

theorem accounted_packet_avail (script : List Outcome) (c : Nat) (t : Session_component)
    (hcap : t.tx_sink.capacity < UNSIGNED_MOD) (hacc : t.accounted script c) :
    t._packet_avail.accounted script c ∧
    t._packet_avail.tx_sink.capacity = t.tx_sink.capacity := by
  rw [packet_avail_eq]
  have key := packet_avail_loop_induction
    (fun u => u.tx_sink.capacity = t.tx_sink.capacity ∧ u.accounted script c ∧
      u._ack_queue_full = decide (u._p_in_fly ≥ u.tx_sink.ack_slots_free))
    (fun u y rest _ hrq hak ⟨h1, h2, h3⟩ => by
      obtain ⟨-, -, -, -, -, hcapeq, -, -⟩ := packet_avail_step_frame u y rest
      have hcap' : u.tx_sink.capacity < UNSIGNED_MOD := by rw [h1]; exact hcap
      obtain ⟨r1, r2⟩ := accounted_step script c u y rest hcap' h2 h3 hrq hak
      exact ⟨hcapeq.trans h1, r1, r2⟩)
    t.tx_sink.submit_queue
    { t with _ack_queue_full := decide (t._p_in_fly ≥ t.tx_sink.ack_slots_free) }
    rfl ⟨rfl, hacc, rfl⟩
  exact ⟨key.2.1, key.1⟩

theorem accounted_ack_packet (script : List Outcome) (c : Nat) (t : Session_component)
    (x : Packet_descriptor) (b : Bool)
    (hcap : t.tx_sink.capacity < UNSIGNED_MOD) (hacc : t.accounted script c)
    (hlt : c < accepted_calls script t.trace) :
    (t.ack_packet x b).accounted script (c + 1) ∧
    (t.ack_packet x b).tx_sink.capacity = t.tx_sink.capacity := by
  have h1 := accounted_ack script c t { x with succeeded := b } hacc hlt
  have hC : (t._ack_packet { x with succeeded := b }).tx_sink.capacity =
      t.tx_sink.capacity := by
    unfold Session_component._ack_packet
    rfl
  have hcap1 : (t._ack_packet { x with succeeded := b }).tx_sink.capacity < UNSIGNED_MOD := by
    rw [hC]
    exact hcap
  unfold Session_component.ack_packet
  simp only
  split_ifs with g1 g2
  · exact ⟨h1, hC⟩
  · obtain ⟨-, -, -, -, -, -, -, hcapeq, -⟩ :=
      handle_packet_frame { t._ack_packet { x with succeeded := b } with
        _req_queue_full := false } (t._ack_packet { x with succeeded := b })._p_to_handle
    have h2 := accounted_retry script (c + 1) _ hcap1 h1 g2
    have hcap2 : (Session_component._handle_packet
        { t._ack_packet { x with succeeded := b } with _req_queue_full := false }
        (t._ack_packet { x with succeeded := b })._p_to_handle).tx_sink.capacity =
        t.tx_sink.capacity := hcapeq.trans hC
    obtain ⟨r1, r2⟩ := accounted_packet_avail script (c + 1) _ (by rw [hcap2]; exact hcap) h2
    exact ⟨r1, r2.trans hcap2⟩
  · obtain ⟨r1, r2⟩ := accounted_packet_avail script (c + 1) _ hcap1 h1
    exact ⟨r1, r2.trans hC⟩

/-- The bookkeeping holds after every sequence of invocations in which the
backend reports completions for calls it has accepted only. -/
theorem run_accounted (script : List Outcome) (is : List Invocation) :
    ∀ (t : Session_component) (c : Nat), t.tx_sink.capacity < UNSIGNED_MOD →
      t.accounted script c → t.completes_at_most_once script c is →
      ∃ c', (t.run is).accounted script c' ∧
        (t.run is).tx_sink.capacity = t.tx_sink.capacity := by
  induction is with
  | nil => intro t c _ hacc _; exact ⟨c, hacc, rfl⟩
  | cons i is ih =>
    intro t c hcap hacc hb
    rw [run_cons]
    cases i with
    | packet_avail =>
      obtain ⟨r1, r2⟩ := accounted_packet_avail script c t hcap hacc
      obtain ⟨c', q1, q2⟩ := ih t._packet_avail c (by rw [r2]; exact hcap) r1 hb
      exact ⟨c', q1, q2.trans r2⟩
    | ready_to_ack =>
      obtain ⟨r1, r2⟩ := accounted_packet_avail script c t hcap hacc
      obtain ⟨c', q1, q2⟩ := ih t._packet_avail c (by rw [r2]; exact hcap) r1 hb
      exact ⟨c', q1, q2.trans r2⟩
    | ack_packet x b =>
      obtain ⟨r1, r2⟩ := accounted_ack_packet script c t x b hcap hacc hb.1
      obtain ⟨c', q1, q2⟩ := ih (t.ack_packet x b) (c + 1) (by rw [r2]; exact hcap) r1 hb.2
      exact ⟨c', q1, q2.trans r2⟩
    | submit x =>
      have hi : t.invoke (Invocation.submit x) =
          if t.tx_sink.submit_queue.length < t.tx_sink.capacity then
            { t with tx_sink :=
                { t.tx_sink with submit_queue := t.tx_sink.submit_queue ++ [x] } }
          else t := rfl
      have hb' : Session_component.completes_at_most_once script
          (t.invoke (Invocation.submit x)) c is := hb
      rw [hi] at hb' ⊢
      split_ifs at hb' ⊢
      · exact ih _ c hcap hacc hb'
      · exact ih _ c hcap hacc hb'
    | release =>
      exact ih _ c hcap hacc hb

theorem packet_avail_step_dequeues (s : Session_component) (p : Packet_descriptor)
    (rest : List Packet_descriptor) :
    (dequeues (s._packet_avail_step p rest).trace).length = (dequeues s.trace).length + 1 := by
  rcases packet_avail_step_cases s p rest with
    ⟨-, ht, -⟩ | ⟨-, ht, -⟩ | ⟨-, -, -, ht, -⟩ | ⟨-, -, ht, -⟩ | ⟨-, -, ht, -⟩ <;>
  · rw [ht, dequeues_append]
    simp [dequeues]

theorem packet_avail_loop_levels_cons (s : Session_component) (p : Packet_descriptor)
    (rest : List Packet_descriptor) :
    Session_component._packet_avail_loop_levels (p :: rest) s =
      if s._req_queue_full = false ∧ s._ack_queue_full = false then
        s._p_in_fly ::
          Session_component._packet_avail_loop_levels rest (s._packet_avail_step p rest)
      else [] := rfl

/-- Every iteration of the loop of `_packet_avail` is entered with the
counter below the capacity of the acknowledgement queue, and the iterations
entered are the dequeues of the loop. -/
theorem packet_avail_loop_levels_bound (q : List Packet_descriptor) :
    ∀ s : Session_component,
      s._ack_queue_full = decide (s._p_in_fly ≥ s.tx_sink.ack_slots_free) →
      (∀ n ∈ Session_component._packet_avail_loop_levels q s, n < s.tx_sink.capacity) ∧
      (dequeues (Session_component._packet_avail_loop q s).trace).length =
        (dequeues s.trace).length +
          (Session_component._packet_avail_loop_levels q s).length := by
  induction q with
  | nil =>
    intro s _
    exact ⟨fun n hn => absurd hn (List.not_mem_nil n), rfl⟩
  | cons p rest ih =>
    intro s hfresh
    rw [packet_avail_loop_cons, packet_avail_loop_levels_cons]
    split_ifs with hc
    · obtain ⟨-, -, -, -, -, hcapeq, -, -⟩ := packet_avail_step_frame s p rest
      obtain ⟨r1, r2⟩ := ih (s._packet_avail_step p rest) rfl
      have hfree : s._p_in_fly < s.tx_sink.capacity := by
        have h1 := ack_slots_free_le s.tx_sink
        rw [hc.2] at hfresh
        have h2 : ¬ (s._p_in_fly ≥ s.tx_sink.ack_slots_free) := by
          intro h3
          rw [decide_eq_true h3] at hfresh
          cases hfresh
        omega
      constructor
      · intro n hn
        rcases List.mem_cons.mp hn with h | h
        · rw [h]
          exact hfree
        · rw [← hcapeq]
          exact r1 n h
      · rw [r2, packet_avail_step_dequeues, List.length_cons]
        omega
    · exact ⟨fun n hn => absurd hn (List.not_mem_nil n), rfl⟩

/-- C21: in every state reached from a freshly constructed session by a
sequence of invocations in which the backend completes each accepted packet
at most once (it never reports more completions than it has accepted calls),
`_p_in_fly` does not exceed the capacity of the acknowledgement queue.  And
no packet is dequeued while `_p_in_fly` is at or above the capacity: in every
state whatever, each iteration of the loop of `_packet_avail`, the only place
where packets are taken out of the submit queue, is entered with `_p_in_fly`
below the capacity, these iterations being exactly the dequeues the
invocation adds to the trace. -/
theorem in_flight_within_capacity (d : Driver) (pol : Policy) (label : String)
    (s₀ : Session_component) (capacity : Nat) (outcomes : List Outcome)
    (is : List Invocation)
    (h : Session_component.construct d pol label = Except.ok s₀)
    (hb : (s₀.start capacity outcomes).completes_at_most_once outcomes 0 is) :
    ((s₀.start capacity outcomes).run is)._p_in_fly ≤ capacity ∧
    (∀ s : Session_component,
      (∀ n ∈ s.dequeue_levels, n < s.tx_sink.capacity) ∧
      (dequeues s._packet_avail.trace).length =
        (dequeues s.trace).length + s.dequeue_levels.length) := by
  obtain ⟨h1, h2, h3⟩ := construct_ok_fresh d pol label s₀ h
  have e1 : (s₀.start capacity outcomes)._p_in_fly = 0 := h1
  have e2 : (s₀.start capacity outcomes).trace = [] := h2
  have e3 : (s₀.start capacity outcomes)._req_queue_full = false := h3
  have e4 : (s₀.start capacity outcomes).tx_sink.capacity = capacity := rfl
  have e5 : (s₀.start capacity outcomes).outcomes = outcomes := rfl
  constructor
  · by_cases hcap : capacity < UNSIGNED_MOD
    · have hacc : (s₀.start capacity outcomes).accounted outcomes 0 := by
        unfold Session_component.accounted
        rw [e1, e2, e3, e5]
        simp [backend_calls, acks, dequeues, refusals_zero]
      obtain ⟨c', ⟨-, -, q3, -, -⟩, q⟩ :=
        run_accounted outcomes is (s₀.start capacity outcomes) 0 (by rw [e4]; exact hcap)
          hacc hb
      rw [q, e4] at q3
      exact q3
    · have hstart : (s₀.start capacity outcomes)._p_in_fly < UNSIGNED_MOD ∧
          ((s₀.start capacity outcomes)._p_in_fly +
            (acks (s₀.start capacity outcomes).trace).length) % UNSIGNED_MOD =
          (dequeues (s₀.start capacity outcomes).trace).length % UNSIGNED_MOD := by
        rw [e1, e2]
        exact ⟨by decide, rfl⟩
      obtain ⟨hlt, -⟩ := run_in_flight (s₀.start capacity outcomes) hstart is
      omega
  · intro s
    exact packet_avail_loop_levels_bound s.tx_sink.submit_queue
      { s with _ack_queue_full := decide (s._p_in_fly ≥ s.tx_sink.ack_slots_free) } rfl

theorem in_flight_within_capacity_witness :
    (((sample_session [] [] 0).start 4 [Outcome.accepted, Outcome.Request_congestion]).run
        [Invocation.submit (sample_packet Opcode.READ 1 1),
         Invocation.submit (sample_packet Opcode.READ 2 1),
         Invocation.packet_avail,
         Invocation.ack_packet (sample_packet Opcode.READ 1 1) true])._p_in_fly ≤ 4 :=
  (in_flight_within_capacity { block_count := 1000, dma_enabled := false } {} ""
    (sample_session [] [] 0) 4 [Outcome.accepted, Outcome.Request_congestion]
    [Invocation.submit (sample_packet Opcode.READ 1 1),
     Invocation.submit (sample_packet Opcode.READ 2 1),
     Invocation.packet_avail,
     Invocation.ack_packet (sample_packet Opcode.READ 1 1) true]
    rfl ⟨by decide, trivial⟩).1

/-- C20: after any sequence of `_packet_avail`, `_ready_to_ack` and
`ack_packet` invocations (and client submissions and releases) on a freshly
constructed session whose backend completes each accepted packet at most
once, not more packets were acknowledged than dequeued and `_p_in_fly` equals
the number of packets dequeued from the submit queue minus the number of
packets acknowledged.  Every dequeue, also of a rejected packet, counts once
and every acknowledgement counts once; the backend calls, the repeated call
for a held packet included, do not enter the count.  The capacity of the
packet stream is below `2^32`, the range of the counter. -/
theorem in_flight_counter (d : Driver) (pol : Policy) (label : String)
    (s₀ : Session_component) (capacity : Nat) (outcomes : List Outcome)
    (is : List Invocation)
    (h : Session_component.construct d pol label = Except.ok s₀)
    (hcap : capacity < UNSIGNED_MOD)
    (hb : (s₀.start capacity outcomes).completes_at_most_once outcomes 0 is) :
    (acks ((s₀.start capacity outcomes).run is).trace).length ≤
      (dequeues ((s₀.start capacity outcomes).run is).trace).length ∧
    ((s₀.start capacity outcomes).run is)._p_in_fly =
      (dequeues ((s₀.start capacity outcomes).run is).trace).length -
        (acks ((s₀.start capacity outcomes).run is).trace).length := by
  obtain ⟨h1, h2, h3⟩ := construct_ok_fresh d pol label s₀ h
  have e1 : (s₀.start capacity outcomes)._p_in_fly = 0 := h1
  have e2 : (s₀.start capacity outcomes).trace = [] := h2
  have e3 : (s₀.start capacity outcomes)._req_queue_full = false := h3
  have e4 : (s₀.start capacity outcomes).tx_sink.capacity = capacity := rfl
  have e5 : (s₀.start capacity outcomes).outcomes = outcomes := rfl
  have hacc : (s₀.start capacity outcomes).accounted outcomes 0 := by
    unfold Session_component.accounted
    rw [e1, e2, e3, e5]
    simp [backend_calls, acks, dequeues, refusals_zero]
  obtain ⟨c', ⟨-, q2, -, -, -⟩, -⟩ :=
    run_accounted outcomes is (s₀.start capacity outcomes) 0 (by rw [e4]; exact hcap)
      hacc hb
  omega

theorem in_flight_counter_witness :
    (((sample_session [] [] 0).start 4 []).run
        [Invocation.submit (sample_packet Opcode.READ 1 1),
         Invocation.submit (sample_packet Opcode.READ 2000 1),
         Invocation.submit (sample_packet Opcode.READ 2 1),
         Invocation.packet_avail,
         Invocation.ack_packet (sample_packet Opcode.READ 1 1) true])._p_in_fly = 3 - 2 :=
  (in_flight_counter { block_count := 1000, dma_enabled := false } {} ""
    (sample_session [] [] 0) 4 []
    [Invocation.submit (sample_packet Opcode.READ 1 1),
     Invocation.submit (sample_packet Opcode.READ 2000 1),
     Invocation.submit (sample_packet Opcode.READ 2 1),
     Invocation.packet_avail,
     Invocation.ack_packet (sample_packet Opcode.READ 1 1) true]
    rfl (by decide) ⟨by decide, trivial⟩).2

end Block
